import Mathlib

/-! MechCommander 2 texture manager (`mclib/txmmgr.cpp`) and its graphics device.

A shallow embedding of `MC_TextureManager` / `MC_TextureNode` from
`src/mclib/txmmgr.cpp` together with the part of `gosRenderer`
(`src/GameOS/gameos/gameos_graphics.cpp`) that the texture manager drives:
`gos_NewTextureFromMemory`, `gos_NewEmptyTexture`, `gos_LockTexture`,
`gos_UnLockTexture` and `gos_DestroyTexture`.  Three further pieces are embedded on
their own: the vertex batches of `MC_TextureManager::renderLists`, the pixel
conversion of `gosTexture::Lock` / `gosTexture::Unlock`, and the text wrapping of
`findTextBreak` / `calcTextHeight`.

Conventions of the embedding.

* `DWORD` fields are `Nat`; where the source can wrap (the `numUsers--` of
  `removeTexture`, the `0xf0000000 + txmSize` of `loadTexture`, the handle
  returned by `addTexture`) the arithmetic is written `% 2 ^ 32`.
* `long` values (`turn`, `lastUsed`) are `Int`.  The field types of `MC_TextureNode` are
  read off their uses in `txmmgr.cpp`: handles, flags, counters and sizes are compared with
  and assigned from `DWORD` arguments; `lastUsed` receives `-1` and `turn` and is compared
  with `turn - 150`, so it is signed like `turn`.
* `STOP((...))` ends the run in every build: `Run.stopped`.  `PAUSE((...))` only reports and
  the call goes on.  A failing `gosASSERT` ends the run where it is compiled in.  The two
  assertions of `loadTexture` are compiled in with `_DEBUG` only (the variable the first one
  tests is declared under `#ifdef _DEBUG`), and `Config.DEBUG` says which build is meant.
  The assertions of the graphics device guard a null or zero-sized texture, and the one of
  `copyTexture` an index outside the node table; past them the source is undefined: there the
  run ends in either build.
* The header `txmmgr.h` is not part of the sources at hand, so its constants
  (`MC_MAXTEXTURES`, `MAX_MC2_GOS_TEXTURES`, `CACHED_OUT_HANDLE`,
  `MAX_LZ_BUFFER_SIZE`), the LZ codec, `S_stricmp` and the image decoder are
  fields of `Config`.
* The table `masterTextureNodes` is a list; its length plays the role of
  `MC_MAXTEXTURES` in every loop bound (`start` builds it with that length).
* The globals `turn` and `g_gos_renderer->textureList_` are fields of the state.
* Loops whose number of passes is not fixed by their text (`renderLists`,
  `findTextBreak`, `calcTextHeight`) take a bound on the passes and yield `none`
  when it is used up; what is proved of them is that a stated bound suffices.
-/

namespace MC2

/-! ## Results of a call -/

/-- Why a run ended: one constructor per `STOP` / `gosASSERT` site that is modelled. -/
inductive StopReason where
  | tooManyTextures      -- STOP "TOO Many textures in game"
  | fileOpenFailed       -- gosASSERT(textureFileOpenResult == NO_ERR)
  | inputTooLarge        -- gosASSERT(txmSize <= MAX_LZ_BUFFER_SIZE)
  | sizeMismatch         -- STOP "Decompressed to different size from original!"
  | textureTooLarge      -- STOP "Texture TOO large"
  | invalidCopy          -- STOP "tried to copy an invalid texture"
  | createFailed         -- STOP "Failed to create texture"
  | assertFailed         -- any other gosASSERT
  | badIndex             -- an index outside the node table or the texture list
  | bufferOverrun        -- a read past the end of lzBuffer1 (no STOP: undefined in the source)
deriving DecidableEq, Repr

/-- A call either returns a value or stops the program. -/
inductive Run (α : Type) where
  | done : α → Run α
  | stopped : StopReason → Run α
deriving DecidableEq, Repr

/-- Sequencing of calls: a stop ends the run. -/
def Run.bind {α β : Type} (r : Run α) (f : α → Run β) : Run β :=
  match r with
  | Run.done a => f a
  | Run.stopped e => Run.stopped e

/-! ## Data model -/

/-- The texture formats named in the sources (`gos_TextureFormat`). -/
inductive gos_TextureFormat where
  | gos_Texture_Detect
  | gos_Texture_Solid
  | gos_Texture_Alpha
  | gos_Texture_Keyed
  | gos_Texture_Bump
  | gos_Texture_Normal
deriving DecidableEq, Repr

/-- One entry of `masterTextureNodes`. -/
structure MC_TextureNode where
  gosTextureHandle : Nat
  nodeName : Option String
  uniqueInstance : Nat
  neverFLUSH : Nat
  numUsers : Nat
  key : gos_TextureFormat
  hints : Nat
  width : Nat
  lastUsed : Int
  textureData : Option (List Nat)
  lzCompSize : Nat
deriving DecidableEq, Repr

/-- A texture object owned by the renderer (`class gosTexture`).  `pcompdata_` holds the
encoded bytes a texture was created from (`gos_NewTextureFromMemory`); `w`, `h` are the
dimensions given to `gos_NewEmptyTexture`; `uploaded` is what `Unlock` sent to the hardware
texture, as the bytes found in the locked area. -/
structure gosTexture where
  format_ : gos_TextureFormat
  name : Option String
  hints_ : Nat
  is_from_bytes : Bool
  pcompdata_ : List Nat
  w : Nat
  h : Nat
  is_locked_ : Bool
  uploaded : Option (List Nat)
deriving DecidableEq, Repr

/-- A texture file as `loadTexture` sees it: its bytes (`fileSize` is their number) and what
`File::readRAW` hands back, a ready compressed blob or nothing. -/
structure TextureFile where
  content : List Nat
  readRAW : Option (List Nat)
deriving DecidableEq, Repr

/-- What `txmmgr.h`, the build and the external libraries fix.  `DEBUG` is whether the macro
`_DEBUG` is defined, that is whether the `gosASSERT`s of `loadTexture` are compiled in (see
`openTextureFile`).  `closedFile` is what `fileSize`, `read` and `readRAW` yield on a `File`
whose `open` has failed (`file.cpp` is not part of the sources at hand). -/
structure Config where
  MC_MAXTEXTURES : Nat
  MAX_MC2_GOS_TEXTURES : Nat
  CACHED_OUT_HANDLE : Nat
  MAX_LZ_BUFFER_SIZE : Nat
  Renderer : Nat
  S_stricmp : String → String → Int
  LZCompress : List Nat → List Nat
  LZDecomp : List Nat → List Nat
  loadTGA : List Nat → Bool
  DEBUG : Bool
  closedFile : TextureFile

/-- The manager, the renderer's texture list and the global `turn`. -/
structure MC_TextureManager where
  masterTextureNodes : List MC_TextureNode
  currentUsedTextures : Nat
  totalCacheMisses : Nat
  lzBuffer2 : List Nat
  textureList_ : List (Option gosTexture)
  turn : Int
deriving DecidableEq, Repr

/-- Modelled from the spec: `MC_TextureNode::init` is declared in `txmmgr.h`, which is absent.
The spec's `Free` state ("never used"; `release` "resets the slot to `Free`") is the node with
`gosTextureHandle = 0xffffffff`, no name, no blob and no users; the remaining fields take the
values `start` writes into node 0. -/
def MC_TextureNode.init : MC_TextureNode :=
  { gosTextureHandle := 0xffffffff
    nodeName := none
    uniqueInstance := 0
    neverFLUSH := 0
    numUsers := 0
    key := gos_TextureFormat.gos_Texture_Solid
    hints := 0
    width := 0
    lastUsed := -1
    textureData := none
    lzCompSize := 0 }

/-! ## The graphics device (`gameos_graphics.cpp`) -/

/-- Embeds `gosRenderer::addTexture`: push the object and return its index. -/
def addTexture (s : MC_TextureManager) (t : gosTexture) : Nat × MC_TextureManager :=
  (s.textureList_.length % 2 ^ 32, { s with textureList_ := s.textureList_ ++ [some t] })

/-- Embeds `gos_DestroyTexture` / `gosRenderer::deleteTexture`: the entry becomes null.  The
assertion `textureList_.size() > texture_id` is not modelled: an index past the list leaves
the list as it is. -/
def gos_DestroyTexture (s : MC_TextureManager) (Handle : Nat) : MC_TextureManager :=
  { s with textureList_ := s.textureList_.set Handle none }

/-- Embeds `gos_NewTextureFromMemory`: the object is built from the given bytes
(`gosTexture::createHardwareTexture`, branch `pcompdata_ && size_ > 0`, decodes them). -/
def gos_NewTextureFromMemory (cfg : Config) (s : MC_TextureManager)
    (Format : gos_TextureFormat) (FileName : Option String) (pBitmap : List Nat) (Size : Nat)
    (Hints : Nat) : Run (Nat × MC_TextureManager) :=
  let data := if Size = 0 then [] else pBitmap.take Size
  if Size = 0 then Run.stopped StopReason.assertFailed
  else if cfg.loadTGA data then
    Run.done (addTexture s
      { format_ := Format, name := FileName, hints_ := Hints, is_from_bytes := true,
        pcompdata_ := data, w := 0, h := 0, is_locked_ := false, uploaded := none })
  else Run.stopped StopReason.createFailed

/-- Embeds `gos_NewEmptyTexture`: a `w` by `h` texture, both taken from `HeightWidth`. -/
def gos_NewEmptyTexture (s : MC_TextureManager)
    (Format : gos_TextureFormat) (Name : Option String) (HeightWidth : Nat) (Hints : Nat) :
    Run (Nat × MC_TextureManager) :=
  let w := if HeightWidth &&& 0xffff0000 ≠ 0 then HeightWidth &&& 0xffff else HeightWidth
  let h := if HeightWidth &&& 0xffff0000 ≠ 0 then HeightWidth >>> 16 else HeightWidth
  if 0 < w ∧ 0 < h then
    Run.done (addTexture s
      { format_ := Format, name := Name, hints_ := Hints, is_from_bytes := false,
        pcompdata_ := [], w := w, h := h, is_locked_ := false, uploaded := none })
  else Run.stopped StopReason.assertFailed

/-- Embeds `gosRenderer::getTexture`: handle 0, an index past the list and a null entry are
rejected by its assertions. -/
def getTexture (s : MC_TextureManager) (texture_id : Nat) : Run gosTexture :=
  if texture_id = 0 then Run.stopped StopReason.assertFailed
  else match s.textureList_[texture_id]? with
    | some (some t) => Run.done t
    | _ => Run.stopped StopReason.assertFailed

/-- Bytes `0 .. n-1` of a scratch buffer of which `buf` is the part written so far. -/
def readBuf (buf : List Nat) (n : Nat) : List Nat :=
  (buf ++ List.replicate (n - buf.length) 0).take n

/-- Writing `data` at the start of a scratch buffer. -/
def writeBuf (buf data : List Nat) : List Nat :=
  data ++ buf.drop data.length

/-- Embeds `gos_LockTexture` (writeable, mip 0), the caller's `memcpy` of `txmSize` bytes of
`lzBuffer2` into the locked area, and `gos_UnLockTexture`, in that order. -/
def lockCopyUnlock (s : MC_TextureManager) (Handle : Nat) : Run MC_TextureManager :=
  (getTexture s Handle).bind fun t =>
    if t.is_locked_ then Run.stopped StopReason.assertFailed
    else
      let txmSize := (t.h * t.h * 4) % 2 ^ 32
      Run.done { s with textureList_ :=
        s.textureList_.set Handle (some { t with uploaded := some (readBuf s.lzBuffer2 txmSize) }) }

/-! ## `MC_TextureManager` (`txmmgr.cpp`) -/

/-- First index of a list whose entry satisfies `p`: the `for (i = 0; ...) if (...) break;`
scans of the source. -/
def firstIndex {α : Type} (p : α → Bool) : List α → Option Nat
  | [] => none
  | a :: as => if p a then some 0 else (firstIndex p as).map (· + 1)

/-- Entry `i` of a list replaced by `f` of it (an in-place write to `a[i]`). -/
def modifyAt {α : Type} (f : α → α) : List α → Nat → List α
  | [], _ => []
  | a :: as, 0 => f a :: as
  | a :: as, i + 1 => a :: modifyAt f as i

/-- Replace entry `i` of the node table by `f` of it. -/
def modifyNode (s : MC_TextureManager) (i : Nat) (f : MC_TextureNode → MC_TextureNode) :
    MC_TextureManager :=
  { s with masterTextureNodes := modifyAt f s.masterTextureNodes i }

/-- The texture list of a renderer after `gosRenderer::init`: one fake texture, so that
handle 0 is never given out. -/
def rendererInit : List (Option gosTexture) :=
  [some { format_ := gos_TextureFormat.gos_Texture_Solid
          name := some "DEBUG_this_is_not_a_real_texture_debug_it!"
          hints_ := 0, is_from_bytes := false, pcompdata_ := [], w := 1, h := 1
          is_locked_ := false, uploaded := none }]

/-- Embeds `MC_TextureManager::start`, lines 114-180: every node is `init`-ed, the counters are those
of `MC_TextureManager::init` (modelled from the spec: zero), and node 0 becomes the empty
texture node.  The renderer's texture list and the value of `turn` are whatever they are when
`start` is called. -/
def start (cfg : Config) (textureList_ : List (Option gosTexture)) (turn : Int) :
    MC_TextureManager :=
  { masterTextureNodes :=
      (List.replicate cfg.MC_MAXTEXTURES MC_TextureNode.init).set 0
        { gosTextureHandle := 0
          nodeName := none
          uniqueInstance := 0
          neverFLUSH := 0x1
          numUsers := 0
          key := gos_TextureFormat.gos_Texture_Solid
          hints := 0
          width := 0
          lastUsed := -1
          textureData := none
          lzCompSize := 0 }
    currentUsedTextures := 0
    totalCacheMisses := 0
    lzBuffer2 := []
    textureList_ := textureList_
    turn := turn }

/-- Embeds `MC_TextureNode::destroy`, lines 1773-1783, on node `i`: a live GPU object is destroyed,
name and blob are freed, the node is `init`-ed. -/
def destroy (cfg : Config) (s : MC_TextureManager) (i : Nat) : MC_TextureManager :=
  match s.masterTextureNodes[i]? with
  | none => s
  | some n =>
    let s1 :=
      if n.gosTextureHandle ≠ cfg.CACHED_OUT_HANDLE ∧ n.gosTextureHandle ≠ 0xffffffff ∧
          n.gosTextureHandle ≠ 0 then
        gos_DestroyTexture s n.gosTextureHandle
      else s
    modifyNode s1 i (fun _ => MC_TextureNode.init)

/-- Lines 355-365 and 386-396: after `destroy` the blob pointer is tested again and, when
still set, blob and name are freed. -/
def freeLeftovers (s : MC_TextureManager) (i : Nat) : MC_TextureManager :=
  match s.masterTextureNodes[i]? with
  | none => s
  | some n =>
    if n.textureData.isSome then
      modifyNode s i (fun m => { m with textureData := none, nodeName := none })
    else s

/-- Embeds `MC_TextureManager::removeTextureNode`, lines 349-367. -/
def removeTextureNode (cfg : Config) (s : MC_TextureManager) (textureNode : Nat) :
    Run MC_TextureManager :=
  if textureNode ≠ 0xffffffff then
    if textureNode < s.masterTextureNodes.length then
      Run.done (freeLeftovers (destroy cfg s textureNode) textureNode)
    else Run.stopped StopReason.badIndex
  else Run.done s

/-- Embeds `MC_TextureManager::removeTexture`, lines 370-398. -/
def removeTexture (cfg : Config) (s : MC_TextureManager) (gosHandle : Nat) :
    MC_TextureManager :=
  match firstIndex (fun n => n.gosTextureHandle == gosHandle) s.masterTextureNodes with
  | none => s
  | some i =>
    let s1 := modifyNode s i (fun n => { n with numUsers := (n.numUsers + 2 ^ 32 - 1) % 2 ^ 32 })
    match s1.masterTextureNodes[i]? with
    | none => s1
    | some n =>
      if n.numUsers = 0 then freeLeftovers (destroy cfg s1 i) i else s1

/-- The test shared by every sweep: the node holds neither `CACHED_OUT_HANDLE` nor
`0xffffffff`. -/
def inUse (cfg : Config) (n : MC_TextureNode) : Bool :=
  n.gosTextureHandle != cfg.CACHED_OUT_HANDLE && n.gosTextureHandle != 0xffffffff

/-- Condition of the first sweep of `flushCache`, lines 425-429 (`cache_Threshold` = 150). -/
def sweep1 (cfg : Config) (turn : Int) (n : MC_TextureNode) : Bool :=
  inUse cfg n && n.uniqueInstance == 0 && decide (n.lastUsed ≤ turn - 150)

/-- Condition of the second sweep of `flushCache`, lines 447-452. -/
def sweep2 (cfg : Config) (turn : Int) (n : MC_TextureNode) : Bool :=
  inUse cfg n && n.gosTextureHandle != 0 && n.uniqueInstance == 0 &&
    decide (n.lastUsed ≤ turn - 30)

/-- Condition of the third sweep of `flushCache`, lines 470-474. -/
def sweep3 (cfg : Config) (turn : Int) (n : MC_TextureNode) : Bool :=
  inUse cfg n && n.uniqueInstance == 0 && decide (n.lastUsed ≤ turn - 1)

/-- The body shared by the three sweeps ("Cache this badboy out"): destroy the GPU object when
the handle is not 0, store `CACHED_OUT_HANDLE`, lower `currentUsedTextures`. -/
def cacheOut (cfg : Config) (s : MC_TextureManager) (i : Nat) : MC_TextureManager :=
  match s.masterTextureNodes[i]? with
  | none => s
  | some n =>
    let s1 := if n.gosTextureHandle ≠ 0 then gos_DestroyTexture s n.gosTextureHandle else s
    let s2 := modifyNode s1 i (fun m => { m with gosTextureHandle := cfg.CACHED_OUT_HANDLE })
    { s2 with currentUsedTextures := s2.currentUsedTextures - 1 }

/-- The head of `flushCache`, lines 404-417: one more cache miss, and `currentUsedTextures`
becomes the number of nodes that hold neither `CACHED_OUT_HANDLE` nor `0xffffffff`. -/
def recount (cfg : Config) (s : MC_TextureManager) : MC_TextureManager :=
  { s with totalCacheMisses := s.totalCacheMisses + 1
           currentUsedTextures := s.masterTextureNodes.countP (inUse cfg) }

/-- Embeds `MC_TextureManager::flushCache`, lines 402-492. -/
def flushCache (cfg : Config) (s : MC_TextureManager) : Bool × MC_TextureManager :=
  let s0 := recount cfg s
  if s0.currentUsedTextures < cfg.MAX_MC2_GOS_TEXTURES then (true, s0)
  else
    match firstIndex (sweep1 cfg s0.turn) s0.masterTextureNodes with
    | some i => (true, cacheOut cfg s0 i)
    | none =>
      match firstIndex (sweep2 cfg s0.turn) s0.masterTextureNodes with
      | some i => (true, cacheOut cfg s0 i)
      | none =>
        match firstIndex (sweep3 cfg s0.turn) s0.masterTextureNodes with
        | some i => (true, cacheOut cfg s0 i)
        | none => (false, s0)

/-- The inner tests of `update`, lines 1391-1394: not a unique instance, bit 0 of `neverFLUSH`
clear, and last used 60 turns ago or earlier. -/
def cacheable60 (turn : Int) (n : MC_TextureNode) : Bool :=
  n.uniqueInstance == 0 && (n.neverFLUSH &&& 1) == 0 && decide (n.lastUsed ≤ turn - 60)

/-- One pass of the loop of `update`, lines 1386-1411, over the nodes from some index on.
The accumulator carries the texture list, `numTexturesFreed` and `currentUsedTextures`. -/
def updateLoop (cfg : Config) (turn : Int) :
    List MC_TextureNode → List (Option gosTexture) × Nat × Nat →
      List MC_TextureNode × List (Option gosTexture) × Nat × Nat
  | [], acc => ([], acc)
  | n :: ns, (tl, freed, used) =>
    if inUse cfg n then
      if cacheable60 turn n then
        let tl1 := if n.gosTextureHandle ≠ 0 then tl.set n.gosTextureHandle none else tl
        let r := updateLoop cfg turn ns (tl1, freed + 1, used)
        ({ n with gosTextureHandle := cfg.CACHED_OUT_HANDLE } :: r.1, r.2)
      else
        let r := updateLoop cfg turn ns (tl, freed, used + 1)
        (n :: r.1, r.2)
    else
      let r := updateLoop cfg turn ns (tl, freed, used)
      (n :: r.1, r.2)

/-- Embeds `MC_TextureManager::update`, lines 1381-1414: returns `numTexturesFreed`. -/
def update (cfg : Config) (s : MC_TextureManager) : Nat × MC_TextureManager :=
  let r := updateLoop cfg s.turn s.masterTextureNodes (s.textureList_, 0, 0)
  (r.2.2.1,
    { s with masterTextureNodes := r.1
             textureList_ := r.2.1
             currentUsedTextures := r.2.2.2 })

/-- Embeds `MC_TextureManager::textureFromMemory`, lines 1417-1480.  `data` are the caller's pixels as
bytes; `mallocOk` is whether `textureCacheHeap->Malloc` hands out a block (the heap is set up
with `setMallocFatals(false)`, so a failure returns NULL). -/
def textureFromMemory (cfg : Config) (s : MC_TextureManager) (data : List Nat)
    (key : gos_TextureFormat) (hints width bitDepth : Nat) (mallocOk : Bool) :
    Run (Nat × MC_TextureManager) :=
  match firstIndex (fun n => n.gosTextureHandle == 0xffffffff) s.masterTextureNodes with
  | none => Run.stopped StopReason.tooManyTextures
  | some i =>
    let txmSize := (width * width * bitDepth) % 2 ^ 32
    let comp := cfg.LZCompress (data.take txmSize)
    let s1 : MC_TextureManager := { s with lzBuffer2 := writeBuf s.lzBuffer2 comp }
    Run.done (i, modifyNode s1 i (fun n =>
      let n1 : MC_TextureNode :=
        { n with gosTextureHandle := cfg.CACHED_OUT_HANDLE
                 nodeName := none
                 numUsers := 1
                 key := key
                 hints := hints
                 width := width }
      match n1.textureData with
      | some old => { n1 with textureData := some (writeBuf old comp), lzCompSize := comp.length }
      | none =>
        if mallocOk then { n1 with textureData := some comp, lzCompSize := comp.length }
        else { n1 with gosTextureHandle := 0 }))

/-- The test of the scan "Is this texture already Loaded?", lines 1523-1525: the node has a
name, `S_stricmp` finds it equal to the path, and `uniqueInstance` is the node's. -/
def isLoaded (cfg : Config) (textureFullPathName : String) (uniqueInstance : Nat)
    (n : MC_TextureNode) : Bool :=
  match n.nodeName with
  | some nm => cfg.S_stricmp nm textureFullPathName == 0 && uniqueInstance == n.uniqueInstance
  | none => false

/-- The `File` object `loadTexture` goes on with after `textureFile.open`, lines 1580-1585, or
`none` when the run ends at `gosASSERT(textureFileOpenResult == NO_ERR)`.  The variable that
assertion tests is declared under `#ifdef _DEBUG` only, so the assertion exists in the `_DEBUG`
build alone; in the other builds a failed `open` goes unnoticed and the call goes on with the
unopened `File`. -/
def openTextureFile (cfg : Config) (textureFile : Option TextureFile) : Option TextureFile :=
  match textureFile with
  | some f => some f
  | none => if cfg.DEBUG then none else some cfg.closedFile

/-- Embeds `MC_TextureManager::loadTexture`, lines 1515-1630.  `textureFile` is `none` when the file
cannot be opened; `mallocOk` as in `textureFromMemory`.  When `readRAW` hands back nothing and
the file is larger than `MAX_LZ_BUFFER_SIZE`, the `_DEBUG` build stops at
`gosASSERT(txmSize <= MAX_LZ_BUFFER_SIZE)`; the other builds read past the end of `lzBuffer1`,
which the source leaves undefined: the run ends there as `bufferOverrun`. -/
def loadTexture (cfg : Config) (s : MC_TextureManager) (textureFullPathName : String)
    (key : gos_TextureFormat) (hints uniqueInstance nFlush : Nat)
    (textureFile : Option TextureFile) (mallocOk : Bool) : Run (Nat × MC_TextureManager) :=
  match firstIndex (isLoaded cfg textureFullPathName uniqueInstance) s.masterTextureNodes with
  | some i =>
    Run.done (i, modifyNode s i (fun n => { n with numUsers := (n.numUsers + 1) % 2 ^ 32 }))
  | none =>
    match firstIndex (fun n => n.gosTextureHandle == 0xffffffff) s.masterTextureNodes with
    | none => Run.stopped StopReason.tooManyTextures
    | some i =>
      let key1 :=
        if key = gos_TextureFormat.gos_Texture_Alpha ∧ cfg.Renderer = 3 then
          gos_TextureFormat.gos_Texture_Keyed
        else key
      match openTextureFile cfg textureFile with
      | none => Run.stopped StopReason.fileOpenFailed
      | some f =>
        let txmSize := f.content.length
        let header : MC_TextureNode → MC_TextureNode := fun n =>
          { n with gosTextureHandle := cfg.CACHED_OUT_HANDLE
                   nodeName := some textureFullPathName
                   numUsers := 1
                   key := key1
                   hints := hints
                   uniqueInstance := uniqueInstance
                   neverFLUSH := nFlush }
        let finish : MC_TextureNode → MC_TextureNode := fun n =>
          { n with width := (0xf0000000 + txmSize) % 2 ^ 32 }
        match f.readRAW with
        | some (b :: bs) =>
          Run.done (i, modifyNode s i (fun n =>
            finish { header n with textureData := some (b :: bs), lzCompSize := (b :: bs).length }))
        | _ =>
          if txmSize ≤ cfg.MAX_LZ_BUFFER_SIZE then
            let comp := cfg.LZCompress f.content
            let s1 : MC_TextureManager := { s with lzBuffer2 := writeBuf s.lzBuffer2 comp }
            Run.done (i, modifyNode s1 i (fun n =>
              let n1 := header n
              let n2 : MC_TextureNode :=
                if mallocOk then { n1 with textureData := some comp }
                else { n1 with textureData := none, gosTextureHandle := 0 }
              finish { n2 with lzCompSize := comp.length }))
          else if cfg.DEBUG then Run.stopped StopReason.inputTooLarge
          else Run.stopped StopReason.bufferOverrun

/-- Embeds `MC_TextureManager::copyTexture`, lines 1672-1687. -/
def copyTexture (s : MC_TextureManager) (texNodeID : Nat) : Run (Nat × MC_TextureManager) :=
  match s.masterTextureNodes[texNodeID]? with
  | none => Run.stopped StopReason.assertFailed
  | some n =>
    if n.gosTextureHandle ≠ 0xffffffff then
      Run.done (texNodeID,
        modifyNode s texNodeID (fun m => { m with numUsers := (m.numUsers + 1) % 2 ^ 32 }))
    else Run.stopped StopReason.invalidCopy

/-- Embeds `MC_TextureNode::get_gosTextureHandle`, lines 1690-1770, on node `i` of the table. -/
def get_gosTextureHandle (cfg : Config) (s : MC_TextureManager) (i : Nat) :
    Run (Nat × MC_TextureManager) :=
  match s.masterTextureNodes[i]? with
  | none => Run.stopped StopReason.badIndex
  | some n =>
    if n.gosTextureHandle = 0xffffffff then Run.done (0, s)
    else if n.gosTextureHandle ≠ cfg.CACHED_OUT_HANDLE then
      Run.done (n.gosTextureHandle, modifyNode s i (fun m => { m with lastUsed := s.turn }))
    else
      let r : Bool × MC_TextureManager :=
        if s.currentUsedTextures ≥ cfg.MAX_MC2_GOS_TEXTURES then flushCache cfg s else (true, s)
      let s1 := r.2
      if r.1 = false then Run.done (0, s1)
      else if n.width = 0 then Run.done (0, s1)
      else
        match n.textureData with
        | none => Run.done (0, s1)
        | some blob =>
          let dec := cfg.LZDecomp (blob.take n.lzCompSize)
          let s2 : MC_TextureManager := { s1 with lzBuffer2 := writeBuf s1.lzBuffer2 dec }
          if n.width > 0xf0000000 then
            if dec.length ≠ n.width &&& 0x0fffffff then Run.stopped StopReason.sizeMismatch
            else if dec.length ≥ cfg.MAX_LZ_BUFFER_SIZE then
              Run.stopped StopReason.textureTooLarge
            else
              (gos_NewTextureFromMemory cfg s2 n.key n.nodeName s2.lzBuffer2
                  (n.width &&& 0x0fffffff) n.hints).bind fun hs =>
                let s3 := modifyNode hs.2 i (fun m =>
                  { m with gosTextureHandle := hs.1, lastUsed := s.turn })
                Run.done (hs.1, { s3 with currentUsedTextures := s3.currentUsedTextures + 1 })
          else
            (gos_NewEmptyTexture s2 n.key n.nodeName n.width n.hints).bind fun hs =>
              let s3 := modifyNode hs.2 i (fun m => { m with gosTextureHandle := hs.1 })
              let s4 : MC_TextureManager :=
                { s3 with currentUsedTextures := s3.currentUsedTextures + 1 }
              (lockCopyUnlock s4 hs.1).bind fun s5 =>
                Run.done (hs.1, modifyNode s5 i (fun m => { m with lastUsed := s.turn }))

/-- What `saveTexture` returns: `NO_ERR`, `~NO_ERR`, or the error code of `File::create`. -/
inductive SaveStatus where
  | NO_ERR
  | notNO_ERR
  | fileError (code : Int)
deriving DecidableEq, Repr

/-- The outcome of `saveTexture`: the value returned and the file at `textureFullPathName`,
`none` when no file was created, else its bytes. -/
structure SaveResult where
  status : SaveStatus
  file : Option (List Nat)
deriving DecidableEq, Repr

/-- Embeds `MC_TextureManager::saveTexture`, lines 1633-1670.  `createError` is `none` when
`textureFile.create` returns `NO_ERR`, else the code it returns. -/
def saveTexture (cfg : Config) (s : MC_TextureManager) (textureIndex : Nat)
    (createError : Option Int) : Run (SaveResult × MC_TextureManager) :=
  match s.masterTextureNodes[textureIndex]? with
  | none => Run.done ({ status := SaveStatus.notNO_ERR, file := none }, s)
  | some n =>
    match n.textureData with
    | none => Run.done ({ status := SaveStatus.notNO_ERR, file := none }, s)
    | some blob =>
      match createError with
      | some e => Run.done ({ status := SaveStatus.fileError e, file := none }, s)
      | none =>
        if n.width = 0 then Run.done ({ status := SaveStatus.notNO_ERR, file := some [] }, s)
        else
          let dec := cfg.LZDecomp (blob.take n.lzCompSize)
          let s1 : MC_TextureManager := { s with lzBuffer2 := writeBuf s.lzBuffer2 dec }
          if dec.length ≠ n.width &&& 0x0fffffff then Run.stopped StopReason.sizeMismatch
          else if dec.length ≥ cfg.MAX_LZ_BUFFER_SIZE then Run.stopped StopReason.textureTooLarge
          else
            Run.done ({ status := SaveStatus.NO_ERR
                        file := some (readBuf s1.lzBuffer2 dec.length) }, s1)

/-- The texture part of `MC_TextureManager::flush`, lines 263-275: every node whose
`neverFLUSH` is zero is destroyed, then `currentUsedTextures` is set to zero.  What follows in
the source for `justTextures = false` restarts other subsystems and is left out. -/
def flush (cfg : Config) (s : MC_TextureManager) : MC_TextureManager :=
  let s1 := (List.range s.masterTextureNodes.length).foldl
    (fun t i =>
      match t.masterTextureNodes[i]? with
      | some n => if n.neverFLUSH = 0 then destroy cfg t i else t
      | none => t) s
  { s1 with currentUsedTextures := 0 }

/-! ## Sequences of calls and the notions the claims speak of -/

/-- A node is Resident when it holds a live GPU handle: none of `CACHED_OUT_HANDLE`,
`0xffffffff` (Free) and `0` (no texture).  This is the test of `MC_TextureNode::destroy`. -/
def isResident (cfg : Config) (n : MC_TextureNode) : Bool :=
  n.gosTextureHandle != cfg.CACHED_OUT_HANDLE && n.gosTextureHandle != 0xffffffff &&
    n.gosTextureHandle != 0

/-- Number of Resident nodes of the table. -/
def residentCount (cfg : Config) (s : MC_TextureManager) : Nat :=
  s.masterTextureNodes.countP (isResident cfg)

/-- One call of the manager's interface, or the game advancing `turn`. -/
inductive Call where
  | loadTexture (path : String) (key : gos_TextureFormat) (hints uniqueInstance nFlush : Nat)
      (textureFile : Option TextureFile) (mallocOk : Bool)
  | textureFromMemory (data : List Nat) (key : gos_TextureFormat) (hints width bitDepth : Nat)
      (mallocOk : Bool)
  | get_gosTextureHandle (i : Nat)
  | update
  | copyTexture (texNodeID : Nat)
  | removeTexture (gosHandle : Nat)
  | removeTextureNode (textureNode : Nat)
  | saveTexture (textureIndex : Nat) (createError : Option Int)
  | flush
  | advanceTurn (k : Nat)
deriving DecidableEq, Repr

/-- The state after one call (the value returned is dropped). -/
def step (cfg : Config) (s : MC_TextureManager) : Call → Run MC_TextureManager
  | Call.loadTexture p k h u nf f m => (loadTexture cfg s p k h u nf f m).bind fun r => Run.done r.2
  | Call.textureFromMemory d k h w b m =>
    (textureFromMemory cfg s d k h w b m).bind fun r => Run.done r.2
  | Call.get_gosTextureHandle i => (get_gosTextureHandle cfg s i).bind fun r => Run.done r.2
  | Call.update => Run.done (update cfg s).2
  | Call.copyTexture i => (copyTexture s i).bind fun r => Run.done r.2
  | Call.removeTexture h => Run.done (removeTexture cfg s h)
  | Call.removeTextureNode i => removeTextureNode cfg s i
  | Call.saveTexture i e => (saveTexture cfg s i e).bind fun r => Run.done r.2
  | Call.flush => Run.done (flush cfg s)
  | Call.advanceTurn k => Run.done { s with turn := s.turn + k }

/-- The state after a sequence of calls. -/
def runCalls (cfg : Config) : MC_TextureManager → List Call → Run MC_TextureManager
  | s, [] => Run.done s
  | s, c :: cs => (step cfg s c).bind fun s1 => runCalls cfg s1 cs

/-- Either `copyTexture(id)` or `removeTexture(h)`: the two calls of the reference lifecycle. -/
inductive ShareCall where
  | copy
  | remove
deriving DecidableEq, Repr

/-- A sequence of `copyTexture(id)` and `removeTexture(h)` calls, run in order. -/
def runShare (cfg : Config) (id h : Nat) : MC_TextureManager → List ShareCall →
    Run MC_TextureManager
  | s, [] => Run.done s
  | s, ShareCall.copy :: cs => (copyTexture s id).bind fun r => runShare cfg id h r.2 cs
  | s, ShareCall.remove :: cs => runShare cfg id h (removeTexture cfg s h) cs

/-- Number of `copyTexture` calls of a sequence. -/
def copies (cs : List ShareCall) : Nat := cs.count ShareCall.copy

/-- Number of `removeTexture` calls of a sequence. -/
def removes (cs : List ShareCall) : Nat := cs.count ShareCall.remove

/-! ## A small instance used for concrete runs -/

/-- Lower-case code of an ASCII character. -/
def lowerCode (c : Char) : Nat :=
  if 65 ≤ c.toNat ∧ c.toNat ≤ 90 then c.toNat + 32 else c.toNat

/-- A case-insensitive comparison standing for `S_stricmp`: 0 exactly on a match. -/
def stricmpModel (a b : String) : Int :=
  if a.data.map lowerCode = b.data.map lowerCode then 0 else 1

/-- A configuration with five table slots and a budget of two GPU textures; the codec is
the identity and every image decodes; the build is the `_DEBUG` build, and an unopened `File`
yields no bytes. -/
def smallConfig : Config :=
  { MC_MAXTEXTURES := 5
    MAX_MC2_GOS_TEXTURES := 2
    CACHED_OUT_HANDLE := 0xFFFFFFFA
    MAX_LZ_BUFFER_SIZE := 64
    Renderer := 0
    S_stricmp := stricmpModel
    LZCompress := fun x => x
    LZDecomp := fun x => x
    loadTGA := fun _ => true
    DEBUG := true
    closedFile := { content := [], readRAW := none } }

/-- A file with the given bytes for which `readRAW` has nothing. -/
def fileOf (bytes : List Nat) : Option TextureFile :=
  some { content := bytes, readRAW := none }

/-- Loading a non-exempt texture from a file. -/
def loadPlain (path : String) (bytes : List Nat) : Call :=
  Call.loadTexture path gos_TextureFormat.gos_Texture_Solid 0 0 0 (fileOf bytes) true

/-- Three loads and three materializations within one turn. -/
def budgetCalls : List Call :=
  [ loadPlain "a.tga" [1, 2], loadPlain "b.tga" [3], loadPlain "c.tga" [4, 5, 6],
    Call.get_gosTextureHandle 1, Call.get_gosTextureHandle 2, Call.get_gosTextureHandle 3 ]

/-- The example of the specification: load A, B, C; use A, then B; one turn later use C. -/
def specExampleCalls : List Call :=
  [ loadPlain "A" [1, 2], loadPlain "B" [3], loadPlain "C" [4, 5, 6],
    Call.get_gosTextureHandle 1, Call.get_gosTextureHandle 2,
    Call.advanceTurn 1, Call.get_gosTextureHandle 3 ]

/-- The handles held by the table, in table order. -/
def handles (s : MC_TextureManager) : List Nat :=
  s.masterTextureNodes.map (fun n => n.gosTextureHandle)

/-! ## Table states used in concrete statements -/

/-- The GPU object of a texture created from the one-byte file `[7]`. -/
def sampleTexture : gosTexture :=
  { format_ := gos_TextureFormat.gos_Texture_Solid, name := none, hints_ := 0
    is_from_bytes := true, pcompdata_ := [7], w := 0, h := 0
    is_locked_ := false, uploaded := none }

/-- A node as `loadTexture` leaves it for the one-byte file `[7]`, with the given handle,
flags and last use. -/
def sampleNode (handle : Nat) (name : String) (uniqueInstance neverFLUSH : Nat)
    (lastUsed : Int) : MC_TextureNode :=
  { gosTextureHandle := handle
    nodeName := some name
    uniqueInstance := uniqueInstance
    neverFLUSH := neverFLUSH
    numUsers := 1
    key := gos_TextureFormat.gos_Texture_Solid
    hints := 0
    width := 0xf0000001
    lastUsed := lastUsed
    textureData := some [7]
    lzCompSize := 1 }

/-- Node 0 as `start` leaves it: the empty texture node. -/
def emptyTextureNode : MC_TextureNode :=
  { gosTextureHandle := 0
    nodeName := none
    uniqueInstance := 0
    neverFLUSH := 0x1
    numUsers := 0
    key := gos_TextureFormat.gos_Texture_Solid
    hints := 0
    width := 0
    lastUsed := -1
    textureData := none
    lzCompSize := 0 }

/-- A state with the given table and turn, `used` as `currentUsedTextures`, and a renderer
holding the fake texture and three GPU objects (handles 1, 2, 3). -/
def sampleState (nodes : List MC_TextureNode) (turn : Int) (used : Nat) : MC_TextureManager :=
  { masterTextureNodes := nodes
    currentUsedTextures := used
    totalCacheMisses := 0
    lzBuffer2 := []
    textureList_ := rendererInit ++ [some sampleTexture, some sampleTexture, some sampleTexture]
    turn := turn }

/-- A Resident texture loaded from "a.tga": handle 1, one user. -/
def lifecycleNode : MC_TextureNode := sampleNode 1 "a.tga" 0 0 0

/-- A table with the empty texture node and `lifecycleNode`. -/
def lifecycleState : MC_TextureManager :=
  sampleState [emptyTextureNode, lifecycleNode] 0 1

/-- Six calls whose owners go 2, 1, 2, 3, 2, 1. -/
def lifecycleCalls : List ShareCall :=
  [ShareCall.copy, ShareCall.remove, ShareCall.copy, ShareCall.copy, ShareCall.remove,
    ShareCall.remove]

/-- A table in which "a.tga" is loaded twice: node 1 as a unique instance, node 2 shared. -/
def dedupState : MC_TextureManager :=
  sampleState [emptyTextureNode, sampleNode 1 "a.tga" 1 0 0, sampleNode 0xFFFFFFFA "a.tga" 0 0 0,
    MC_TextureNode.init] 0 1

/-- Two textures loaded with `nFlush = 1` and a third plain one; the first two are used at
turn 0, then forty turns pass. -/
def neverFlushCalls : List Call :=
  [ Call.loadTexture "a.tga" gos_TextureFormat.gos_Texture_Solid 0 0 1 (fileOf [1, 2]) true,
    Call.loadTexture "b.tga" gos_TextureFormat.gos_Texture_Solid 0 0 1 (fileOf [3]) true,
    loadPlain "c.tga" [4, 5, 6],
    Call.get_gosTextureHandle 1, Call.get_gosTextureHandle 2, Call.advanceTurn 40 ]

/-- A Resident texture with `neverFLUSH = 1`, last used at turn 0. -/
def neverFlushNode : MC_TextureNode := sampleNode 1 "a.tga" 0 1 0

/-- A table seen 100 turns after its two Resident textures were last used; the first has
`neverFLUSH = 1`, the second is plain. -/
def idleState : MC_TextureManager :=
  sampleState [emptyTextureNode, neverFlushNode, sampleNode 2 "b.tga" 0 0 0] 100 2

/-- As `smallConfig`, with six table slots and a budget of three GPU textures. -/
def threeConfig : Config :=
  { smallConfig with MC_MAXTEXTURES := 6, MAX_MC2_GOS_TEXTURES := 3 }

/-- Node 0 is released, so that the loads fill slots 0, 1, 2: N (loaded with `nFlush = 1`),
A and B.  N and A are used at turn 0, B at turn 20; at turn 200 they have been idle 200, 200
and 180 turns. -/
def tieBreakCalls : List Call :=
  [ Call.removeTextureNode 0,
    Call.loadTexture "n.tga" gos_TextureFormat.gos_Texture_Solid 0 0 1 (fileOf [1, 2]) true,
    loadPlain "a.tga" [3], loadPlain "b.tga" [4, 5, 6],
    Call.get_gosTextureHandle 0, Call.get_gosTextureHandle 1, Call.advanceTurn 20,
    Call.get_gosTextureHandle 2, Call.advanceTurn 180 ]

/-- Node 0 after a sweep of `flushCache` has stored `CACHED_OUT_HANDLE` in it. -/
def cachedOutEmptyNode : MC_TextureNode :=
  { emptyTextureNode with gosTextureHandle := 0xFFFFFFFA }

/-- At turn 200: A (node 1, handle 1) idle 180 turns, B (node 2, handle 2) idle 200 turns. -/
def tieBreakState : MC_TextureManager :=
  sampleState [cachedOutEmptyNode, sampleNode 1 "a.tga" 0 0 20, sampleNode 2 "b.tga" 0 0 0]
    200 2

/-- The state `flushCache` leaves when it evicts node `i`, which held `n` with a handle other
than 0: one more cache miss, the recount less one, `CACHED_OUT_HANDLE` in node `i`, and the
node's GPU object destroyed. -/
def afterEviction (cfg : Config) (s : MC_TextureManager) (i : Nat) (n : MC_TextureNode) :
    MC_TextureManager :=
  { s with totalCacheMisses := s.totalCacheMisses + 1
           currentUsedTextures := s.masterTextureNodes.countP (inUse cfg) - 1
           masterTextureNodes :=
             s.masterTextureNodes.set i { n with gosTextureHandle := cfg.CACHED_OUT_HANDLE }
           textureList_ := s.textureList_.set n.gosTextureHandle none }

/-- Node 0 is released, so that the loads fill slots 0 and 1: P and Q.  Q is used at turn 0,
P at turn 119; at turn 150 P has been idle 31 turns and Q exactly 150. -/
def thresholdCalls : List Call :=
  [ Call.removeTextureNode 0, loadPlain "p.tga" [1, 2], loadPlain "q.tga" [3],
    Call.get_gosTextureHandle 1, Call.advanceTurn 119, Call.get_gosTextureHandle 0,
    Call.advanceTurn 31 ]

/-- Q of the example: Resident (handle 2), last used at turn 0. -/
def nodeQ : MC_TextureNode := sampleNode 2 "q.tga" 0 0 0

/-- At turn 150: P (node 1, handle 1) idle 31 turns, Q (node 2, handle 2) idle 150 turns. -/
def thresholdState : MC_TextureManager :=
  sampleState [cachedOutEmptyNode, sampleNode 1 "p.tga" 0 0 119, nodeQ] 150 2

/-- P of the second-sweep example: Resident (handle 1), last used at turn 120. -/
def nodeP : MC_TextureNode := sampleNode 1 "p.tga" 0 0 120

/-- At turn 150: P (node 1) idle exactly 30 turns, the other texture (node 2) idle 10. -/
def secondSweepState : MC_TextureManager :=
  sampleState [cachedOutEmptyNode, nodeP, sampleNode 2 "q.tga" 0 0 140] 150 2

/-- A Resident texture used in the current turn (turn 5). -/
def freshNode : MC_TextureNode := sampleNode 1 "x.tga" 0 0 5

/-- A Resident texture last used one turn ago (turn 4). -/
def dayOldNode : MC_TextureNode := sampleNode 2 "y.tga" 0 0 4

/-- At turn 5, with the budget of two used up: node 1 used this turn, node 2 one turn ago. -/
def boundaryState : MC_TextureManager :=
  sampleState [cachedOutEmptyNode, freshNode, dayOldNode] 5 2

/-- A Resident unique instance (handle 1), last used at turn 0. -/
def uniqueNode1 : MC_TextureNode := sampleNode 1 "u.tga" 1 0 0

/-- A Resident unique instance (handle 2) that also has `neverFLUSH = 1`. -/
def uniqueNode2 : MC_TextureNode := sampleNode 2 "v.tga" 1 1 0

/-- A CachedOut texture waiting to be used. -/
def waitingNode : MC_TextureNode := sampleNode 0xFFFFFFFA "w.tga" 0 0 0

/-- At turn 500 the budget of two is taken by two unique instances; node 3 is CachedOut. -/
def pressureState : MC_TextureManager :=
  sampleState [cachedOutEmptyNode, uniqueNode1, uniqueNode2, waitingNode] 500 2

/-- A Resident shared texture (handle 3) last used at turn 7. -/
def hotNode : MC_TextureNode := sampleNode 3 "h.tga" 0 0 7

/-- At turn 9: the empty texture node, a CachedOut texture and `hotNode`. -/
def hotState : MC_TextureManager :=
  sampleState [emptyTextureNode, waitingNode, hotNode] 9 1

/-- Two shared loads of one file: the second finds the node of the first. -/
def sharedLoadCalls : List Call :=
  [loadPlain "a.tga" [1, 2], loadPlain "a.tga" [1, 2]]

/-- The state right after `start` with `smallConfig`, a fresh renderer and turn 0. -/
def startState : MC_TextureManager := start smallConfig rendererInit 0

/-- One load of "a.tga" as a unique instance. -/
def uniqueLoadCalls : List Call :=
  [Call.loadTexture "a.tga" gos_TextureFormat.gos_Texture_Solid 0 1 0 (fileOf [1, 2]) true]

/-- The first index whose node is Free: the scan "Find first empty NODE". -/
def firstFree (s : MC_TextureManager) : Option Nat :=
  firstIndex (fun n => n.gosTextureHandle == 0xffffffff) s.masterTextureNodes

/-- One texture is loaded and used at turn 0; sixty turns pass. -/
def housekeepingCalls : List Call :=
  [loadPlain "a.tga" [1, 2], Call.get_gosTextureHandle 1, Call.advanceTurn 60]

/-- What `update` makes of a node whose handle is not 0: CachedOut when it is Resident, not
a unique instance, has bit 0 of `neverFLUSH` clear and was last used 60 turns ago or earlier;
unchanged otherwise. -/
def afterUpdate (cfg : Config) (turn : Int) (n : MC_TextureNode) : MC_TextureNode :=
  if isResident cfg n = true ∧ n.uniqueInstance = 0 ∧ n.neverFLUSH.testBit 0 = false ∧
      60 ≤ turn - n.lastUsed then
    { n with gosTextureHandle := cfg.CACHED_OUT_HANDLE }
  else n

/-- A Resident plain texture last used at turn 40. -/
def staleNode : MC_TextureNode := sampleNode 2 "b.tga" 0 0 40

/-- At turn 100: `neverFlushNode` (idle 100 turns, exempt) and `staleNode` (idle exactly 60),
after a CachedOut empty texture node. -/
def housekeepingState : MC_TextureManager :=
  sampleState [cachedOutEmptyNode, neverFlushNode, staleNode] 100 2

/-- As `smallConfig`, with a decompressor that returns three bytes whatever it is given: every
blob longer or shorter than three bytes decompresses to a length other than the original. -/
def corruptConfig : Config :=
  { smallConfig with LZDecomp := fun _ => [9, 9, 9] }

/-- Sixteen bytes: a 2 by 2 texture of 4-byte pixels. -/
def pixels16 : List Nat := [11, 12, 13, 14, 21, 22, 23, 24, 31, 32, 33, 34, 41, 42, 43, 44]

/-- A raw-pixel texture (2 by 2, 4 bytes a pixel) and a texture file of five bytes. -/
def corruptCalls : List Call :=
  [ Call.textureFromMemory pixels16 gos_TextureFormat.gos_Texture_Solid 0 2 4 true,
    loadPlain "f.tga" [1, 2, 3, 4, 5] ]

/-- What `Unlock` uploaded to the texture with the given handle, if anything. -/
def uploadedTo (s : MC_TextureManager) (Handle : Nat) : Option (List Nat) :=
  match s.textureList_[Handle]? with
  | some (some t) => t.uploaded
  | _ => none

/-- A load of the three-byte file "a.tga" during which the cache heap has no block left. -/
def failedAllocCalls : List Call :=
  [Call.loadTexture "a.tga" gos_TextureFormat.gos_Texture_Solid 0 0 0 (fileOf [1, 2, 3]) false]

/-- The three-byte texture file of the round-trip example. -/
def threeByteFile : TextureFile := { content := [1, 2, 3], readRAW := none }

/-- The state a call left, or `d` when the call stopped. -/
def stateAfter (r : Run (Nat × MC_TextureManager)) (d : MC_TextureManager) :
    MC_TextureManager :=
  match r with
  | Run.done x => x.2
  | Run.stopped _ => d

/-- The start state after `loadTexture` of the three-byte file "a.tga". -/
def loadedState : MC_TextureManager :=
  stateAfter (loadTexture smallConfig startState "a.tga" gos_TextureFormat.gos_Texture_Solid
    0 0 0 (some threeByteFile) true) startState

/-- No node is Resident in the table `l2` unless the node at the same index of `l1` was
Resident. -/
def noNewResident (cfg : Config) (l1 l2 : List MC_TextureNode) : Prop :=
  ∀ (j : Nat) (n2 : MC_TextureNode), l2[j]? = some n2 → isResident cfg n2 = true →
    ∃ n1 : MC_TextureNode, l1[j]? = some n1 ∧ isResident cfg n1 = true

/-- The start state after `textureFromMemory` of the 2 by 2 texture `pixels16`. -/
def fromMemoryState : MC_TextureManager :=
  stateAfter (textureFromMemory smallConfig startState pixels16
    gos_TextureFormat.gos_Texture_Solid 0 2 4 true) startState

/-- As `smallConfig`, with a scratch-buffer ceiling of three bytes. -/
def ceilingConfig : Config :=
  { smallConfig with MAX_LZ_BUFFER_SIZE := 3 }

/-- The state right after `start` with `ceilingConfig`, a fresh renderer and turn 0. -/
def ceilingStart : MC_TextureManager := start ceilingConfig rendererInit 0

/-- The start state after `loadTexture` of the three-byte file "a.tga" under `ceilingConfig`. -/
def ceilingLoaded : MC_TextureManager :=
  stateAfter (loadTexture ceilingConfig ceilingStart "a.tga" gos_TextureFormat.gos_Texture_Solid
    0 0 0 (some threeByteFile) true) ceilingStart

/-- As `smallConfig`, with a codec that puts one byte in front of what it compresses, so that
the blob of an empty input is not empty. -/
def headerConfig : Config :=
  { smallConfig with LZCompress := fun x => 0 :: x, LZDecomp := fun x => x.tail }

/-- As `headerConfig`, with a decompressor that returns three bytes whatever it is given: on
a node tagged with a file size other than three the length test of the create-from-bytes path
fails. -/
def probeConfig : Config :=
  { headerConfig with LZDecomp := fun _ => [9, 9, 9] }

/-- The start state after `loadTexture` of the empty file "z.tga". -/
def zeroByteState : MC_TextureManager :=
  stateAfter (loadTexture headerConfig startState "z.tga" gos_TextureFormat.gos_Texture_Solid
    0 0 0 (fileOf []) true) startState

/-- The start state after `loadTexture` of the one-byte file "o.tga". -/
def oneByteState : MC_TextureManager :=
  stateAfter (loadTexture headerConfig startState "o.tga" gos_TextureFormat.gos_Texture_Solid
    0 0 0 (fileOf [7]) true) startState

/-- Whether the texture with the given handle was created from bytes
(`gos_NewTextureFromMemory`) or empty (`gos_NewEmptyTexture`), if it exists. -/
def createdFromBytes (s : MC_TextureManager) (Handle : Nat) : Option Bool :=
  match s.textureList_[Handle]? with
  | some (some t) => some t.is_from_bytes
  | _ => none

/-- "a.tga" is loaded with `nFlush = 1` and materialized; then `flush(justTextures = true)`;
then two plain textures are loaded and materialized. -/
def flushCalls : List Call :=
  [ Call.loadTexture "a.tga" gos_TextureFormat.gos_Texture_Solid 0 0 1 (fileOf [1, 2]) true,
    Call.get_gosTextureHandle 1, Call.flush,
    loadPlain "b.tga" [3], loadPlain "c.tga" [4, 5, 6],
    Call.get_gosTextureHandle 2, Call.get_gosTextureHandle 3 ]

/-! ## Vertex batches of `renderLists` -/

/-- The constant `MAX_SENDDOWN`, line 66. -/
def MAX_SENDDOWN : Nat := 10002

/-- The `while (currentVertices < totalVertices)` loop of `renderLists`, lines 812-823.  Each
call `gos_RenderIndexedArray(v, tVertices, indexArray, tVertices)` is recorded as the pair of
the offset `currentVertices` of `v` in the vertex list and `tVertices`.  `fuel` bounds the
number of passes; the result is `none` when it runs out. -/
def renderLists_loop (totalVertices : Nat) : Nat → Nat → Option (List (Nat × Nat))
  | 0, _ => none
  | fuel + 1, currentVertices =>
    if currentVertices < totalVertices then
      let tVertices :=
        if totalVertices - currentVertices > MAX_SENDDOWN then MAX_SENDDOWN
        else totalVertices - currentVertices
      (renderLists_loop totalVertices fuel (currentVertices + tVertices)).map
        (fun bs => (currentVertices, tVertices) :: bs)
    else some []

/-- What `renderLists` submits for one vertex list with `totalVertices` queued vertices,
lines 801-824 (the same lines are repeated for every kind of list): the calls of
`gos_RenderIndexedArray`, each as offset and count. -/
def renderLists_batches (fuel totalVertices : Nat) : Option (List (Nat × Nat)) :=
  if totalVertices ≠ 0 ∧ totalVertices < MAX_SENDDOWN then some [(0, totalVertices)]
  else if totalVertices > MAX_SENDDOWN then renderLists_loop totalVertices fuel 0
  else some []

/-- Batches that follow one another without gap or overlap, the first starting at `o`. -/
def contiguousFrom : Nat → List (Nat × Nat) → Prop
  | _, [] => True
  | o, b :: bs => b.1 = o ∧ contiguousFrom (o + b.2) bs

/-! ## Pixel conversion of `gosTexture::Lock` and `gosTexture::Unlock` -/

/-- The conversion `gosTexture::Lock` applies to one pixel (a `DWORD`) of the locked area,
lines 442-447.  The four channels are bytes, so the shifts stay inside 32 bits. -/
def Lock_pixel (rgba : Nat) : Nat :=
  let r := rgba &&& 0xff
  let g := (rgba &&& 0xff00) >>> 8
  let b := (rgba &&& 0xff0000) >>> 16
  let a := (rgba &&& 0xff000000) >>> 24
  (a <<< 24) ||| (r <<< 16) ||| (g <<< 8) ||| b

/-- The conversion `gosTexture::Unlock` applies to one pixel of the locked area,
lines 461-466. -/
def Unlock_pixel (bgra : Nat) : Nat :=
  let b := bgra &&& 0xff
  let g := (bgra &&& 0xff00) >>> 8
  let r := (bgra &&& 0xff0000) >>> 16
  let a := (bgra &&& 0xff000000) >>> 24
  (a <<< 24) ||| (b <<< 16) ||| (g <<< 8) ||| r

/-- The loops `for (y < tex_.h) for (x < tex_.w)` of `Lock` and `Unlock`: entry
`tex_.w * y + x` of the locked area is replaced by `f` of it. -/
def pixelLoop (f : Nat → Nat) (w h : Nat) (plocked_area_ : List Nat) : List Nat :=
  (List.range h).foldl
    (fun area y => (List.range w).foldl (fun area1 x => modifyAt f area1 (w * y + x)) area)
    plocked_area_

/-- Embeds `gosTexture::Lock`, lines 420-453: the locked area is filled with the `w * h` pixels of
the hardware texture (`getTextureData`) and converted in place; it is what the caller gets. -/
def gosTexture.Lock (w h : Nat) (texture : List Nat) : List Nat :=
  pixelLoop Lock_pixel w h texture

/-- Embeds `gosTexture::Unlock`, lines 455-477, as the pixels of the hardware texture after the
call: for a lock that is not read-only the locked area is converted in place and uploaded
(`updateTexture`); for a read-only lock the texture stays what it was. -/
def gosTexture.Unlock (lock_type_read_only_ : Bool) (w h : Nat)
    (plocked_area_ texture : List Nat) : List Nat :=
  if lock_type_read_only_ then texture else pixelLoop Unlock_pixel w h plocked_area_

/-! ## Text wrapping (`gameos_graphics.cpp`)

A NUL-terminated text is given as the list of its characters before the terminating NUL;
`strlen` is the length of the list, and reading `text[pos]` at that length yields the NUL.
A font is given by its `getCharAdvance`.  Widths are `int` in the source and `Int` here: the
sums are taken not to overflow. -/

/-- The character `text[pos]` of a NUL-terminated text. -/
def charAt (text : List Char) (pos : Nat) : Char := text.getD pos (Char.ofNat 0)

/-- Embeds `get_next_break`, lines 1302-1311: the offset of the first blank or newline, or of
the terminating NUL when there is none. -/
def get_next_break : List Char → Nat
  | [] => 0
  | c :: cs => if c = ' ' ∨ c = '\n' then 0 else get_next_break cs + 1

/-- The sum `cur_width` of lines 1324-1327: the advances of `text[pos .. pos + break_pos)`. -/
def wordWidth (getCharAdvance : Char → Int) (text : List Char) (pos break_pos : Nat) : Int :=
  (List.range break_pos).foldl
    (fun cur_width j => cur_width + getCharAdvance (charAt text (pos + j))) 0

/-- The `while (text[pos])` loop of `findTextBreak`, lines 1320-1351, entered with the given
`width` and `pos`; the result is `pos` and `width` when the loop is left.  `fuel` bounds the
number of passes; the result is `none` when it runs out. -/
def findTextBreak_loop (getCharAdvance : Char → Int) (text : List Char) (region_width : Int) :
    Nat → Int → Nat → Option (Nat × Int)
  | 0, _, _ => none
  | fuel + 1, width, pos =>
    if pos < text.length then
      let break_pos := get_next_break (text.drop pos)
      let cur_width := wordWidth getCharAdvance text pos break_pos
      if width + cur_width ≥ region_width then
        if pos = 0 then some (break_pos, cur_width) else some (pos, width)
      else
        let width1 := width + cur_width
        let pos1 := pos + break_pos
        if charAt text pos1 = '\n' then some (pos1 + 1, width1)
        else if charAt text pos1 = ' ' then
          findTextBreak_loop getCharAdvance text region_width fuel
            (width1 + getCharAdvance ' ') (pos1 + 1)
        else findTextBreak_loop getCharAdvance text region_width fuel width1 pos1
    else some (pos, width)

/-- Embeds `findTextBreak`, lines 1313-1356: the value returned and `*out_str_width`.  The argument
`count` of the source is not read by it and is left out. -/
def findTextBreak (fuel : Nat) (text : List Char) (getCharAdvance : Char → Int)
    (region_width : Int) : Option (Nat × Int) :=
  findTextBreak_loop getCharAdvance text region_width fuel 0 0

/-- The `while (pos < count)` loop of `calcTextHeight`, lines 1362-1367, entered with the
given `pos` and `num_lines`.  `steps` bounds the number of passes and `fuel` those of each
`findTextBreak`; the result is `none` when either runs out. -/
def calcTextHeight_loop (fuel : Nat) (text : List Char) (count : Nat)
    (getCharAdvance : Char → Int) (region_width : Int) : Nat → Nat → Nat → Option Nat
  | 0, _, _ => none
  | steps + 1, pos, num_lines =>
    if pos < count then
      match findTextBreak fuel (text.drop pos) getCharAdvance region_width with
      | none => none
      | some r =>
        calcTextHeight_loop fuel text count getCharAdvance region_width steps (pos + r.1)
          (num_lines + 1)
    else some num_lines

/-- Embeds `calcTextHeight`, lines 1358-1369. -/
def calcTextHeight (fuel : Nat) (text : List Char) (count : Nat)
    (getCharAdvance : Char → Int) (region_width : Int) : Option Nat :=
  calcTextHeight_loop fuel text count getCharAdvance region_width fuel 0 0

/-! ## Sequences of cache calls -/

/-- One call that works on the cache: `get_gosTextureHandle` on a node, `flushCache`,
`update`, or the game advancing `turn`. -/
inductive CacheCall where
  | get_gosTextureHandle (i : Nat)
  | flushCache
  | update
  | advanceTurn (k : Nat)
deriving DecidableEq, Repr

/-- The state after one cache call (the value returned is dropped). -/
def stepCache (cfg : Config) (s : MC_TextureManager) : CacheCall → Run MC_TextureManager
  | CacheCall.get_gosTextureHandle i =>
    (get_gosTextureHandle cfg s i).bind fun r => Run.done r.2
  | CacheCall.flushCache => Run.done (flushCache cfg s).2
  | CacheCall.update => Run.done (update cfg s).2
  | CacheCall.advanceTurn k => Run.done { s with turn := s.turn + k }

/-- The state after a sequence of cache calls. -/
def runCache (cfg : Config) : MC_TextureManager → List CacheCall → Run MC_TextureManager
  | s, [] => Run.done s
  | s, c :: cs => (stepCache cfg s c).bind fun s1 => runCache cfg s1 cs

/-- A node without a blob whose handle is 0 ("No More RAM.  Do not display this texture
anymore") or, after a sweep has passed over it, `CACHED_OUT_HANDLE`. -/
def noBlob (cfg : Config) (n : MC_TextureNode) : Prop :=
  n.textureData = none ∧ (n.gosTextureHandle = 0 ∨ n.gosTextureHandle = cfg.CACHED_OUT_HANDLE)

/-- The start state after a `loadTexture` of the three-byte file "a.tga" during which the
cache heap has no block left. -/
def failedAllocState : MC_TextureManager :=
  stateAfter (loadTexture smallConfig startState "a.tga" gos_TextureFormat.gos_Texture_Solid
    0 0 0 (some threeByteFile) false) startState

/-- The node `failedAllocState` holds in slot 1. -/
def failedAllocNode : MC_TextureNode :=
  { sampleNode 0 "a.tga" 0 0 (-1) with
    width := 0xf0000003, textureData := none, lzCompSize := 3 }

/-- The node is asked for, 200 turns pass, `flushCache` and `update` run. -/
def failedAllocCacheCalls : List CacheCall :=
  [ CacheCall.get_gosTextureHandle 1, CacheCall.advanceTurn 200, CacheCall.flushCache,
    CacheCall.update ]

/-- The state after `failedAllocCacheCalls`, from `failedAllocState`. -/
def failedAllocLater : MC_TextureManager :=
  match runCache smallConfig failedAllocState failedAllocCacheCalls with
  | Run.done s => s
  | Run.stopped _ => failedAllocState

/-- As `smallConfig`, for a build without `_DEBUG`: the `gosASSERT`s of `loadTexture` are
compiled out. -/
def releaseConfig : Config :=
  { smallConfig with DEBUG := false }

/-! ## Theorems -/

/-- C1 (evaluation at the failing input).  With a budget of two GPU textures, loading three
textures after `start` and asking for the handle of each within one turn leaves three
Resident nodes: the third `get_gosTextureHandle` finds the budget used up, `flushCache`
"caches out" node 0, the empty texture node whose handle is 0 and which owns no GPU object,
reports success, and the third texture is created on top of the two that stay. -/
theorem residency_budget_exceeded :
    ∃ s, runCalls smallConfig (start smallConfig rendererInit 0) budgetCalls = Run.done s ∧
      handles s = [0xFFFFFFFA, 1, 2, 3, 0xffffffff] ∧
      residentCount smallConfig s = 3 ∧
      smallConfig.MAX_MC2_GOS_TEXTURES < residentCount smallConfig s := by
  refine ⟨_, rfl, ?_, ?_, ?_⟩ <;> decide

/-- C9 (evaluation at the failing input).  The example of the specification with a budget of
two: after loading A, B, C and using A and B, exactly A and B are Resident; one turn later,
using C does not evict A.  `flushCache` caches out node 0 (handle 0, no GPU object), A and B
keep their GPU objects, C is created, and three nodes are Resident. -/
theorem spec_example_keeps_A_resident :
    (∃ s, runCalls smallConfig (start smallConfig rendererInit 0) (specExampleCalls.take 5)
          = Run.done s ∧
        handles s = [0, 1, 2, 0xFFFFFFFA, 0xffffffff] ∧ residentCount smallConfig s = 2) ∧
    (∃ s, runCalls smallConfig (start smallConfig rendererInit 0) specExampleCalls
          = Run.done s ∧
        handles s = [0xFFFFFFFA, 1, 2, 3, 0xffffffff] ∧ residentCount smallConfig s = 3 ∧
        s.textureList_.map Option.isSome = [true, true, true, true]) := by
  refine ⟨⟨_, rfl, ?_, ?_⟩, ⟨_, rfl, ?_, ?_, ?_⟩⟩ <;> decide

/-! ### Lists: first index and in-place writes -/

theorem firstIndex_eq_some {α : Type} (p : α → Bool) :
    ∀ (l : List α) (i : Nat) (a : α), l[i]? = some a → p a = true →
      (∀ j b, j < i → l[j]? = some b → p b = false) → firstIndex p l = some i := by
  intro l
  induction l with
  | nil => intro i a h; simp at h
  | cons x xs ih =>
    intro i a h hp hlt
    cases i with
    | zero =>
      simp at h
      subst h
      simp [firstIndex, hp]
    | succ k =>
      have hx : p x = false := hlt 0 x (Nat.succ_pos k) (by simp)
      have hk : xs[k]? = some a := by simpa using h
      have := ih k a hk hp (fun j b hj hb => hlt (j + 1) b (Nat.succ_lt_succ hj) (by simpa using hb))
      simp [firstIndex, hx, this]

theorem firstIndex_some_spec {α : Type} (p : α → Bool) :
    ∀ (l : List α) (i : Nat), firstIndex p l = some i →
      ∃ a, l[i]? = some a ∧ p a = true ∧ ∀ j b, j < i → l[j]? = some b → p b = false := by
  intro l
  induction l with
  | nil => intro i h; simp [firstIndex] at h
  | cons x xs ih =>
    intro i h
    by_cases hx : p x = true
    · simp [firstIndex, hx] at h
      subst h
      exact ⟨x, by simp, hx, fun j b hj _ => absurd hj (Nat.not_lt_zero j)⟩
    · simp [firstIndex, hx] at h
      obtain ⟨k, hk, rfl⟩ := h
      obtain ⟨a, ha, hpa, hlt⟩ := ih k hk
      refine ⟨a, by simpa using ha, hpa, ?_⟩
      intro j b hj hb
      cases j with
      | zero =>
        simp at hb
        subst hb
        simpa using hx
      | succ m => exact hlt m b (Nat.lt_of_succ_lt_succ hj) (by simpa using hb)

theorem firstIndex_eq_none {α : Type} (p : α → Bool) :
    ∀ (l : List α), firstIndex p l = none ↔ ∀ a ∈ l, p a = false := by
  intro l
  induction l with
  | nil => simp [firstIndex]
  | cons x xs ih =>
    by_cases hx : p x = true
    · simp [firstIndex, hx]
    · simp [firstIndex, hx, ih]

theorem modifyAt_eq_set {α : Type} (f : α → α) :
    ∀ (l : List α) (i : Nat) (a : α), l[i]? = some a → modifyAt f l i = l.set i (f a) := by
  intro l
  induction l with
  | nil => intro i a h; simp at h
  | cons x xs ih =>
    intro i a h
    cases i with
    | zero =>
      simp at h
      subst h
      simp [modifyAt]
    | succ k =>
      have hk : xs[k]? = some a := by simpa using h
      simp [modifyAt, ih k a hk]

theorem modifyAt_of_none {α : Type} (f : α → α) :
    ∀ (l : List α) (i : Nat), l[i]? = none → modifyAt f l i = l := by
  intro l
  induction l with
  | nil => intro i _; simp [modifyAt]
  | cons x xs ih =>
    intro i h
    cases i with
    | zero => simp at h
    | succ k =>
      have hk : xs[k]? = none := by simpa using h
      simp [modifyAt, ih k hk]

theorem set_self_of_getElem? {α : Type} :
    ∀ (l : List α) (i : Nat) (a : α), l[i]? = some a → l.set i a = l := by
  intro l
  induction l with
  | nil => intro i a h; simp at h
  | cons x xs ih =>
    intro i a h
    cases i with
    | zero =>
      simp at h
      subst h
      simp
    | succ k =>
      have hk : xs[k]? = some a := by simpa using h
      simp [ih k a hk]

theorem countP_one_unique {α : Type} (p : α → Bool) :
    ∀ (l : List α) (i j : Nat) (a b : α), l.countP p = 1 → l[i]? = some a → p a = true →
      l[j]? = some b → p b = true → j = i := by
  intro l
  induction l with
  | nil => intro i j a b _ h; simp at h
  | cons x xs ih =>
    intro i j a b hc hi ha hj hb
    have hzero : ∀ (k : Nat) (c : α), xs.countP p = 0 → xs[k]? = some c → p c = true → False := by
      intro k c h0 hk hpc
      have hmem : c ∈ xs := List.mem_iff_getElem?.mpr ⟨k, hk⟩
      have := (List.countP_eq_zero.mp h0) c hmem
      exact this hpc
    by_cases hx : p x = true
    · have h0 : xs.countP p = 0 := by
        simp only [List.countP_cons, hx, if_true] at hc
        omega
      cases i with
      | zero =>
        cases j with
        | zero => rfl
        | succ m => exact absurd (hzero m b h0 (by simpa using hj) hb) id
      | succ k => exact absurd (hzero k a h0 (by simpa using hi) ha) id
    · simp only [List.countP_cons, hx, if_false, Nat.add_zero] at hc
      cases i with
      | zero =>
        simp at hi
        subst hi
        exact absurd ha hx
      | succ k =>
        cases j with
        | zero =>
          simp at hj
          subst hj
          exact absurd hb hx
        | succ m =>
          have := ih k m a b hc (by simpa using hi) ha (by simpa using hj) hb
          omega

/-! ### Single calls on a known node -/

theorem modifyNode_eq_set (s : MC_TextureManager) (i : Nat) (f : MC_TextureNode → MC_TextureNode)
    (n : MC_TextureNode) (h : s.masterTextureNodes[i]? = some n) :
    modifyNode s i f = { s with masterTextureNodes := s.masterTextureNodes.set i (f n) } := by
  simp [modifyNode, modifyAt_eq_set f _ i n h]

theorem destroy_eq (cfg : Config) (s : MC_TextureManager) (i : Nat) (n : MC_TextureNode)
    (h : s.masterTextureNodes[i]? = some n) :
    destroy cfg s i =
      { s with masterTextureNodes := s.masterTextureNodes.set i MC_TextureNode.init
               textureList_ := if isResident cfg n = true then
                   s.textureList_.set n.gosTextureHandle none else s.textureList_ } := by
  unfold destroy
  rw [h]
  by_cases hr : isResident cfg n = true
  · have hr2 := hr
    simp only [isResident, Bool.and_eq_true, bne_iff_ne, ne_eq] at hr2
    have hc : n.gosTextureHandle ≠ cfg.CACHED_OUT_HANDLE ∧ n.gosTextureHandle ≠ 0xffffffff ∧
        n.gosTextureHandle ≠ 0 := ⟨hr2.1.1, hr2.1.2, hr2.2⟩
    simp only [hc, hr, if_true, ne_eq, not_false_eq_true, and_self]
    rw [modifyNode_eq_set _ i _ n (by simpa [gos_DestroyTexture] using h)]
    simp [gos_DestroyTexture]
  · have hc : ¬ (n.gosTextureHandle ≠ cfg.CACHED_OUT_HANDLE ∧ n.gosTextureHandle ≠ 0xffffffff ∧
        n.gosTextureHandle ≠ 0) := by
      intro hc
      apply hr
      simp only [isResident, Bool.and_eq_true, bne_iff_ne, ne_eq]
      exact ⟨⟨hc.1, hc.2.1⟩, hc.2.2⟩
    simp only [hc, hr, if_false]
    rw [modifyNode_eq_set _ i _ n h]
    simp

theorem freeLeftovers_destroy (cfg : Config) (s : MC_TextureManager) (i : Nat)
    (n : MC_TextureNode) (h : s.masterTextureNodes[i]? = some n) :
    freeLeftovers (destroy cfg s i) i = destroy cfg s i := by
  have hlt : i < s.masterTextureNodes.length := by
    rcases List.getElem?_eq_some.mp h with ⟨hl, _⟩
    exact hl
  rw [destroy_eq cfg s i n h]
  unfold freeLeftovers
  simp [List.getElem?_set_self hlt, MC_TextureNode.init]

theorem copyTexture_live (s : MC_TextureManager) (id : Nat) (n : MC_TextureNode)
    (h : s.masterTextureNodes[id]? = some n) (hfree : n.gosTextureHandle ≠ 0xffffffff) :
    copyTexture s id = Run.done (id,
      { s with masterTextureNodes :=
          s.masterTextureNodes.set id { n with numUsers := (n.numUsers + 1) % 2 ^ 32 } }) := by
  unfold copyTexture
  rw [h]
  simp only [hfree, ne_eq, not_false_eq_true, if_true]
  rw [modifyNode_eq_set s id _ n h]

theorem removeTexture_first (cfg : Config) (s : MC_TextureManager) (id h : Nat)
    (n : MC_TextureNode) (hn : s.masterTextureNodes[id]? = some n)
    (hh : n.gosTextureHandle = h)
    (hfirst : ∀ j m, j < id → s.masterTextureNodes[j]? = some m → m.gosTextureHandle ≠ h) :
    removeTexture cfg s h =
      if (n.numUsers + 2 ^ 32 - 1) % 2 ^ 32 = 0 then
        { s with masterTextureNodes := s.masterTextureNodes.set id MC_TextureNode.init
                 textureList_ := if isResident cfg n = true then
                     s.textureList_.set h none else s.textureList_ }
      else
        { s with masterTextureNodes := s.masterTextureNodes.set id
                   { n with numUsers := (n.numUsers + 2 ^ 32 - 1) % 2 ^ 32 } } := by
  have hlt : id < s.masterTextureNodes.length := by
    rcases List.getElem?_eq_some.mp hn with ⟨hl, _⟩
    exact hl
  have hfi : firstIndex (fun m => m.gosTextureHandle == h) s.masterTextureNodes = some id := by
    apply firstIndex_eq_some _ _ id n hn
    · simp [hh]
    · intro j b hj hb
      simpa using hfirst j b hj hb
  unfold removeTexture
  rw [hfi]
  simp only []
  rw [modifyNode_eq_set s id _ n hn]
  simp only [List.getElem?_set_self hlt]
  by_cases hz : (n.numUsers + 2 ^ 32 - 1) % 2 ^ 32 = 0
  · simp only [hz, if_true]
    have hg : ∀ m0 : MC_TextureNode, (s.masterTextureNodes.set id m0)[id]? = some m0 :=
      fun m0 => by simp [List.getElem?_set_self hlt]
    rw [freeLeftovers_destroy cfg _ id _ (hg _), destroy_eq cfg _ id _ (hg _)]
    simp [isResident, hh, List.set_set]
  · simp only [hz, if_false]

/-! ### C2: reference lifecycle -/

theorem copies_cons_copy (cs : List ShareCall) :
    copies (ShareCall.copy :: cs) = copies cs + 1 := by
  simp [copies]

theorem copies_cons_remove (cs : List ShareCall) :
    copies (ShareCall.remove :: cs) = copies cs := by
  simp [copies]

theorem removes_cons_copy (cs : List ShareCall) :
    removes (ShareCall.copy :: cs) = removes cs := by
  simp [removes]

theorem removes_cons_remove (cs : List ShareCall) :
    removes (ShareCall.remove :: cs) = removes cs + 1 := by
  simp [removes]

theorem runShare_append (cfg : Config) (id h : Nat) :
    ∀ (cs ds : List ShareCall) (s : MC_TextureManager),
      runShare cfg id h s (cs ++ ds) =
        (runShare cfg id h s cs).bind (fun t => runShare cfg id h t ds) := by
  intro cs
  induction cs with
  | nil => intro ds s; simp [runShare, Run.bind]
  | cons c cs ih =>
    intro ds s
    cases c with
    | copy =>
      simp only [List.cons_append, runShare]
      cases hc : copyTexture s id with
      | done r => simp [Run.bind, ih]
      | stopped e => simp [Run.bind]
    | remove =>
      have := ih ds (removeTexture cfg s h)
      simpa [runShare] using this

/-- While the owners (the initial `k` plus the copies, minus the removes) stay positive, a
sequence of `copyTexture(id)` / `removeTexture(h)` calls only moves `numUsers` of node `id`. -/
theorem runShare_live (cfg : Config) (id h : Nat) :
    ∀ (cs : List ShareCall) (s : MC_TextureManager) (n : MC_TextureNode) (k : Nat),
      s.masterTextureNodes[id]? = some n → n.gosTextureHandle = h → h ≠ 0xffffffff →
      (∀ j m, j < id → s.masterTextureNodes[j]? = some m → m.gosTextureHandle ≠ h) →
      n.numUsers = k → k + copies cs < 2 ^ 32 →
      (∀ j, j ≤ cs.length → removes (cs.take j) < k + copies (cs.take j)) →
      runShare cfg id h s cs = Run.done
        { s with masterTextureNodes :=
            s.masterTextureNodes.set id { n with numUsers := k + copies cs - removes cs } } := by
  intro cs
  induction cs with
  | nil =>
    intro s n k hn _ _ _ hk _ _
    have : ({ n with numUsers := k + copies [] - removes [] } : MC_TextureNode) = n := by
      subst hk
      simp [copies, removes]
    rw [this, set_self_of_getElem? _ id n hn]
    rfl
  | cons c cs ih =>
    intro s n k hn hh hfree hfirst hk hb hlive
    have hlt : id < s.masterTextureNodes.length := by
      rcases List.getElem?_eq_some.mp hn with ⟨hl, _⟩
      exact hl
    have hfirst2 : ∀ (m0 : MC_TextureNode) (j : Nat) (m : MC_TextureNode), j < id →
        (s.masterTextureNodes.set id m0)[j]? = some m → m.gosTextureHandle ≠ h := by
      intro m0 j m hj hm
      rw [List.getElem?_set_ne (Nat.ne_of_gt hj)] at hm
      exact hfirst j m hj hm
    have hget2 : ∀ m0 : MC_TextureNode, (s.masterTextureNodes.set id m0)[id]? = some m0 :=
      fun m0 => by simp [List.getElem?_set_self hlt]
    cases c with
    | copy =>
      rw [copies_cons_copy] at hb
      have hstep := copyTexture_live s id n hn (by rw [hh]; exact hfree)
      have hmod : (n.numUsers + 1) % 2 ^ 32 = k + 1 := by
        rw [hk]
        exact Nat.mod_eq_of_lt (by omega)
      rw [hmod] at hstep
      simp only [runShare, hstep, Run.bind]
      have hlive2 : ∀ j, j ≤ cs.length → removes (cs.take j) < k + 1 + copies (cs.take j) := by
        intro j hj
        have := hlive (j + 1) (by simpa using hj)
        simp only [List.take_succ_cons, removes_cons_copy, copies_cons_copy] at this
        omega
      rw [ih _ { n with numUsers := k + 1 } (k + 1) (hget2 _) hh hfree (hfirst2 _) rfl
        (by omega) hlive2]
      simp only [List.set_set, copies_cons_copy, removes_cons_copy]
      have : k + 1 + copies cs - removes cs = k + (copies cs + 1) - removes cs := by omega
      rw [this]
    | remove =>
      rw [copies_cons_remove] at hb
      have h1 := hlive 1 (by simp)
      simp [removes, copies] at h1
      have hmod : (n.numUsers + 2 ^ 32 - 1) % 2 ^ 32 = k - 1 := by
        rw [hk]
        have : k + 2 ^ 32 - 1 = (k - 1) + 2 ^ 32 := by omega
        rw [this, Nat.add_mod_right]
        exact Nat.mod_eq_of_lt (by omega)
      have hstep := removeTexture_first cfg s id h n hn hh hfirst
      rw [hmod, if_neg (by omega)] at hstep
      simp only [runShare, hstep]
      have hlive2 : ∀ j, j ≤ cs.length → removes (cs.take j) < k - 1 + copies (cs.take j) := by
        intro j hj
        have := hlive (j + 1) (by simpa using hj)
        simp only [List.take_succ_cons, removes_cons_remove, copies_cons_remove] at this
        omega
      rw [ih _ { n with numUsers := k - 1 } (k - 1) (hget2 _) hh hfree (hfirst2 _) rfl
        (by omega) hlive2]
      simp only [List.set_set, copies_cons_remove, removes_cons_remove]
      have : k - 1 + copies cs - removes cs = k + copies cs - (removes cs + 1) := by omega
      rw [this]

/-- C2.  Reference lifecycle.  Node `id` is Resident with handle `h`, no other node holds
`h`, and `numUsers = 1` (as `loadTexture` / `textureFromMemory` leave it).  Let `cs` be a
sequence of `copyTexture(id)` and `removeTexture(h)` calls in which the removes have not yet
reached one plus the copies at any point.  Then (1) the run returns and has changed nothing but
`numUsers` of node `id`, which is one plus the copies minus the removes: each call moved it by
one; and (2) if the removes equal the copies, the next `removeTexture(h)`, the first point
where the removes are one plus the copies, resets the node to Free (`init`) and destroys its
GPU object.  The counter is a `DWORD`: the sequence has fewer than `2 ^ 32 - 1` copies. -/
theorem reference_lifecycle (cfg : Config) (s : MC_TextureManager) (id h : Nat)
    (n : MC_TextureNode) (hn : s.masterTextureNodes[id]? = some n)
    (hh : n.gosTextureHandle = h) (hres : isResident cfg n = true)
    (hsole : s.masterTextureNodes.countP (fun m => m.gosTextureHandle == h) = 1)
    (husers : n.numUsers = 1)
    (cs : List ShareCall) (hbound : 1 + copies cs < 2 ^ 32)
    (hlive : ∀ j, j ≤ cs.length → removes (cs.take j) < 1 + copies (cs.take j)) :
    runShare cfg id h s cs = Run.done
        { s with masterTextureNodes :=
            s.masterTextureNodes.set id { n with numUsers := 1 + copies cs - removes cs } } ∧
      (removes cs = copies cs →
        runShare cfg id h s (cs ++ [ShareCall.remove]) = Run.done
          { s with masterTextureNodes := s.masterTextureNodes.set id MC_TextureNode.init
                   textureList_ := s.textureList_.set h none }) := by
  have hres2 := hres
  simp only [isResident, Bool.and_eq_true, bne_iff_ne, ne_eq] at hres2
  have hfree : h ≠ 0xffffffff := by
    rw [← hh]
    exact hres2.1.2
  have hfirst : ∀ j m, j < id → s.masterTextureNodes[j]? = some m → m.gosTextureHandle ≠ h := by
    intro j m hj hm hmh
    have := countP_one_unique (fun m => m.gosTextureHandle == h) s.masterTextureNodes id j n m
      hsole hn (by simp [hh]) hm (by simp [hmh])
    omega
  have hlt : id < s.masterTextureNodes.length := by
    rcases List.getElem?_eq_some.mp hn with ⟨hl, _⟩
    exact hl
  have hrun := runShare_live cfg id h cs s n 1 hn hh hfree hfirst husers hbound hlive
  refine ⟨hrun, ?_⟩
  intro heq
  rw [runShare_append, hrun]
  simp only [Run.bind, runShare]
  have hone : 1 + copies cs - removes cs = 1 := by omega
  rw [hone]
  have hstep := removeTexture_first cfg
    { s with masterTextureNodes := s.masterTextureNodes.set id { n with numUsers := 1 } }
    id h { n with numUsers := 1 } (by simp [List.getElem?_set_self hlt]) hh
    (by
      intro j m hj hm
      simp only [List.getElem?_set_ne (Nat.ne_of_gt hj)] at hm
      exact hfirst j m hj hm)
  have hz : (1 + 2 ^ 32 - 1) % 2 ^ 32 = 0 := by norm_num
  have hr1 : isResident cfg { n with numUsers := 1 } = true := by
    simpa [isResident] using hres
  rw [hstep, if_pos hz, if_pos hr1]
  simp only [List.set_set]

/-- C2, at a concrete table: one Resident texture with handle 1 and the calls copy, remove,
copy, copy, remove, remove; a seventh call, `removeTexture(1)`, frees the node. -/
theorem reference_lifecycle_witness :
    runShare smallConfig 1 1 lifecycleState lifecycleCalls = Run.done
        { lifecycleState with
          masterTextureNodes := lifecycleState.masterTextureNodes.set 1
            { lifecycleNode with numUsers := 1 + copies lifecycleCalls - removes lifecycleCalls } } ∧
      (removes lifecycleCalls = copies lifecycleCalls →
        runShare smallConfig 1 1 lifecycleState (lifecycleCalls ++ [ShareCall.remove]) = Run.done
          { lifecycleState with
            masterTextureNodes := lifecycleState.masterTextureNodes.set 1 MC_TextureNode.init
            textureList_ := lifecycleState.textureList_.set 1 none }) :=
  reference_lifecycle smallConfig lifecycleState 1 1 lifecycleNode
    (by decide) (by decide) (by decide) (by decide) (by decide) lifecycleCalls (by decide)
    (by
      intro j hj
      have hj6 : j ≤ 6 := hj
      interval_cases j <;> decide)

theorem firstIndex_of_take {α : Type} (p : α → Bool) (l : List α) (i : Nat) (a : α)
    (h : l[i]? = some a) (hp : p a = true) (hbefore : ∀ b ∈ l.take i, p b = false) :
    firstIndex p l = some i := by
  apply firstIndex_eq_some p l i a h hp
  intro j b hj hb
  apply hbefore b
  rw [List.mem_iff_getElem?]
  exact ⟨j, by rw [List.getElem?_take_of_lt hj]; exact hb⟩

theorem firstIndex_take_spec {α : Type} (p : α → Bool) (l : List α) (i : Nat)
    (h : firstIndex p l = some i) :
    ∃ a, l[i]? = some a ∧ p a = true ∧ ∀ b ∈ l.take i, p b = false := by
  obtain ⟨a, ha, hpa, hlt⟩ := firstIndex_some_spec p l i h
  refine ⟨a, ha, hpa, ?_⟩
  intro b hb
  rw [List.mem_iff_getElem?] at hb
  obtain ⟨j, hj⟩ := hb
  have hji : j < i := by
    by_contra hcon
    rw [List.getElem?_take_eq_none (Nat.le_of_not_lt hcon)] at hj
    exact absurd hj (by simp)
  rw [List.getElem?_take_of_lt hji] at hj
  exact hlt j b hji hj

/-! ### C3: dedupe -/

/-- C3.  Dedup.  Node `i` carries a name that `S_stricmp` finds equal to the path `p` and has
`uniqueInstance = 0`, and it is the first such node of the table (the scan of lines 1521-1539
runs in table order).  Then `loadTexture(p, ..., uniqueInstance = 0, ...)`, whatever its other
arguments, the file and the heap, returns `i` and changes nothing in the whole state but
`numUsers` of node `i`, raised by one: no slot is allocated and no other field of any node
changes.  A further such call on the resulting state, with any other arguments, returns `i`
again.  `numUsers` is a `DWORD`, taken below its maximum. -/
theorem loadTexture_dedup (cfg : Config) (s : MC_TextureManager) (p : String)
    (key : gos_TextureFormat) (hints nFlush : Nat) (textureFile : Option TextureFile)
    (mallocOk : Bool) (i : Nat) (n : MC_TextureNode) (nm : String)
    (hn : s.masterTextureNodes[i]? = some n) (hname : n.nodeName = some nm)
    (hcmp : cfg.S_stricmp nm p = 0) (hu : n.uniqueInstance = 0)
    (hfirst : ∀ m ∈ s.masterTextureNodes.take i, isLoaded cfg p 0 m = false)
    (hbound : n.numUsers + 1 < 2 ^ 32)
    (key2 : gos_TextureFormat) (hints2 nFlush2 : Nat) (textureFile2 : Option TextureFile)
    (mallocOk2 : Bool) :
    loadTexture cfg s p key hints 0 nFlush textureFile mallocOk = Run.done (i,
        { s with masterTextureNodes :=
            s.masterTextureNodes.set i { n with numUsers := n.numUsers + 1 } }) ∧
      ∃ s2, loadTexture cfg
          { s with masterTextureNodes :=
              s.masterTextureNodes.set i { n with numUsers := n.numUsers + 1 } }
          p key2 hints2 0 nFlush2 textureFile2 mallocOk2 = Run.done (i, s2) := by
  have hlt : i < s.masterTextureNodes.length := by
    rcases List.getElem?_eq_some.mp hn with ⟨hl, _⟩
    exact hl
  have hp : isLoaded cfg p 0 n = true := by
    simp [isLoaded, hname, hcmp, hu]
  have hfi : firstIndex (isLoaded cfg p 0) s.masterTextureNodes = some i :=
    firstIndex_of_take _ _ i n hn hp hfirst
  constructor
  · unfold loadTexture
    rw [hfi]
    simp only []
    rw [modifyNode_eq_set s i _ n hn, Nat.mod_eq_of_lt hbound]
  · have hp2 : isLoaded cfg p 0 { n with numUsers := n.numUsers + 1 } = true := by
      simpa [isLoaded] using hp
    have hfi2 : firstIndex (isLoaded cfg p 0)
        (s.masterTextureNodes.set i { n with numUsers := n.numUsers + 1 }) = some i := by
      apply firstIndex_of_take _ _ i _ (by simp [List.getElem?_set_self hlt]) hp2
      intro b hb
      apply hfirst b
      rw [List.mem_iff_getElem?] at hb ⊢
      obtain ⟨j, hj⟩ := hb
      have hji : j < i := by
        by_contra hcon
        rw [List.getElem?_take_eq_none (Nat.le_of_not_lt hcon)] at hj
        exact absurd hj (by simp)
      refine ⟨j, ?_⟩
      rw [List.getElem?_take_of_lt hji] at hj ⊢
      rw [List.getElem?_set_ne (Nat.ne_of_gt hji)] at hj
      exact hj
    unfold loadTexture
    simp only [hfi2]
    exact ⟨_, rfl⟩

/-- C3, at a concrete table: "a.tga" is held by node 1 as a unique instance and by node 2 as a
shared texture; a shared load of "A.TGA" returns 2 and only raises the count of node 2. -/
theorem loadTexture_dedup_witness :
    loadTexture smallConfig dedupState "A.TGA" gos_TextureFormat.gos_Texture_Alpha 5 0 1
        (fileOf [9, 9]) true = Run.done (2,
        { dedupState with
          masterTextureNodes := dedupState.masterTextureNodes.set 2
            { sampleNode 0xFFFFFFFA "a.tga" 0 0 0 with
              numUsers := (sampleNode 0xFFFFFFFA "a.tga" 0 0 0).numUsers + 1 } }) ∧
      ∃ s2, loadTexture smallConfig
          { dedupState with
            masterTextureNodes := dedupState.masterTextureNodes.set 2
              { sampleNode 0xFFFFFFFA "a.tga" 0 0 0 with
                numUsers := (sampleNode 0xFFFFFFFA "a.tga" 0 0 0).numUsers + 1 } }
          "A.TGA" gos_TextureFormat.gos_Texture_Solid 0 0 0 none false = Run.done (2, s2) :=
  loadTexture_dedup smallConfig dedupState "A.TGA" gos_TextureFormat.gos_Texture_Alpha 5 1
    (fileOf [9, 9]) true 2 (sampleNode 0xFFFFFFFA "a.tga" 0 0 0) "a.tga"
    (by decide) (by decide) (by decide) (by decide) (by decide) (by decide)
    gos_TextureFormat.gos_Texture_Solid 0 0 none false

/-! ### C4: `neverFLUSH` -/

/-- C4 (evaluation at the failing input).  Two textures loaded with `nFlush = 1` are Resident (handles 1 and
2) and were used at turn 0.  At turn 40, with the budget of two used up, `flushCache` returns
true having moved node 1, Resident and with bit 0 of `neverFLUSH` set, to `CACHED_OUT_HANDLE`
and destroyed its GPU object: the sweeps of `flushCache` lack the test of `neverFLUSH` that
`update` has. -/
theorem flushCache_evicts_neverFLUSH :
    ∃ s, runCalls smallConfig (start smallConfig rendererInit 0) neverFlushCalls = Run.done s ∧
      (s.masterTextureNodes.map (isResident smallConfig) = [false, true, true, false, false] ∧
       s.masterTextureNodes.map (fun n => n.neverFLUSH.testBit 0)
          = [true, true, true, false, false]) ∧
      (flushCache smallConfig s).1 = true ∧
      handles (flushCache smallConfig s).2 = [0, 0xFFFFFFFA, 2, 0xFFFFFFFA, 0xffffffff] ∧
      (flushCache smallConfig s).2.textureList_.map Option.isSome = [true, false, true] := by
  refine ⟨_, rfl, ⟨?_, ?_⟩, ?_, ?_, ?_⟩ <;> decide

theorem updateLoop_nodes (cfg : Config) (turn : Int) :
    ∀ (l : List MC_TextureNode) (acc : List (Option gosTexture) × Nat × Nat),
      (updateLoop cfg turn l acc).1 =
        l.map (fun n => if inUse cfg n && cacheable60 turn n then
          { n with gosTextureHandle := cfg.CACHED_OUT_HANDLE } else n) := by
  intro l
  induction l with
  | nil => intro acc; simp [updateLoop]
  | cons n ns ih =>
    intro acc
    obtain ⟨tl, freed, used⟩ := acc
    by_cases h1 : inUse cfg n = true
    · by_cases h2 : cacheable60 turn n = true
      · simp [updateLoop, h1, h2, ih]
      · simp [updateLoop, h1, h2, ih]
    · simp [updateLoop, h1, ih]

/-- What `update`, the other eviction path, does for `neverFLUSH`: it leaves every node whose
`neverFLUSH` has bit 0 set exactly as it was, whatever the turn, the node's last use and the
rest of the table: housekeeping never moves such a node to CachedOut. -/
theorem update_keeps_neverFLUSH (cfg : Config) (s : MC_TextureManager) (i : Nat)
    (n : MC_TextureNode) (hn : s.masterTextureNodes[i]? = some n)
    (hbit : n.neverFLUSH.testBit 0 = true) :
    (update cfg s).2.masterTextureNodes[i]? = some n := by
  have hmod : n.neverFLUSH &&& 1 = 1 := by
    rw [Nat.testBit_zero] at hbit
    rw [Nat.and_one_is_mod]
    simpa using hbit
  have hc : cacheable60 s.turn n = false := by
    simp [cacheable60, hmod]
  simp [update, updateLoop_nodes, List.getElem?_map, hn, hc]

/-- At a concrete table: 100 turns after its last use the Resident texture of node 1, loaded
with `neverFLUSH = 1`, is still what it was after `update`. -/
theorem update_keeps_neverFLUSH_witness :
    (update smallConfig idleState).2.masterTextureNodes[1]? = some neverFlushNode :=
  update_keeps_neverFLUSH smallConfig idleState 1 neverFlushNode (by decide) (by decide)

/-! ### `flushCache`: the shape of a call -/

theorem cacheOut_eq (cfg : Config) (s : MC_TextureManager) (i : Nat) (n : MC_TextureNode)
    (hn : s.masterTextureNodes[i]? = some n) :
    cacheOut cfg s i =
      { s with masterTextureNodes :=
                 s.masterTextureNodes.set i { n with gosTextureHandle := cfg.CACHED_OUT_HANDLE }
               textureList_ := if n.gosTextureHandle ≠ 0 then
                   s.textureList_.set n.gosTextureHandle none else s.textureList_
               currentUsedTextures := s.currentUsedTextures - 1 } := by
  unfold cacheOut
  rw [hn]
  by_cases h0 : n.gosTextureHandle = 0
  · simp only [h0, ne_eq, not_true_eq_false, if_false]
    rw [modifyNode_eq_set s i _ n hn]
  · simp only [h0, ne_eq, not_false_eq_true, if_true]
    rw [modifyNode_eq_set _ i _ n (by simpa [gos_DestroyTexture] using hn)]
    simp [gos_DestroyTexture]

theorem sweep1_imp_sweep3 (cfg : Config) (turn : Int) (n : MC_TextureNode)
    (h : sweep1 cfg turn n = true) : sweep3 cfg turn n = true := by
  simp only [sweep1, sweep3, Bool.and_eq_true, decide_eq_true_eq] at h ⊢
  exact ⟨h.1, by omega⟩

theorem sweep2_imp_sweep3 (cfg : Config) (turn : Int) (n : MC_TextureNode)
    (h : sweep2 cfg turn n = true) : sweep3 cfg turn n = true := by
  simp only [sweep2, sweep3, Bool.and_eq_true, decide_eq_true_eq] at h ⊢
  exact ⟨⟨h.1.1.1, h.1.2⟩, by omega⟩

/-- The three ways a call of `flushCache` can go. -/
theorem flushCache_cases (cfg : Config) (s : MC_TextureManager) :
    (s.masterTextureNodes.countP (inUse cfg) < cfg.MAX_MC2_GOS_TEXTURES ∧
        flushCache cfg s = (true, recount cfg s)) ∨
    (cfg.MAX_MC2_GOS_TEXTURES ≤ s.masterTextureNodes.countP (inUse cfg) ∧
        ∃ i n, s.masterTextureNodes[i]? = some n ∧ sweep3 cfg s.turn n = true ∧
          flushCache cfg s = (true, cacheOut cfg (recount cfg s) i)) ∨
    (cfg.MAX_MC2_GOS_TEXTURES ≤ s.masterTextureNodes.countP (inUse cfg) ∧
        (∀ m ∈ s.masterTextureNodes, sweep3 cfg s.turn m = false) ∧
          flushCache cfg s = (false, recount cfg s)) := by
  by_cases hc : s.masterTextureNodes.countP (inUse cfg) < cfg.MAX_MC2_GOS_TEXTURES
  · left
    exact ⟨hc, by simp [flushCache, recount, hc]⟩
  · right
    have hge : cfg.MAX_MC2_GOS_TEXTURES ≤ s.masterTextureNodes.countP (inUse cfg) :=
      Nat.le_of_not_lt hc
    cases h1 : firstIndex (sweep1 cfg s.turn) s.masterTextureNodes with
    | some i =>
      left
      obtain ⟨n, hn, hp, _⟩ := firstIndex_some_spec _ _ i h1
      exact ⟨hge, i, n, hn, sweep1_imp_sweep3 cfg _ n hp, by simp [flushCache, recount, hc, h1]⟩
    | none =>
      cases h2 : firstIndex (sweep2 cfg s.turn) s.masterTextureNodes with
      | some i =>
        left
        obtain ⟨n, hn, hp, _⟩ := firstIndex_some_spec _ _ i h2
        exact ⟨hge, i, n, hn, sweep2_imp_sweep3 cfg _ n hp,
          by simp [flushCache, recount, hc, h1, h2]⟩
      | none =>
        cases h3 : firstIndex (sweep3 cfg s.turn) s.masterTextureNodes with
        | some i =>
          left
          obtain ⟨n, hn, hp, _⟩ := firstIndex_some_spec _ _ i h3
          exact ⟨hge, i, n, hn, hp, by simp [flushCache, recount, hc, h1, h2, h3]⟩
        | none =>
          right
          exact ⟨hge, (firstIndex_eq_none _ _).mp h3,
            by simp [flushCache, recount, hc, h1, h2, h3]⟩

/-- At capacity, the first node in table order that the first sweep accepts is the one
cached out. -/
theorem flushCache_sweep1 (cfg : Config) (s : MC_TextureManager) (i : Nat)
    (hcap : cfg.MAX_MC2_GOS_TEXTURES ≤ s.masterTextureNodes.countP (inUse cfg))
    (h1 : firstIndex (sweep1 cfg s.turn) s.masterTextureNodes = some i) :
    flushCache cfg s = (true, cacheOut cfg (recount cfg s) i) := by
  have hc : ¬ s.masterTextureNodes.countP (inUse cfg) < cfg.MAX_MC2_GOS_TEXTURES :=
    Nat.not_lt.mpr hcap
  simp [flushCache, recount, hc, h1]

theorem isResident_inUse (cfg : Config) (n : MC_TextureNode) (h : isResident cfg n = true) :
    inUse cfg n = true ∧ n.gosTextureHandle ≠ 0 := by
  simp only [isResident, inUse, Bool.and_eq_true, bne_iff_ne, ne_eq] at h ⊢
  exact ⟨h.1, h.2⟩

/-! ### C5: tie-break of the first sweep -/

/-- C5 (evaluation at the failing input).  Budget three; N (node 0, loaded with
`nFlush = 1`), A (node 1) and B (node 2) are Resident and have been idle 200, 200 and 180
turns.  A and B are the eligible Resident nodes past the first threshold and A has the lower
index, yet `flushCache` caches out N: its first sweep lacks the test of `neverFLUSH` that
`update` has, so it takes the first node in table order that is in use, not a unique instance
and stale, and N is such a node.  A and B keep their handles. -/
theorem flushCache_tie_break_takes_neverFLUSH :
    ∃ s, runCalls threeConfig (start threeConfig rendererInit 0) tieBreakCalls = Run.done s ∧
      handles s = [1, 2, 3, 0xffffffff, 0xffffffff, 0xffffffff] ∧
      s.masterTextureNodes.map (fun n => (n.uniqueInstance, n.neverFLUSH.testBit 0))
        = [(0, true), (0, false), (0, false), (0, false), (0, false), (0, false)] ∧
      s.masterTextureNodes.map (fun n => s.turn - n.lastUsed) = [200, 200, 180, 201, 201, 201] ∧
      threeConfig.MAX_MC2_GOS_TEXTURES ≤ residentCount threeConfig s ∧
      (flushCache threeConfig s).1 = true ∧
      handles (flushCache threeConfig s).2
        = [0xFFFFFFFA, 2, 3, 0xffffffff, 0xffffffff, 0xffffffff] := by
  refine ⟨_, rfl, ?_, ?_, ?_, ?_, ?_, ?_⟩ <;> decide

/-- The first sweep of `flushCache` as it stands.  At capacity, let node `i` be Resident, not
a unique instance and last used 150 or more turns ago, and let no node before it in the table
be accepted by the first sweep.  Then `flushCache` returns true and evicts node `i`, however long the nodes after it
have been idle: its handle becomes `CACHED_OUT_HANDLE`, its GPU object is destroyed, and no
other node changes. -/
theorem flushCache_evicts_first_stale (cfg : Config) (s : MC_TextureManager) (i : Nat)
    (n : MC_TextureNode) (hn : s.masterTextureNodes[i]? = some n)
    (hcap : cfg.MAX_MC2_GOS_TEXTURES ≤ s.masterTextureNodes.countP (inUse cfg))
    (hres : isResident cfg n = true) (hu : n.uniqueInstance = 0)
    (hstale : n.lastUsed ≤ s.turn - 150)
    (hfirst : ∀ m ∈ s.masterTextureNodes.take i, sweep1 cfg s.turn m = false) :
    flushCache cfg s = (true,
      { s with totalCacheMisses := s.totalCacheMisses + 1
               currentUsedTextures := s.masterTextureNodes.countP (inUse cfg) - 1
               masterTextureNodes :=
                 s.masterTextureNodes.set i { n with gosTextureHandle := cfg.CACHED_OUT_HANDLE }
               textureList_ := s.textureList_.set n.gosTextureHandle none }) := by
  obtain ⟨hin, h0⟩ := isResident_inUse cfg n hres
  have hp : sweep1 cfg s.turn n = true := by
    simp [sweep1, hin, hu, hstale]
  rw [flushCache_sweep1 cfg s i hcap (firstIndex_of_take _ _ i n hn hp hfirst),
    cacheOut_eq cfg (recount cfg s) i n (by simpa [recount] using hn)]
  simp [recount, h0]

/-- At a concrete table: A (node 1) idle 180 turns and B (node 2) idle 200 turns; A, the lower
index, is the one evicted although B has been idle longer. -/
theorem flushCache_evicts_first_stale_witness :
    flushCache smallConfig tieBreakState = (true,
      { tieBreakState with
        totalCacheMisses := tieBreakState.totalCacheMisses + 1
        currentUsedTextures := tieBreakState.masterTextureNodes.countP (inUse smallConfig) - 1
        masterTextureNodes := tieBreakState.masterTextureNodes.set 1
          { sampleNode 1 "a.tga" 0 0 20 with
            gosTextureHandle := smallConfig.CACHED_OUT_HANDLE }
        textureList_ :=
          tieBreakState.textureList_.set (sampleNode 1 "a.tga" 0 0 20).gosTextureHandle none }) :=
  flushCache_evicts_first_stale smallConfig tieBreakState 1 (sampleNode 1 "a.tga" 0 0 20)
    (by decide) (by decide) (by decide) (by decide) (by decide) (by decide)

/-! ### C6: the thresholds of the first two sweeps -/

/-- C6 (counterexample).  Budget two; P (node 0) has been idle 31 turns and Q (node 1)
exactly 150 turns, both Resident and eligible, every other slot Free.  `flushCache` evicts Q
and keeps P: the first sweep tests `lastUsed <= turn - 150`, which a node idle exactly 150
turns passes. -/
theorem flushCache_takes_idle_150 :
    ∃ s, runCalls smallConfig (start smallConfig rendererInit 0) thresholdCalls = Run.done s ∧
      handles s = [2, 1, 0xffffffff, 0xffffffff, 0xffffffff] ∧
      s.masterTextureNodes.map (fun n => (n.uniqueInstance, n.neverFLUSH.testBit 0))
        = [(0, false), (0, false), (0, false), (0, false), (0, false)] ∧
      (s.masterTextureNodes.map (fun n => s.turn - n.lastUsed)).take 2 = [31, 150] ∧
      smallConfig.MAX_MC2_GOS_TEXTURES ≤ residentCount smallConfig s ∧
      (flushCache smallConfig s).1 = true ∧
      handles (flushCache smallConfig s).2
        = [2, 0xFFFFFFFA, 0xffffffff, 0xffffffff, 0xffffffff] := by
  refine ⟨_, rfl, ?_, ?_, ?_, ?_, ?_, ?_⟩ <;> decide

theorem flushCache_sweep2 (cfg : Config) (s : MC_TextureManager) (i : Nat)
    (hcap : cfg.MAX_MC2_GOS_TEXTURES ≤ s.masterTextureNodes.countP (inUse cfg))
    (h1 : firstIndex (sweep1 cfg s.turn) s.masterTextureNodes = none)
    (h2 : firstIndex (sweep2 cfg s.turn) s.masterTextureNodes = some i) :
    flushCache cfg s = (true, cacheOut cfg (recount cfg s) i) := by
  have hc : ¬ s.masterTextureNodes.countP (inUse cfg) < cfg.MAX_MC2_GOS_TEXTURES :=
    Nat.not_lt.mpr hcap
  simp [flushCache, recount, hc, h1, h2]

theorem cacheOut_resident (cfg : Config) (s : MC_TextureManager) (i : Nat)
    (n : MC_TextureNode) (hn : s.masterTextureNodes[i]? = some n)
    (h0 : n.gosTextureHandle ≠ 0) :
    cacheOut cfg (recount cfg s) i = afterEviction cfg s i n := by
  rw [cacheOut_eq cfg (recount cfg s) i n (by simpa [recount] using hn)]
  simp [recount, afterEviction, h0]

/-- C6 (amended).  Let node `i` be Resident and not a unique instance, with the cache at
capacity.  The first sweep of `flushCache` selects it exactly when it has been idle 150 turns
or more (`turn - lastUsed >= 150`, the bound included) and no node before it passes the first
sweep; the second sweep selects it exactly when it has been idle 30 turns or more and no node
before it passes the second sweep.  The node the first sweep selects is evicted, and so is the
node the second sweep selects when the first sweep finds none. -/
theorem flushCache_thresholds (cfg : Config) (s : MC_TextureManager) (i : Nat)
    (n : MC_TextureNode) (hn : s.masterTextureNodes[i]? = some n)
    (hcap : cfg.MAX_MC2_GOS_TEXTURES ≤ s.masterTextureNodes.countP (inUse cfg))
    (hres : isResident cfg n = true) (hu : n.uniqueInstance = 0) :
    (firstIndex (sweep1 cfg s.turn) s.masterTextureNodes = some i ↔
        150 ≤ s.turn - n.lastUsed ∧
          ∀ m ∈ s.masterTextureNodes.take i, sweep1 cfg s.turn m = false) ∧
    (firstIndex (sweep2 cfg s.turn) s.masterTextureNodes = some i ↔
        30 ≤ s.turn - n.lastUsed ∧
          ∀ m ∈ s.masterTextureNodes.take i, sweep2 cfg s.turn m = false) ∧
    (firstIndex (sweep1 cfg s.turn) s.masterTextureNodes = some i →
        flushCache cfg s = (true, afterEviction cfg s i n)) ∧
    (firstIndex (sweep1 cfg s.turn) s.masterTextureNodes = none →
      firstIndex (sweep2 cfg s.turn) s.masterTextureNodes = some i →
        flushCache cfg s = (true, afterEviction cfg s i n)) := by
  obtain ⟨hin, h0⟩ := isResident_inUse cfg n hres
  have e1 : sweep1 cfg s.turn n = true ↔ 150 ≤ s.turn - n.lastUsed := by
    simp only [sweep1, hin, hu, Bool.and_eq_true, decide_eq_true_eq, beq_self_eq_true,
      true_and]
    constructor <;> intro h <;> omega
  have e2 : sweep2 cfg s.turn n = true ↔ 30 ≤ s.turn - n.lastUsed := by
    simp only [sweep2, hin, hu, Bool.and_eq_true, decide_eq_true_eq, beq_self_eq_true,
      true_and, bne_iff_ne, ne_eq, h0, not_false_eq_true]
    constructor <;> intro h <;> omega
  refine ⟨⟨?_, ?_⟩, ⟨?_, ?_⟩, ?_, ?_⟩
  · intro h
    obtain ⟨a, ha, hpa, hbefore⟩ := firstIndex_take_spec _ _ i h
    rw [hn] at ha
    cases ha
    exact ⟨e1.mp hpa, hbefore⟩
  · intro h
    exact firstIndex_of_take _ _ i n hn (e1.mpr h.1) h.2
  · intro h
    obtain ⟨a, ha, hpa, hbefore⟩ := firstIndex_take_spec _ _ i h
    rw [hn] at ha
    cases ha
    exact ⟨e2.mp hpa, hbefore⟩
  · intro h
    exact firstIndex_of_take _ _ i n hn (e2.mpr h.1) h.2
  · intro h
    rw [flushCache_sweep1 cfg s i hcap h, cacheOut_resident cfg s i n hn h0]
  · intro h1 h2
    rw [flushCache_sweep2 cfg s i hcap h1 h2, cacheOut_resident cfg s i n hn h0]

/-- C6 (amended), at two concrete tables.  With P idle 31 turns before Q idle exactly 150
turns, the first sweep selects Q and Q is evicted.  With P idle exactly 30 turns and the other
texture idle 10, the first sweep finds nothing, the second selects P and P is evicted. -/
theorem flushCache_thresholds_witness :
    ((150 : Int) ≤ thresholdState.turn - nodeQ.lastUsed ∧
      flushCache smallConfig thresholdState
        = (true, afterEviction smallConfig thresholdState 2 nodeQ)) ∧
    ((30 : Int) ≤ secondSweepState.turn - nodeP.lastUsed ∧
      flushCache smallConfig secondSweepState
        = (true, afterEviction smallConfig secondSweepState 1 nodeP)) :=
  ⟨⟨((flushCache_thresholds smallConfig thresholdState 2 nodeQ (by decide) (by decide)
        (by decide) (by decide)).1.mp (by decide)).1,
     (flushCache_thresholds smallConfig thresholdState 2 nodeQ (by decide) (by decide)
        (by decide) (by decide)).2.2.1 (by decide)⟩,
   ⟨((flushCache_thresholds smallConfig secondSweepState 1 nodeP (by decide) (by decide)
        (by decide) (by decide)).2.1.mp (by decide)).1,
     (flushCache_thresholds smallConfig secondSweepState 1 nodeP (by decide) (by decide)
        (by decide) (by decide)).2.2.2 (by decide) (by decide)⟩⟩

/-! ### C7: the boundary of the third sweep -/

theorem flushCache_sweep3 (cfg : Config) (s : MC_TextureManager) (i : Nat)
    (hcap : cfg.MAX_MC2_GOS_TEXTURES ≤ s.masterTextureNodes.countP (inUse cfg))
    (h1 : firstIndex (sweep1 cfg s.turn) s.masterTextureNodes = none)
    (h2 : firstIndex (sweep2 cfg s.turn) s.masterTextureNodes = none)
    (h3 : firstIndex (sweep3 cfg s.turn) s.masterTextureNodes = some i) :
    flushCache cfg s = (true, cacheOut cfg (recount cfg s) i) := by
  have hc : ¬ s.masterTextureNodes.countP (inUse cfg) < cfg.MAX_MC2_GOS_TEXTURES :=
    Nat.not_lt.mpr hcap
  simp [flushCache, recount, hc, h1, h2, h3]

/-- A node that fails the third sweep's test is left as it is by `flushCache`. -/
theorem flushCache_keeps_of_not_sweep3 (cfg : Config) (s : MC_TextureManager) (i : Nat)
    (n : MC_TextureNode) (hn : s.masterTextureNodes[i]? = some n)
    (h3 : sweep3 cfg s.turn n = false) :
    (flushCache cfg s).2.masterTextureNodes[i]? = some n := by
  rcases flushCache_cases cfg s with ⟨_, h⟩ | ⟨_, j, m, hm, hp, h⟩ | ⟨_, _, h⟩
  · rw [h]
    simpa [recount] using hn
  · rw [h, cacheOut_eq cfg (recount cfg s) j m (by simpa [recount] using hm)]
    have hji : j ≠ i := by
      intro hji
      subst hji
      rw [hn] at hm
      cases hm
      rw [hp] at h3
      exact absurd h3 (by simp)
    simp only [recount]
    rw [List.getElem?_set_ne hji]
    exact hn
  · rw [h]
    simpa [recount] using hn

/-- C7.  Tier-3 boundary.  (1) A node whose `lastUsed` equals the current turn is left exactly
as it is by `flushCache`, whichever sweep runs.  (2) A Resident node that is not a unique
instance and was last used one turn ago (`lastUsed = turn - 1`) passes the third sweep: at
capacity, when the first two sweeps find nothing and no node before it passes the third
sweep, `flushCache` returns true and evicts it. -/
theorem flushCache_tier3_boundary (cfg : Config) (s : MC_TextureManager) (i : Nat)
    (n : MC_TextureNode) (hn : s.masterTextureNodes[i]? = some n) :
    (n.lastUsed = s.turn → (flushCache cfg s).2.masterTextureNodes[i]? = some n) ∧
    (isResident cfg n = true → n.uniqueInstance = 0 → n.lastUsed = s.turn - 1 →
      sweep3 cfg s.turn n = true ∧
      (cfg.MAX_MC2_GOS_TEXTURES ≤ s.masterTextureNodes.countP (inUse cfg) →
        firstIndex (sweep1 cfg s.turn) s.masterTextureNodes = none →
        firstIndex (sweep2 cfg s.turn) s.masterTextureNodes = none →
        (∀ m ∈ s.masterTextureNodes.take i, sweep3 cfg s.turn m = false) →
        flushCache cfg s = (true, afterEviction cfg s i n))) := by
  constructor
  · intro ht
    apply flushCache_keeps_of_not_sweep3 cfg s i n hn
    simp only [sweep3, Bool.and_eq_false_iff, decide_eq_false_iff_not]
    right
    omega
  · intro hres hu ht
    obtain ⟨hin, h0⟩ := isResident_inUse cfg n hres
    have hp : sweep3 cfg s.turn n = true := by
      simp [sweep3, hin, hu, ht]
    refine ⟨hp, ?_⟩
    intro hcap h1 h2 hbefore
    rw [flushCache_sweep3 cfg s i hcap h1 h2 (firstIndex_of_take _ _ i n hn hp hbefore),
      cacheOut_resident cfg s i n hn h0]

/-- C7, at a concrete table at turn 5 with the budget used up: node 1, used this turn, is
untouched by `flushCache`; node 2, used one turn ago, is evicted by the third sweep. -/
theorem flushCache_tier3_boundary_witness :
    (flushCache smallConfig boundaryState).2.masterTextureNodes[1]? = some freshNode ∧
    sweep3 smallConfig boundaryState.turn dayOldNode = true ∧
    flushCache smallConfig boundaryState
      = (true, afterEviction smallConfig boundaryState 2 dayOldNode) :=
  ⟨(flushCache_tier3_boundary smallConfig boundaryState 1 freshNode (by decide)).1 (by decide),
   ((flushCache_tier3_boundary smallConfig boundaryState 2 dayOldNode (by decide)).2
      (by decide) (by decide) (by decide)).1,
   ((flushCache_tier3_boundary smallConfig boundaryState 2 dayOldNode (by decide)).2
      (by decide) (by decide) (by decide)).2 (by decide) (by decide) (by decide) (by decide)⟩

/-! ### C8: what the result of `flushCache` says -/

/-- C10 (evaluation at the failing input).  Budget two; the two Resident nodes (1 and 2)
were loaded with `nFlush = 1`, so each is exempt by bit 0 of `neverFLUSH`, and node 3 is
CachedOut.  At turn 40 `get_gosTextureHandle` on node 3 does not return 0: `flushCache`, whose
sweeps lack the test of `neverFLUSH` that `update` has, evicts node 1, and node 3 gets the new
GPU object 3. -/
theorem get_under_pressure_evicts_neverFLUSH :
    ∃ s, runCalls smallConfig (start smallConfig rendererInit 0) neverFlushCalls = Run.done s ∧
      handles s = [0, 1, 2, 0xFFFFFFFA, 0xffffffff] ∧
      residentCount smallConfig s = smallConfig.MAX_MC2_GOS_TEXTURES ∧
      (s.masterTextureNodes.filter (isResident smallConfig)).map
          (fun n => n.neverFLUSH.testBit 0) = [true, true] ∧
      ∃ s2, get_gosTextureHandle smallConfig s 3 = Run.done (3, s2) ∧
        handles s2 = [0, 0xFFFFFFFA, 2, 3, 0xffffffff] ∧
        s2.textureList_.map Option.isSome = [true, false, true, true] := by
  refine ⟨_, rfl, ?_, ?_, ?_, _, rfl, ?_, ?_⟩ <;> decide

/-- Pressure when every node in use is a unique instance.  Let node `i` be CachedOut,
`currentUsedTextures` and the number of nodes in use both at least `MAX_MC2_GOS_TEXTURES`, and
every node in use a unique instance.  Then
`get_gosTextureHandle` on node `i` returns 0 without stopping; the table and the renderer's
texture list are what they were, so no GPU object is created or destroyed, node `i` stays
CachedOut and every Resident node stays Resident.  Only the miss counter and
`currentUsedTextures` are rewritten. -/
theorem get_under_pressure (cfg : Config) (s : MC_TextureManager) (i : Nat)
    (n : MC_TextureNode) (hn : s.masterTextureNodes[i]? = some n)
    (hc : n.gosTextureHandle = cfg.CACHED_OUT_HANDLE)
    (hdist : cfg.CACHED_OUT_HANDLE ≠ 0xffffffff)
    (hfull : cfg.MAX_MC2_GOS_TEXTURES ≤ s.currentUsedTextures)
    (hcap : cfg.MAX_MC2_GOS_TEXTURES ≤ s.masterTextureNodes.countP (inUse cfg))
    (hexempt : ∀ m ∈ s.masterTextureNodes, inUse cfg m = true → m.uniqueInstance ≠ 0) :
    get_gosTextureHandle cfg s i = Run.done (0,
      { s with totalCacheMisses := s.totalCacheMisses + 1
               currentUsedTextures := s.masterTextureNodes.countP (inUse cfg) }) := by
  have hno : ∀ m ∈ s.masterTextureNodes, sweep3 cfg s.turn m = false := by
    intro m hm
    by_cases hin : inUse cfg m = true
    · have := hexempt m hm hin
      simp [sweep3, hin, this]
    · simp [sweep3, hin]
  have hflush : flushCache cfg s = (false, recount cfg s) := by
    rcases flushCache_cases cfg s with ⟨hlt, _⟩ | ⟨_, j, m, hm, hp, _⟩ | ⟨_, _, h⟩
    · omega
    · have hmem : m ∈ s.masterTextureNodes := List.mem_iff_getElem?.mpr ⟨j, hm⟩
      rw [hno m hmem] at hp
      exact absurd hp (by simp)
    · exact h
  unfold get_gosTextureHandle
  rw [hn]
  have h1 : ¬ n.gosTextureHandle = 0xffffffff := by
    rw [hc]
    exact hdist
  simp only [h1, if_false, hc, ne_eq, not_true_eq_false, ge_iff_le, hfull, if_true, hflush]
  rw [if_neg hdist]
  rfl

/-- At a concrete table: at turn 500 two unique instances hold the budget of two; asking for
the CachedOut node 3 returns 0 and leaves table and texture list alone. -/
theorem get_under_pressure_witness :
    get_gosTextureHandle smallConfig pressureState 3 = Run.done (0,
      { pressureState with
        totalCacheMisses := pressureState.totalCacheMisses + 1
        currentUsedTextures := pressureState.masterTextureNodes.countP (inUse smallConfig) }) :=
  get_under_pressure smallConfig pressureState 3 waitingNode (by decide) (by decide) (by decide)
    (by decide) (by decide) (by decide)

/-! ### C14: the hot path -/

/-- C14.  Hot path.  On a Resident node `get_gosTextureHandle` returns the handle the node
holds, and the state after the call is the state before it with `lastUsed` of that node set to
the current turn: no other field of the node, no other node, neither counter, not the
scratch buffer, and the renderer's texture list is what it was, so no device call was made. -/
theorem get_hot_path (cfg : Config) (s : MC_TextureManager) (i : Nat) (n : MC_TextureNode)
    (hn : s.masterTextureNodes[i]? = some n) (hres : isResident cfg n = true) :
    get_gosTextureHandle cfg s i = Run.done (n.gosTextureHandle,
      { s with masterTextureNodes := s.masterTextureNodes.set i { n with lastUsed := s.turn } })
    := by
  simp only [isResident, Bool.and_eq_true, bne_iff_ne, ne_eq] at hres
  unfold get_gosTextureHandle
  rw [hn]
  simp only [hres.1.2, hres.1.1, if_false, ne_eq, not_false_eq_true, if_true]
  rw [modifyNode_eq_set s i _ n hn]

/-- C14, at a concrete table at turn 9: node 2 is Resident with handle 3 and was last used at
turn 7; the call returns 3 and only stamps the node with turn 9. -/
theorem get_hot_path_witness :
    get_gosTextureHandle smallConfig hotState 2 = Run.done (hotNode.gosTextureHandle,
      { hotState with
        masterTextureNodes :=
          hotState.masterTextureNodes.set 2 { hotNode with lastUsed := hotState.turn } }) :=
  get_hot_path smallConfig hotState 2 hotNode (by decide) (by decide)

/-! ### C16: unique instances -/

/-- C16.  Eviction exemption (unique instance).  A node whose `uniqueInstance` is set is left
exactly as it was by `flushCache` and by `update`, whatever the turn, its last use, its
`neverFLUSH` and the rest of the table: neither moves it to CachedOut. -/
theorem unique_never_evicted (cfg : Config) (s : MC_TextureManager) (i : Nat)
    (n : MC_TextureNode) (hn : s.masterTextureNodes[i]? = some n)
    (hu : n.uniqueInstance ≠ 0) :
    (flushCache cfg s).2.masterTextureNodes[i]? = some n ∧
    (update cfg s).2.masterTextureNodes[i]? = some n := by
  constructor
  · apply flushCache_keeps_of_not_sweep3 cfg s i n hn
    simp [sweep3, hu]
  · have hc : cacheable60 s.turn n = false := by
      simp [cacheable60, hu]
    simp [update, updateLoop_nodes, List.getElem?_map, hn, hc]

/-- C16, at a concrete table: at turn 500, with the budget used up, the unique instance of
node 1, idle 500 turns, is what it was after `flushCache` and after `update`. -/
theorem unique_never_evicted_witness :
    (flushCache smallConfig pressureState).2.masterTextureNodes[1]? = some uniqueNode1 ∧
    (update smallConfig pressureState).2.masterTextureNodes[1]? = some uniqueNode1 :=
  unique_never_evicted smallConfig pressureState 1 uniqueNode1 (by decide) (by decide)

/-! ### C19: `copyTexture` -/

/-- C19.  Share.  For a node `id` of the table: when the node is not Free, `copyTexture(id)`
returns `id` and the state after the call is the state before it with `numUsers` of that node
raised by one, so its handle and every other field, node and counter are what they were; when
the node is Free (`gosTextureHandle = 0xffffffff`) the call stops the program, and no changed
state results.  `numUsers` is a `DWORD`, taken below its maximum. -/
theorem copyTexture_share (s : MC_TextureManager) (id : Nat) (n : MC_TextureNode)
    (hn : s.masterTextureNodes[id]? = some n) :
    (n.gosTextureHandle ≠ 0xffffffff → n.numUsers + 1 < 2 ^ 32 →
      copyTexture s id = Run.done (id,
        { s with masterTextureNodes :=
            s.masterTextureNodes.set id { n with numUsers := n.numUsers + 1 } })) ∧
    (n.gosTextureHandle = 0xffffffff →
      copyTexture s id = Run.stopped StopReason.invalidCopy) := by
  constructor
  · intro hfree hb
    rw [copyTexture_live s id n hn hfree, Nat.mod_eq_of_lt hb]
  · intro hfree
    unfold copyTexture
    rw [hn]
    simp [hfree]

/-- C19, at concrete tables: sharing the CachedOut node 1 of `hotState` returns 1 and raises
its count from 1 to 2; sharing the Free node 1 of the start state stops the program. -/
theorem copyTexture_share_witness :
    copyTexture hotState 1 = Run.done (1,
      { hotState with
        masterTextureNodes := hotState.masterTextureNodes.set 1
          { waitingNode with numUsers := waitingNode.numUsers + 1 } }) ∧
    copyTexture startState 1 = Run.stopped StopReason.invalidCopy :=
  ⟨(copyTexture_share hotState 1 waitingNode (by decide)).1 (by decide) (by decide),
   (copyTexture_share startState 1 MC_TextureNode.init (by decide)).2 (by decide)⟩

/-! ### C18: `removeTextureNode` -/

/-- C18 (evaluation at the failing input).  After two shared loads of "a.tga" node 1 is live
with `numUsers = 2`, its blob and its name.  One `removeTextureNode(1)` returns normally and
leaves node 1 Free (`init`): the count was not lowered to 1, the node was destroyed, blob and
name are gone. -/
theorem removeTextureNode_ignores_numUsers :
    ∃ s, runCalls smallConfig startState sharedLoadCalls = Run.done s ∧
      s.masterTextureNodes[1]? = some
        { sampleNode 0xFFFFFFFA "a.tga" 0 0 (-1) with
          numUsers := 2, width := 0xf0000002, textureData := some [1, 2], lzCompSize := 2 } ∧
      ∃ s2, removeTextureNode smallConfig s 1 = Run.done s2 ∧
        s2.masterTextureNodes[1]? = some MC_TextureNode.init ∧
        MC_TextureNode.init.gosTextureHandle = 0xffffffff ∧
        MC_TextureNode.init.textureData = none ∧ MC_TextureNode.init.nodeName = none := by
  refine ⟨_, rfl, ?_, _, rfl, ?_, ?_, ?_, ?_⟩ <;> decide

/-! ### C20: releasing an invalid id -/

/-- C20 (counterexample).  Right after `start` slot 1 is Free.  `removeTextureNode(1)`
returns normally, with the state unchanged, and so does `removeTextureNode(0xffffffff)`: neither
stops the program.  `removeTexture(0xffffffff)` returns as well, and it has altered a reference
count: the first Free node, node 1, now has `numUsers = 0xffffffff`. -/
theorem release_invalid_returns :
    startState.masterTextureNodes[1]? = some MC_TextureNode.init ∧
    removeTextureNode smallConfig startState 1 = Run.done startState ∧
    removeTextureNode smallConfig startState 0xffffffff = Run.done startState ∧
    (removeTexture smallConfig startState 0xffffffff).masterTextureNodes[1]? =
      some { MC_TextureNode.init with numUsers := 0xffffffff } := by
  decide

theorem getElem?_modifyAt_ne {α : Type} (f : α → α) (l : List α) (i j : Nat) (h : i ≠ j) :
    (modifyAt f l i)[j]? = l[j]? := by
  cases hi : l[i]? with
  | none => rw [modifyAt_of_none f l i hi]
  | some a => rw [modifyAt_eq_set f l i a hi, List.getElem?_set_ne h]

/-- C20 (amended).  Releasing an invalid id is not fatal.  For a Free slot `id`,
`removeTextureNode(id)` returns normally; the slot is initialised again and every other node,
the counters and the renderer are what they were.  `removeTextureNode(0xffffffff)` returns
normally and changes nothing.  `removeTexture` with a handle that no node holds changes
nothing. -/
theorem release_invalid (cfg : Config) (s : MC_TextureManager) (id : Nat)
    (n : MC_TextureNode) (hn : s.masterTextureNodes[id]? = some n)
    (hfree : n.gosTextureHandle = 0xffffffff) (hid : id ≠ 0xffffffff) :
    removeTextureNode cfg s id = Run.done
      { s with masterTextureNodes := s.masterTextureNodes.set id MC_TextureNode.init } ∧
    removeTextureNode cfg s 0xffffffff = Run.done s ∧
    ∀ h, (∀ m ∈ s.masterTextureNodes, m.gosTextureHandle ≠ h) → removeTexture cfg s h = s := by
  have hlt : id < s.masterTextureNodes.length := by
    rcases List.getElem?_eq_some.mp hn with ⟨hl, _⟩
    exact hl
  refine ⟨?_, ?_, ?_⟩
  · unfold removeTextureNode
    rw [if_pos hid, if_pos hlt, freeLeftovers_destroy cfg s id n hn, destroy_eq cfg s id n hn]
    have hr : ¬ isResident cfg n = true := by
      simp [isResident, hfree]
    rw [if_neg hr]
  · simp [removeTextureNode]
  · intro h hall
    have hnone : firstIndex (fun m => m.gosTextureHandle == h) s.masterTextureNodes = none := by
      rw [firstIndex_eq_none]
      intro a ha
      simpa using hall a ha
    simp [removeTexture, hnone]

/-- C20 (amended), at the start state: releasing the Free slot 1 returns normally and leaves
the table as it was, and so does releasing a handle that no node holds. -/
theorem release_invalid_witness :
    removeTextureNode smallConfig startState 1 = Run.done
      { startState with
        masterTextureNodes := startState.masterTextureNodes.set 1 MC_TextureNode.init } ∧
    removeTextureNode smallConfig startState 0xffffffff = Run.done startState ∧
    removeTexture smallConfig startState 77 = startState :=
  ⟨(release_invalid smallConfig startState 1 MC_TextureNode.init (by decide) (by decide)
      (by decide)).1,
   (release_invalid smallConfig startState 1 MC_TextureNode.init (by decide) (by decide)
      (by decide)).2.1,
   (release_invalid smallConfig startState 1 MC_TextureNode.init (by decide) (by decide)
      (by decide)).2.2 77 (by decide)⟩

/-! ### C17: unique loads -/

/-- C17 (counterexample).  "a.tga" is loaded as a unique instance and lives in node 1 with one
user.  A second load of "a.tga" with `uniqueInstance = 1` returns 1, a slot that was not Free,
and raises `numUsers` of that live node to 2: the scan shares a node whenever its name matches
and its `uniqueInstance` equals the argument. -/
theorem loadTexture_unique_shares :
    ∃ s, runCalls smallConfig startState uniqueLoadCalls = Run.done s ∧
      handles s = [0, 0xFFFFFFFA, 0xffffffff, 0xffffffff, 0xffffffff] ∧
      s.masterTextureNodes.map (fun n => (n.uniqueInstance, n.numUsers))
        = [(0, 0), (1, 1), (0, 0), (0, 0), (0, 0)] ∧
      ∃ s2, loadTexture smallConfig s "a.tga" gos_TextureFormat.gos_Texture_Solid 0 1 0
          (fileOf [1, 2]) true = Run.done (1, s2) ∧
        s2.masterTextureNodes.map (fun n => (n.uniqueInstance, n.numUsers))
          = [(0, 0), (1, 2), (0, 0), (0, 0), (0, 0)] ∧
        handles s2 = handles s := by
  refine ⟨_, rfl, ?_, ?_, _, rfl, ?_, ?_⟩ <;> decide

theorem loadTexture_hit (cfg : Config) (s : MC_TextureManager) (p : String)
    (key : gos_TextureFormat) (hints u nFlush : Nat) (file : Option TextureFile)
    (mallocOk : Bool) (i : Nat) (n : MC_TextureNode)
    (hn : s.masterTextureNodes[i]? = some n) (hp : isLoaded cfg p u n = true)
    (hfirst : ∀ m ∈ s.masterTextureNodes.take i, isLoaded cfg p u m = false) :
    loadTexture cfg s p key hints u nFlush file mallocOk = Run.done (i,
      { s with masterTextureNodes :=
          s.masterTextureNodes.set i { n with numUsers := (n.numUsers + 1) % 2 ^ 32 } }) := by
  have hfi : firstIndex (isLoaded cfg p u) s.masterTextureNodes = some i :=
    firstIndex_of_take _ _ i n hn hp hfirst
  unfold loadTexture
  rw [hfi]
  simp only []
  rw [modifyNode_eq_set s i _ n hn]

theorem loadTexture_miss_fits (cfg : Config) (s : MC_TextureManager) (p : String)
    (key : gos_TextureFormat) (hints u nFlush : Nat) (file : Option TextureFile)
    (f : TextureFile) (mallocOk : Bool) (i : Nat)
    (hmiss : ∀ m ∈ s.masterTextureNodes, isLoaded cfg p u m = false)
    (hfree : firstIndex (fun n => n.gosTextureHandle == 0xffffffff) s.masterTextureNodes
      = some i)
    (hopen : openTextureFile cfg file = some f)
    (hfit : ¬ ((f.readRAW = none ∨ f.readRAW = some []) ∧
      cfg.MAX_LZ_BUFFER_SIZE < f.content.length)) :
    ∃ s1, loadTexture cfg s p key hints u nFlush file mallocOk = Run.done (i, s1) ∧
      ∀ j, j ≠ i → s1.masterTextureNodes[j]? = s.masterTextureNodes[j]? := by
  have hmiss2 : firstIndex (isLoaded cfg p u) s.masterTextureNodes = none :=
    (firstIndex_eq_none _ _).mpr hmiss
  unfold loadTexture
  rw [hmiss2]
  simp only [hfree, hopen]
  cases hraw : f.readRAW with
  | none =>
    have hsz : f.content.length ≤ cfg.MAX_LZ_BUFFER_SIZE := by
      by_contra hc
      exact hfit ⟨Or.inl hraw, Nat.not_le.mp hc⟩
    simp only [hsz, if_true]
    exact ⟨_, rfl, fun j hj => by
      simp [modifyNode, getElem?_modifyAt_ne _ _ i j (Ne.symm hj)]⟩
  | some b =>
    cases b with
    | nil =>
      have hsz : f.content.length ≤ cfg.MAX_LZ_BUFFER_SIZE := by
        by_contra hc
        exact hfit ⟨Or.inr hraw, Nat.not_le.mp hc⟩
      simp only [hsz, if_true]
      exact ⟨_, rfl, fun j hj => by
        simp [modifyNode, getElem?_modifyAt_ne _ _ i j (Ne.symm hj)]⟩
    | cons b0 bs =>
      exact ⟨_, rfl, fun j hj => by
        simp [modifyNode, getElem?_modifyAt_ne _ _ i j (Ne.symm hj)]⟩

theorem loadTexture_miss_oversize (cfg : Config) (s : MC_TextureManager) (p : String)
    (key : gos_TextureFormat) (hints u nFlush : Nat) (file : Option TextureFile)
    (f : TextureFile) (mallocOk : Bool) (i : Nat)
    (hmiss : ∀ m ∈ s.masterTextureNodes, isLoaded cfg p u m = false)
    (hfree : firstIndex (fun n => n.gosTextureHandle == 0xffffffff) s.masterTextureNodes
      = some i)
    (hopen : openTextureFile cfg file = some f)
    (hraw : f.readRAW = none ∨ f.readRAW = some [])
    (hbig : cfg.MAX_LZ_BUFFER_SIZE < f.content.length) :
    loadTexture cfg s p key hints u nFlush file mallocOk =
      Run.stopped (if cfg.DEBUG then StopReason.inputTooLarge else StopReason.bufferOverrun)
    := by
  have hmiss2 : firstIndex (isLoaded cfg p u) s.masterTextureNodes = none :=
    (firstIndex_eq_none _ _).mpr hmiss
  have hnot : ¬ f.content.length ≤ cfg.MAX_LZ_BUFFER_SIZE := Nat.not_le.mpr hbig
  unfold loadTexture
  rw [hmiss2]
  simp only [hfree, hopen]
  rcases hraw with hraw | hraw
  · simp only [hraw, hnot, if_false]
    cases cfg.DEBUG <;> rfl
  · simp only [hraw, hnot, if_false]
    cases cfg.DEBUG <;> rfl

theorem loadTexture_miss_done (cfg : Config) (s : MC_TextureManager) (p : String)
    (key : gos_TextureFormat) (hints u nFlush : Nat) (file : Option TextureFile)
    (mallocOk : Bool) (i : Nat) (s1 : MC_TextureManager)
    (hmiss : ∀ m ∈ s.masterTextureNodes, isLoaded cfg p u m = false)
    (h : loadTexture cfg s p key hints u nFlush file mallocOk = Run.done (i, s1)) :
    firstIndex (fun n => n.gosTextureHandle == 0xffffffff) s.masterTextureNodes = some i ∧
    ∀ j, j ≠ i → s1.masterTextureNodes[j]? = s.masterTextureNodes[j]? := by
  have hmiss2 : firstIndex (isLoaded cfg p u) s.masterTextureNodes = none :=
    (firstIndex_eq_none _ _).mpr hmiss
  cases hfree : firstIndex (fun n => n.gosTextureHandle == 0xffffffff)
      s.masterTextureNodes with
  | none =>
    unfold loadTexture at h
    rw [hmiss2, hfree] at h
    exact absurd h (by simp)
  | some k =>
    cases hof : openTextureFile cfg file with
    | none =>
      unfold loadTexture at h
      rw [hmiss2, hfree] at h
      simp only [hof] at h
      exact absurd h (by simp)
    | some f =>
      by_cases hfit : (f.readRAW = none ∨ f.readRAW = some []) ∧
          cfg.MAX_LZ_BUFFER_SIZE < f.content.length
      · rw [loadTexture_miss_oversize cfg s p key hints u nFlush file f mallocOk k hmiss hfree
          hof hfit.1 hfit.2] at h
        exact absurd h (by simp)
      · obtain ⟨s2, hload, hframe⟩ := loadTexture_miss_fits cfg s p key hints u nFlush file f
          mallocOk k hmiss hfree hof hfit
        rw [hload] at h
        simp only [Run.done.injEq, Prod.mk.injEq] at h
        obtain ⟨hk, hs⟩ := h
        subst hk
        subst hs
        exact ⟨rfl, hframe⟩

/-- C17 (amended).  Loads are keyed by name and `uniqueInstance` value together, for every
value of `uniqueInstance`, those that mark a unique instance included.  (1) When node `i` is
the first node of the table with a name that `S_stricmp` finds equal to the path and with the
`uniqueInstance` value of the call, `loadTexture` returns `i` and changes nothing but
`numUsers` of node `i`, raised by one (as a `DWORD`).  (2) Whenever `loadTexture` returns a
slot that was not Free before the call, that node has such a name and the `uniqueInstance`
value of the call: a node whose value differs is never shared.  (3) When no node has both,
`loadTexture`, whenever it returns, returns the lowest Free slot and leaves every other node as
it was; it does return when a slot is Free, the file opens and it is not larger than
`MAX_LZ_BUFFER_SIZE`. -/
theorem loadTexture_keyed_by_instance (cfg : Config) (s : MC_TextureManager) (p : String)
    (key : gos_TextureFormat) (hints u nFlush : Nat) (file : Option TextureFile)
    (mallocOk : Bool) :
    (∀ (i : Nat) (n : MC_TextureNode) (nm : String),
      s.masterTextureNodes[i]? = some n → n.nodeName = some nm → cfg.S_stricmp nm p = 0 →
      n.uniqueInstance = u →
      (∀ m ∈ s.masterTextureNodes.take i, isLoaded cfg p u m = false) →
      loadTexture cfg s p key hints u nFlush file mallocOk = Run.done (i,
        { s with masterTextureNodes :=
            s.masterTextureNodes.set i { n with numUsers := (n.numUsers + 1) % 2 ^ 32 } })) ∧
    (∀ (i : Nat) (s1 : MC_TextureManager) (n : MC_TextureNode),
      loadTexture cfg s p key hints u nFlush file mallocOk = Run.done (i, s1) →
      s.masterTextureNodes[i]? = some n → n.gosTextureHandle ≠ 0xffffffff →
      (∃ nm, n.nodeName = some nm ∧ cfg.S_stricmp nm p = 0) ∧ n.uniqueInstance = u) ∧
    ((∀ m ∈ s.masterTextureNodes, isLoaded cfg p u m = false) →
      (∀ (i : Nat) (s1 : MC_TextureManager),
        loadTexture cfg s p key hints u nFlush file mallocOk = Run.done (i, s1) →
        (∃ n, s.masterTextureNodes[i]? = some n ∧ n.gosTextureHandle = 0xffffffff) ∧
        (∀ m ∈ s.masterTextureNodes.take i, m.gosTextureHandle ≠ 0xffffffff) ∧
        ∀ j, j ≠ i → s1.masterTextureNodes[j]? = s.masterTextureNodes[j]?) ∧
      (∀ (i : Nat) (f : TextureFile), firstFree s = some i → file = some f →
        f.content.length ≤ cfg.MAX_LZ_BUFFER_SIZE →
        ∃ s1, loadTexture cfg s p key hints u nFlush file mallocOk = Run.done (i, s1))) := by
  have hlowest : ∀ i : Nat,
      firstIndex (fun n => n.gosTextureHandle == 0xffffffff) s.masterTextureNodes = some i →
      (∃ n, s.masterTextureNodes[i]? = some n ∧ n.gosTextureHandle = 0xffffffff) ∧
      (∀ m ∈ s.masterTextureNodes.take i, m.gosTextureHandle ≠ 0xffffffff) := by
    intro i hfree
    obtain ⟨n, hn, hp, hbefore⟩ := firstIndex_take_spec _ _ i hfree
    refine ⟨⟨n, hn, by simpa using hp⟩, ?_⟩
    intro m hm
    simpa using hbefore m hm
  refine ⟨?_, ?_, ?_⟩
  · intro i n nm hn hname hcmp hu hfirst
    have hp : isLoaded cfg p u n = true := by
      simp [isLoaded, hname, hcmp, hu]
    exact loadTexture_hit cfg s p key hints u nFlush file mallocOk i n hn hp hfirst
  · intro i s1 n h hn hlive
    cases hfi : firstIndex (isLoaded cfg p u) s.masterTextureNodes with
    | some k =>
      obtain ⟨m, hm, hpm, _⟩ := firstIndex_some_spec _ _ k hfi
      unfold loadTexture at h
      rw [hfi] at h
      simp only [Run.done.injEq, Prod.mk.injEq] at h
      obtain ⟨hk, _⟩ := h
      subst hk
      rw [hn] at hm
      cases hm
      unfold isLoaded at hpm
      cases hname : n.nodeName with
      | none =>
        rw [hname] at hpm
        exact absurd hpm (by simp)
      | some nm =>
        rw [hname] at hpm
        simp only [Bool.and_eq_true, beq_iff_eq] at hpm
        exact ⟨⟨nm, rfl, hpm.1⟩, hpm.2.symm⟩
    | none =>
      exfalso
      have hmiss := (firstIndex_eq_none _ _).mp hfi
      obtain ⟨hfree, _⟩ := loadTexture_miss_done cfg s p key hints u nFlush file mallocOk i s1
        hmiss h
      obtain ⟨⟨n0, hn0, h0⟩, _⟩ := hlowest i hfree
      rw [hn] at hn0
      cases hn0
      exact hlive h0
  · intro hmiss
    constructor
    · intro i s1 h
      obtain ⟨hfree, hframe⟩ := loadTexture_miss_done cfg s p key hints u nFlush file mallocOk
        i s1 hmiss h
      exact ⟨(hlowest i hfree).1, (hlowest i hfree).2, hframe⟩
    · intro i f hfree hfile hsize
      subst hfile
      obtain ⟨s1, hload, _⟩ := loadTexture_miss_fits cfg s p key hints u nFlush (some f) f
        mallocOk i hmiss hfree rfl (fun hc => absurd hsize (Nat.not_le.mpr hc.2))
      exact ⟨s1, hload⟩

/-- C17 (amended), at a concrete table in which "a.tga" is held by node 1 with
`uniqueInstance = 1` and by node 2 as a shared texture: a load of "a.tga" with
`uniqueInstance = 1` returns node 1 and raises its count; a load with `uniqueInstance = 2`
finds no node with both, returns, and the slot it returns is the Free slot 3. -/
theorem loadTexture_keyed_by_instance_witness :
    loadTexture smallConfig dedupState "a.tga" gos_TextureFormat.gos_Texture_Solid 0 1 0
      (fileOf [5, 6]) true = Run.done (1,
        { dedupState with
          masterTextureNodes := dedupState.masterTextureNodes.set 1
            { sampleNode 1 "a.tga" 1 0 0 with
              numUsers := ((sampleNode 1 "a.tga" 1 0 0).numUsers + 1) % 2 ^ 32 } }) ∧
    (∃ s1, loadTexture smallConfig dedupState "a.tga" gos_TextureFormat.gos_Texture_Solid 0 2 0
      (fileOf [5, 6]) true = Run.done (3, s1)) :=
  ⟨(loadTexture_keyed_by_instance smallConfig dedupState "a.tga"
      gos_TextureFormat.gos_Texture_Solid 0 1 0 (fileOf [5, 6]) true).1 1
      (sampleNode 1 "a.tga" 1 0 0) "a.tga" (by decide) (by decide) (by decide) (by decide)
      (by decide),
   ((loadTexture_keyed_by_instance smallConfig dedupState "a.tga"
      gos_TextureFormat.gos_Texture_Solid 0 2 0 (fileOf [5, 6]) true).2.2 (by decide)).2 3
      { content := [5, 6], readRAW := none } (by decide) (by decide) (by decide)⟩

/-! ### C15: housekeeping -/

/-- C15 (counterexample).  A plain texture is Resident in node 1 and was last used at turn 0.
At turn 60 it has been idle exactly 60 turns, not more; `update` returns 1 and has moved it to
CachedOut and destroyed its GPU object: the test is `lastUsed <= turn - 60`. -/
theorem update_takes_idle_60 :
    ∃ s, runCalls smallConfig startState housekeepingCalls = Run.done s ∧
      handles s = [0, 1, 0xffffffff, 0xffffffff, 0xffffffff] ∧
      s.masterTextureNodes.map (fun n => s.turn - n.lastUsed) = [61, 60, 61, 61, 61] ∧
      (update smallConfig s).1 = 1 ∧
      handles (update smallConfig s).2 = [0, 0xFFFFFFFA, 0xffffffff, 0xffffffff, 0xffffffff] ∧
      (update smallConfig s).2.textureList_.map Option.isSome = [true, false] := by
  refine ⟨_, rfl, ?_, ?_, ?_, ?_, ?_⟩ <;> decide

theorem updateLoop_freed (cfg : Config) (turn : Int) :
    ∀ (l : List MC_TextureNode) (tl : List (Option gosTexture)) (freed used : Nat),
      (updateLoop cfg turn l (tl, freed, used)).2.2.1 =
        freed + l.countP (fun n => inUse cfg n && cacheable60 turn n) := by
  intro l
  induction l with
  | nil => intro tl freed used; simp [updateLoop]
  | cons n ns ih =>
    intro tl freed used
    by_cases h1 : inUse cfg n = true
    · by_cases h2 : cacheable60 turn n = true
      · have hstep : (updateLoop cfg turn (n :: ns) (tl, freed, used)).2.2.1 =
            (updateLoop cfg turn ns
              (if n.gosTextureHandle ≠ 0 then tl.set n.gosTextureHandle none else tl,
                freed + 1, used)).2.2.1 := by
          simp [updateLoop, h1, h2]
        rw [hstep, ih]
        simp only [List.countP_cons, h1, h2, Bool.and_self, if_true]
        omega
      · have hstep : (updateLoop cfg turn (n :: ns) (tl, freed, used)).2.2.1 =
            (updateLoop cfg turn ns (tl, freed, used + 1)).2.2.1 := by
          simp [updateLoop, h1, h2]
        rw [hstep, ih]
        simp [List.countP_cons, h1, h2]
    · have hstep : (updateLoop cfg turn (n :: ns) (tl, freed, used)).2.2.1 =
          (updateLoop cfg turn ns (tl, freed, used)).2.2.1 := by
        simp [updateLoop, h1]
      rw [hstep, ih]
      simp [List.countP_cons, h1]

theorem cacheable60_iff (turn : Int) (n : MC_TextureNode) :
    cacheable60 turn n = true ↔
      n.uniqueInstance = 0 ∧ n.neverFLUSH.testBit 0 = false ∧ 60 ≤ turn - n.lastUsed := by
  have hbit : (n.neverFLUSH &&& 1 = 0) ↔ n.neverFLUSH.testBit 0 = false := by
    rw [Nat.testBit_zero, Nat.and_one_is_mod]
    constructor
    · intro h
      simp [h]
    · intro h
      have := Nat.mod_two_eq_zero_or_one n.neverFLUSH
      rcases this with h0 | h1
      · exact h0
      · simp [h1] at h
  simp only [cacheable60, Bool.and_eq_true, beq_iff_eq, decide_eq_true_eq, hbit]
  constructor
  · rintro ⟨⟨h1, h2⟩, h3⟩
    exact ⟨h1, h2, by omega⟩
  · rintro ⟨h1, h2, h3⟩
    exact ⟨⟨h1, h2⟩, by omega⟩

/-- C15 (amended).  Housekeeping.  For a node whose handle is not 0, `update` moves it to
CachedOut exactly when it is Resident, has `uniqueInstance` false and bit 0 of `neverFLUSH`
clear, and has been idle 60 turns or more (`turn - lastUsed >= 60`, the bound included); every
other such node is left exactly as it was.  When no node with handle 0 passes the tests of
`update`, the value returned is the number of Resident nodes that were moved to CachedOut. -/
theorem update_housekeeping (cfg : Config) (s : MC_TextureManager) (i : Nat)
    (n : MC_TextureNode) (hn : s.masterTextureNodes[i]? = some n)
    (h0 : n.gosTextureHandle ≠ 0) :
    (update cfg s).2.masterTextureNodes[i]? = some (afterUpdate cfg s.turn n) ∧
    ((∀ m ∈ s.masterTextureNodes, m.gosTextureHandle = 0 → cacheable60 s.turn m = false) →
      (update cfg s).1 = s.masterTextureNodes.countP
        (fun m => decide (afterUpdate cfg s.turn m ≠ m ∧ isResident cfg m = true))) := by
  have hres : ∀ m : MC_TextureNode, m.gosTextureHandle ≠ 0 →
      (isResident cfg m = true ↔ inUse cfg m = true) := by
    intro m hm
    simp [isResident, inUse, hm]
  constructor
  · have hmap : (update cfg s).2.masterTextureNodes[i]? =
        some (if inUse cfg n && cacheable60 s.turn n then
          { n with gosTextureHandle := cfg.CACHED_OUT_HANDLE } else n) := by
      simp [update, updateLoop_nodes, List.getElem?_map, hn]
    rw [hmap]
    congr 1
    unfold afterUpdate
    by_cases hc : (inUse cfg n && cacheable60 s.turn n) = true
    · have hc2 := hc
      simp only [Bool.and_eq_true] at hc2
      rw [if_pos hc, if_pos ⟨(hres n h0).mpr hc2.1, (cacheable60_iff _ _).mp hc2.2⟩]
    · rw [if_neg hc, if_neg]
      rintro ⟨h1, h2⟩
      apply hc
      simp only [Bool.and_eq_true]
      exact ⟨(hres n h0).mp h1, (cacheable60_iff _ _).mpr h2⟩
  · intro hzero
    have hfreed : (update cfg s).1 =
        s.masterTextureNodes.countP (fun m => inUse cfg m && cacheable60 s.turn m) := by
      have := updateLoop_freed cfg s.turn s.masterTextureNodes s.textureList_ 0 0
      simpa [update] using this
    rw [hfreed]
    apply List.countP_congr
    intro m hm
    simp only [Bool.and_eq_true, decide_eq_true_eq]
    constructor
    · rintro ⟨h1, h2⟩
      have hm0 : m.gosTextureHandle ≠ 0 := by
        intro h
        rw [hzero m hm h] at h2
        exact absurd h2 (by simp)
      have hr := (hres m hm0).mpr h1
      refine ⟨?_, hr⟩
      unfold afterUpdate
      rw [if_pos ⟨hr, (cacheable60_iff _ _).mp h2⟩]
      intro heq
      have := congrArg MC_TextureNode.gosTextureHandle heq
      simp only [isResident, Bool.and_eq_true, bne_iff_ne, ne_eq] at hr
      exact hr.1.1 this.symm
    · rintro ⟨h1, h2⟩
      have hm0 : m.gosTextureHandle ≠ 0 := by
        simp only [isResident, Bool.and_eq_true, bne_iff_ne, ne_eq] at h2
        exact h2.2
      refine ⟨(hres m hm0).mp h2, ?_⟩
      unfold afterUpdate at h1
      by_cases hc : isResident cfg m = true ∧ m.uniqueInstance = 0 ∧
          m.neverFLUSH.testBit 0 = false ∧ 60 ≤ s.turn - m.lastUsed
      · exact (cacheable60_iff _ _).mpr hc.2
      · rw [if_neg hc] at h1
        exact absurd rfl h1

/-- C15 (amended), at a concrete table at turn 100: the Resident node 2, idle exactly 60
turns, is moved to CachedOut; node 1, Resident with `neverFLUSH = 1` and idle 100 turns, is
left as it was; the value returned, 1, is the number of nodes moved. -/
theorem update_housekeeping_witness :
    ((update smallConfig housekeepingState).2.masterTextureNodes[2]? =
        some (afterUpdate smallConfig housekeepingState.turn staleNode) ∧
      afterUpdate smallConfig housekeepingState.turn staleNode =
        { staleNode with gosTextureHandle := smallConfig.CACHED_OUT_HANDLE }) ∧
    ((update smallConfig housekeepingState).2.masterTextureNodes[1]? =
        some (afterUpdate smallConfig housekeepingState.turn neverFlushNode) ∧
      afterUpdate smallConfig housekeepingState.turn neverFlushNode = neverFlushNode) ∧
    (update smallConfig housekeepingState).1 = 1 :=
  ⟨⟨(update_housekeeping smallConfig housekeepingState 2 staleNode (by decide) (by decide)).1,
      by decide⟩,
   ⟨(update_housekeeping smallConfig housekeepingState 1 neverFlushNode (by decide)
      (by decide)).1, by decide⟩,
   ((update_housekeeping smallConfig housekeepingState 2 staleNode (by decide) (by decide)).2
      (by decide)).trans (by decide)⟩

/-! ### C11: the corruption guard -/

/-- C11 (evaluation at the failing input).  The decompressor returns three bytes for every
blob.  Node 1 is a CachedOut raw-pixel texture (width 2, made from 16 bytes of pixels), node 2
a CachedOut texture loaded from a five-byte file.  On node 2 `get_gosTextureHandle` stops with
"Decompressed to different size from original!".  On node 1 it does not stop: it returns the
new handle 1, and the 16 bytes uploaded to that GPU texture begin with the three bytes of the
failed decompression, followed by what the scratch buffer still held. -/
theorem raw_pixel_path_skips_size_check :
    ∃ s, runCalls corruptConfig (start corruptConfig rendererInit 0) corruptCalls = Run.done s ∧
      handles s = [0, 0xFFFFFFFA, 0xFFFFFFFA, 0xffffffff, 0xffffffff] ∧
      s.masterTextureNodes.map (fun n => n.width) = [0, 2, 0xf0000005, 0, 0] ∧
      s.masterTextureNodes[1]?.map (fun n => n.textureData) = some (some pixels16) ∧
      (corruptConfig.LZDecomp pixels16).length ≠ 2 * 2 * 4 ∧
      get_gosTextureHandle corruptConfig s 2 = Run.stopped StopReason.sizeMismatch ∧
      ∃ s2, get_gosTextureHandle corruptConfig s 1 = Run.done (1, s2) ∧
        handles s2 = [0, 1, 0xFFFFFFFA, 0xffffffff, 0xffffffff] ∧
        uploadedTo s2 1 = some [9, 9, 9, 4, 5, 22, 23, 24, 31, 32, 33, 34, 41, 42, 43, 44] := by
  refine ⟨_, rfl, ?_, ?_, ?_, ?_, ?_, _, rfl, ?_, ?_⟩ <;> decide

/-! ### C12: saving a loaded texture -/

/-- C12 (counterexample).  "a.tga" holds three bytes, fewer than `MAX_LZ_BUFFER_SIZE`, and the
codec is the identity.  The cache heap fails to hand out the blob during `loadTexture`, which
still returns node 1.  `saveTexture` on node 1 returns `~NO_ERR` and creates no file: it gives
up on a node without a blob. -/
theorem saveTexture_without_blob :
    ∃ s, runCalls smallConfig startState failedAllocCalls = Run.done s ∧
      s.masterTextureNodes[1]?.map (fun n => (n.nodeName, n.gosTextureHandle, n.textureData))
        = some (some "a.tga", 0, none) ∧
      saveTexture smallConfig s 1 none =
        Run.done ({ status := SaveStatus.notNO_ERR, file := none }, s) := by
  refine ⟨_, rfl, ?_, ?_⟩ <;> decide

theorem readBuf_writeBuf (buf data : List Nat) :
    readBuf (writeBuf buf data) data.length = data := by
  simp [readBuf, writeBuf]

theorem width_tag (L : Nat) (h : L < 2 ^ 28) :
    (0xf0000000 + L) % 2 ^ 32 = 0xf0000000 + L ∧
    (0xf0000000 + L) &&& 0x0fffffff = L := by
  have h28 : (2 : Nat) ^ 28 = 268435456 := by norm_num
  have h32 : (2 : Nat) ^ 32 = 4294967296 := by norm_num
  rw [h28] at h
  constructor
  · rw [h32]
    omega
  · have hm : (0x0fffffff : Nat) = 2 ^ 28 - 1 := by norm_num
    rw [hm, Nat.and_pow_two_sub_one_eq_mod, h28]
    omega

/-- C12 (amended).  Save round trip.  `loadTexture` creates node `i` (no node of the table was
sharing the path) from a file with content `X` shorter than `MAX_LZ_BUFFER_SIZE`, the cache heap
hands out the blob, the codec round-trips on `X` (and a blob handed back by `readRAW`
decompresses to `X`), and `MAX_LZ_BUFFER_SIZE` fits the 28 size bits of `width`.  Then
`saveTexture` on node `i`, when the output file can be created, returns `NO_ERR` and the file
holds exactly `X`: no header, no other byte. -/
theorem saveTexture_round_trip (cfg : Config) (s : MC_TextureManager) (p : String)
    (key : gos_TextureFormat) (hints u nFlush : Nat) (f : TextureFile) (i : Nat)
    (s1 : MC_TextureManager)
    (hmiss : ∀ m ∈ s.masterTextureNodes, isLoaded cfg p u m = false)
    (hload : loadTexture cfg s p key hints u nFlush (some f) true = Run.done (i, s1))
    (hraw : ∀ b, f.readRAW = some b → b ≠ [] → cfg.LZDecomp b = f.content)
    (hlen : f.content.length < cfg.MAX_LZ_BUFFER_SIZE)
    (hmax : cfg.MAX_LZ_BUFFER_SIZE ≤ 2 ^ 28)
    (hrt : cfg.LZDecomp (cfg.LZCompress f.content) = f.content) :
    saveTexture cfg s1 i none = Run.done
      ({ status := SaveStatus.NO_ERR, file := some f.content },
        { s1 with lzBuffer2 := writeBuf s1.lzBuffer2 f.content }) := by
  have hmiss2 : firstIndex (isLoaded cfg p u) s.masterTextureNodes = none :=
    (firstIndex_eq_none _ _).mpr hmiss
  have hL : f.content.length < 2 ^ 28 := Nat.lt_of_lt_of_le hlen hmax
  obtain ⟨hw1, hw2⟩ := width_tag f.content.length hL
  have hw0 : 0xf0000000 + f.content.length ≠ 0 := by omega
  have hge : ¬ f.content.length ≥ cfg.MAX_LZ_BUFFER_SIZE := Nat.not_le.mpr hlen
  unfold loadTexture at hload
  rw [hmiss2] at hload
  cases hfree : firstIndex (fun n => n.gosTextureHandle == 0xffffffff) s.masterTextureNodes with
  | none =>
    rw [hfree] at hload
    exact absurd hload (by simp)
  | some j =>
    obtain ⟨n0, hn0, _, _⟩ := firstIndex_some_spec _ _ j hfree
    have hlt : j < s.masterTextureNodes.length := by
      rcases List.getElem?_eq_some.mp hn0 with ⟨hl, _⟩
      exact hl
    rw [hfree] at hload
    simp only [openTextureFile] at hload
    cases hr : f.readRAW with
    | some b =>
      cases b with
      | cons b0 bs =>
        rw [hr] at hload
        simp only [Run.done.injEq, Prod.mk.injEq] at hload
        obtain ⟨hj, hs1⟩ := hload
        subst hj
        subst hs1
        have hdec := hraw (b0 :: bs) hr (by simp)
        unfold saveTexture
        simp only [modifyNode, modifyAt_eq_set _ _ j n0 hn0, List.getElem?_set_self hlt, hw1,
          hw0, if_false, List.take_length, hdec, hw2, ne_eq, not_true_eq_false, hge,
          readBuf_writeBuf]
      | nil =>
        rw [hr] at hload
        simp only [Nat.le_of_lt hlen, if_true, Run.done.injEq, Prod.mk.injEq] at hload
        obtain ⟨hj, hs1⟩ := hload
        subst hj
        subst hs1
        unfold saveTexture
        simp only [modifyNode, modifyAt_eq_set _ _ j n0 hn0, List.getElem?_set_self hlt, hw1,
          hw0, if_false, if_true, List.take_length, hrt, hw2, ne_eq, not_true_eq_false, hge,
          readBuf_writeBuf]
    | none =>
      rw [hr] at hload
      simp only [Nat.le_of_lt hlen, if_true, Run.done.injEq, Prod.mk.injEq] at hload
      obtain ⟨hj, hs1⟩ := hload
      subst hj
      subst hs1
      unfold saveTexture
      simp only [modifyNode, modifyAt_eq_set _ _ j n0 hn0, List.getElem?_set_self hlt, hw1,
        hw0, if_false, if_true, List.take_length, hrt, hw2, ne_eq, not_true_eq_false, hge,
        readBuf_writeBuf]

/-- C12 (amended), at a concrete run: after `start`, "a.tga" with the bytes 1, 2, 3 is loaded
into node 1; saving node 1 returns `NO_ERR` and writes exactly 1, 2, 3. -/
theorem saveTexture_round_trip_witness :
    saveTexture smallConfig loadedState 1 none = Run.done
      ({ status := SaveStatus.NO_ERR, file := some threeByteFile.content },
        { loadedState with lzBuffer2 := writeBuf loadedState.lzBuffer2 threeByteFile.content }) :=
  saveTexture_round_trip smallConfig startState "a.tga" gos_TextureFormat.gos_Texture_Solid
    0 0 0 threeByteFile 1 loadedState (by decide) (by decide)
    (by intro b hb; simp [threeByteFile] at hb) (by decide) (by decide) (by decide)

/-! ### C13: lazy materialization -/

theorem noNewResident_refl (cfg : Config) (l : List MC_TextureNode) :
    noNewResident cfg l l :=
  fun _ n2 h hr => ⟨n2, h, hr⟩

theorem noNewResident_trans (cfg : Config) (l1 l2 l3 : List MC_TextureNode)
    (h12 : noNewResident cfg l1 l2) (h23 : noNewResident cfg l2 l3) :
    noNewResident cfg l1 l3 := by
  intro j n3 h3 hr3
  obtain ⟨n2, h2, hr2⟩ := h23 j n3 h3 hr3
  exact h12 j n2 h2 hr2

theorem noNewResident_modifyAt (cfg : Config) (f : MC_TextureNode → MC_TextureNode)
    (l : List MC_TextureNode) (i : Nat)
    (hf : ∀ n, isResident cfg (f n) = true → isResident cfg n = true) :
    noNewResident cfg l (modifyAt f l i) := by
  intro j n2 h2 hr2
  by_cases hji : i = j
  · subst hji
    cases hi : l[i]? with
    | none =>
      rw [modifyAt_of_none f l i hi, hi] at h2
      exact absurd h2 (by simp)
    | some a =>
      have hlt : i < l.length := by
        rcases List.getElem?_eq_some.mp hi with ⟨hl, _⟩
        exact hl
      rw [modifyAt_eq_set f l i a hi, List.getElem?_set_self hlt] at h2
      cases h2
      exact ⟨a, rfl, hf a hr2⟩
  · rw [getElem?_modifyAt_ne f l i j hji] at h2
    exact ⟨n2, h2, hr2⟩

theorem noNewResident_destroy (cfg : Config) (s : MC_TextureManager) (i : Nat) :
    noNewResident cfg s.masterTextureNodes (destroy cfg s i).masterTextureNodes := by
  unfold destroy
  cases hi : s.masterTextureNodes[i]? with
  | none => exact noNewResident_refl cfg _
  | some n =>
    have hinit : ∀ m, isResident cfg ((fun _ => MC_TextureNode.init) m) = true →
        isResident cfg m = true := by
      intro m hm
      simp [isResident, MC_TextureNode.init] at hm
    simp only []
    split
    · exact noNewResident_modifyAt cfg _ _ i hinit
    · exact noNewResident_modifyAt cfg _ _ i hinit

theorem noNewResident_freeLeftovers (cfg : Config) (s : MC_TextureManager) (i : Nat) :
    noNewResident cfg s.masterTextureNodes (freeLeftovers s i).masterTextureNodes := by
  unfold freeLeftovers
  cases hi : s.masterTextureNodes[i]? with
  | none => exact noNewResident_refl cfg _
  | some n =>
    simp only []
    split
    · exact noNewResident_modifyAt cfg _ _ i (fun m hm => by simpa [isResident] using hm)
    · exact noNewResident_refl cfg _

theorem noNewResident_remove (cfg : Config) (s : MC_TextureManager) (i : Nat) :
    noNewResident cfg s.masterTextureNodes
      (freeLeftovers (destroy cfg s i) i).masterTextureNodes :=
  noNewResident_trans cfg _ _ _ (noNewResident_destroy cfg s i)
    (noNewResident_freeLeftovers cfg _ i)

theorem noNewResident_removeTexture (cfg : Config) (s : MC_TextureManager) (h : Nat) :
    noNewResident cfg s.masterTextureNodes (removeTexture cfg s h).masterTextureNodes := by
  unfold removeTexture
  cases hfi : firstIndex (fun n => n.gosTextureHandle == h) s.masterTextureNodes with
  | none => exact noNewResident_refl cfg _
  | some i =>
    have h1 : noNewResident cfg s.masterTextureNodes
        (modifyNode s i (fun n =>
          { n with numUsers := (n.numUsers + 2 ^ 32 - 1) % 2 ^ 32 })).masterTextureNodes :=
      noNewResident_modifyAt cfg _ _ i (fun m hm => by simpa [isResident] using hm)
    simp only []
    split
    · exact h1
    · split
      · exact noNewResident_trans cfg _ _ _ h1 (noNewResident_remove cfg _ i)
      · exact h1

theorem noNewResident_cacheOut (cfg : Config) (s : MC_TextureManager) (i : Nat) :
    noNewResident cfg s.masterTextureNodes (cacheOut cfg s i).masterTextureNodes := by
  unfold cacheOut
  cases hi : s.masterTextureNodes[i]? with
  | none => exact noNewResident_refl cfg _
  | some n =>
    have hc : ∀ m, isResident cfg ((fun m : MC_TextureNode =>
        { m with gosTextureHandle := cfg.CACHED_OUT_HANDLE }) m) = true →
        isResident cfg m = true := by
      intro m hm
      simp [isResident] at hm
    simp only []
    split
    · exact noNewResident_modifyAt cfg _ _ i hc
    · exact noNewResident_modifyAt cfg _ _ i hc

theorem noNewResident_flushCache (cfg : Config) (s : MC_TextureManager) :
    noNewResident cfg s.masterTextureNodes (flushCache cfg s).2.masterTextureNodes := by
  rcases flushCache_cases cfg s with ⟨_, h⟩ | ⟨_, j, m, _, _, h⟩ | ⟨_, _, h⟩
  · rw [h]
    exact noNewResident_refl cfg _
  · rw [h]
    exact noNewResident_cacheOut cfg (recount cfg s) j
  · rw [h]
    exact noNewResident_refl cfg _

theorem noNewResident_update (cfg : Config) (s : MC_TextureManager) :
    noNewResident cfg s.masterTextureNodes (update cfg s).2.masterTextureNodes := by
  intro j n2 h2 hr2
  simp only [update, updateLoop_nodes, List.getElem?_map] at h2
  cases hj : s.masterTextureNodes[j]? with
  | none =>
    rw [hj] at h2
    exact absurd h2 (by simp)
  | some n =>
    rw [hj] at h2
    simp only [Option.map_some', Option.some.injEq] at h2
    refine ⟨n, rfl, ?_⟩
    by_cases hc : (inUse cfg n && cacheable60 s.turn n) = true
    · rw [if_pos hc] at h2
      subst h2
      simp [isResident] at hr2
    · rw [if_neg hc] at h2
      subst h2
      exact hr2

theorem loadTexture_frame (cfg : Config) (s : MC_TextureManager) (p : String)
    (key : gos_TextureFormat) (hints u nFlush : Nat) (file : Option TextureFile)
    (mallocOk : Bool) (i : Nat) (s1 : MC_TextureManager)
    (h : loadTexture cfg s p key hints u nFlush file mallocOk = Run.done (i, s1)) :
    noNewResident cfg s.masterTextureNodes s1.masterTextureNodes ∧
    s1.textureList_ = s.textureList_ ∧ s1.currentUsedTextures = s.currentUsedTextures := by
  unfold loadTexture at h
  cases hd : firstIndex (isLoaded cfg p u) s.masterTextureNodes with
  | some j =>
    rw [hd] at h
    simp only [Run.done.injEq, Prod.mk.injEq] at h
    obtain ⟨_, hs1⟩ := h
    subst hs1
    exact ⟨noNewResident_modifyAt cfg _ _ j (fun m hm => by simpa [isResident] using hm),
      rfl, rfl⟩
  | none =>
    rw [hd] at h
    cases hfree : firstIndex (fun n => n.gosTextureHandle == 0xffffffff)
        s.masterTextureNodes with
    | none =>
      rw [hfree] at h
      exact absurd h (by simp)
    | some j =>
      rw [hfree] at h
      cases hof : openTextureFile cfg file with
      | none =>
        rw [hof] at h
        exact absurd h (by simp)
      | some f =>
        rw [hof] at h
        simp only [] at h
        cases hr : f.readRAW with
        | some b =>
          cases b with
          | cons b0 bs =>
            rw [hr] at h
            simp only [Run.done.injEq, Prod.mk.injEq] at h
            obtain ⟨_, hs1⟩ := h
            subst hs1
            exact ⟨noNewResident_modifyAt cfg _ _ j (fun m hm => by simp [isResident] at hm),
              rfl, rfl⟩
          | nil =>
            rw [hr] at h
            by_cases hsz : f.content.length ≤ cfg.MAX_LZ_BUFFER_SIZE
            · simp only [hsz, if_true, Run.done.injEq, Prod.mk.injEq] at h
              obtain ⟨_, hs1⟩ := h
              subst hs1
              refine ⟨noNewResident_modifyAt cfg _ _ j (fun m hm => ?_), rfl, rfl⟩
              cases mallocOk <;> simp [isResident] at hm
            · simp only [hsz, if_false] at h
              cases hd : cfg.DEBUG <;> simp [hd] at h
        | none =>
          rw [hr] at h
          by_cases hsz : f.content.length ≤ cfg.MAX_LZ_BUFFER_SIZE
          · simp only [hsz, if_true, Run.done.injEq, Prod.mk.injEq] at h
            obtain ⟨_, hs1⟩ := h
            subst hs1
            refine ⟨noNewResident_modifyAt cfg _ _ j (fun m hm => ?_), rfl, rfl⟩
            cases mallocOk <;> simp [isResident] at hm
          · simp only [hsz, if_false] at h
            cases hd : cfg.DEBUG <;> simp [hd] at h

theorem textureFromMemory_frame (cfg : Config) (s : MC_TextureManager) (data : List Nat)
    (key : gos_TextureFormat) (hints width bitDepth : Nat) (mallocOk : Bool) (i : Nat)
    (s1 : MC_TextureManager)
    (h : textureFromMemory cfg s data key hints width bitDepth mallocOk = Run.done (i, s1)) :
    noNewResident cfg s.masterTextureNodes s1.masterTextureNodes ∧
    s1.textureList_ = s.textureList_ ∧ s1.currentUsedTextures = s.currentUsedTextures := by
  unfold textureFromMemory at h
  cases hfree : firstIndex (fun n => n.gosTextureHandle == 0xffffffff)
      s.masterTextureNodes with
  | none =>
    rw [hfree] at h
    exact absurd h (by simp)
  | some j =>
    rw [hfree] at h
    simp only [Run.done.injEq, Prod.mk.injEq] at h
    obtain ⟨_, hs1⟩ := h
    subst hs1
    refine ⟨noNewResident_modifyAt cfg _ _ j (fun m hm => ?_), rfl, rfl⟩
    cases hm2 : m.textureData with
    | some old => simp [hm2, isResident] at hm
    | none =>
      cases mallocOk <;> simp [hm2, isResident] at hm

theorem copyTexture_frame (cfg : Config) (s : MC_TextureManager) (id r : Nat)
    (s1 : MC_TextureManager) (h : copyTexture s id = Run.done (r, s1)) :
    noNewResident cfg s.masterTextureNodes s1.masterTextureNodes := by
  unfold copyTexture at h
  cases hn : s.masterTextureNodes[id]? with
  | none =>
    rw [hn] at h
    exact absurd h (by simp)
  | some n =>
    rw [hn] at h
    by_cases hf : n.gosTextureHandle ≠ 0xffffffff
    · simp only [hf, if_true, ne_eq, not_false_eq_true, Run.done.injEq, Prod.mk.injEq] at h
      obtain ⟨_, hs1⟩ := h
      subst hs1
      exact noNewResident_modifyAt cfg _ _ id (fun m hm => by simpa [isResident] using hm)
    · simp only [hf, if_false] at h
      exact absurd h (by simp)

theorem saveTexture_nodes (cfg : Config) (s : MC_TextureManager) (i : Nat) (e : Option Int)
    (r : SaveResult) (s1 : MC_TextureManager)
    (h : saveTexture cfg s i e = Run.done (r, s1)) :
    s1.masterTextureNodes = s.masterTextureNodes := by
  unfold saveTexture at h
  cases hn : s.masterTextureNodes[i]? with
  | none =>
    rw [hn] at h
    simp only [Run.done.injEq, Prod.mk.injEq] at h
    rw [← h.2]
  | some n =>
    rw [hn] at h
    simp only [] at h
    cases hb : n.textureData with
    | none =>
      rw [hb] at h
      simp only [Run.done.injEq, Prod.mk.injEq] at h
      rw [← h.2]
    | some blob =>
      rw [hb] at h
      cases e with
      | some code =>
        simp only [Run.done.injEq, Prod.mk.injEq] at h
        rw [← h.2]
      | none =>
        simp only [] at h
        split at h
        · simp only [Run.done.injEq, Prod.mk.injEq] at h
          rw [← h.2]
        · split at h
          · exact absurd h (by simp)
          · split at h
            · exact absurd h (by simp)
            · simp only [Run.done.injEq, Prod.mk.injEq] at h
              rw [← h.2]

theorem noNewResident_flush (cfg : Config) (s : MC_TextureManager) :
    noNewResident cfg s.masterTextureNodes (flush cfg s).masterTextureNodes := by
  have hfold : ∀ (is : List Nat) (t : MC_TextureManager),
      noNewResident cfg t.masterTextureNodes
        (is.foldl (fun t i =>
          match t.masterTextureNodes[i]? with
          | some n => if n.neverFLUSH = 0 then destroy cfg t i else t
          | none => t) t).masterTextureNodes := by
    intro is
    induction is with
    | nil => intro t; exact noNewResident_refl cfg _
    | cons i is ih =>
      intro t
      simp only [List.foldl_cons]
      refine noNewResident_trans cfg _ _ _ ?_ (ih _)
      cases hi : t.masterTextureNodes[i]? with
      | none => exact noNewResident_refl cfg _
      | some n =>
        simp only []
        split
        · exact noNewResident_destroy cfg t i
        · exact noNewResident_refl cfg _
  exact hfold _ s

theorem gos_NewTextureFromMemory_nodes (cfg : Config) (s : MC_TextureManager)
    (k : gos_TextureFormat) (nm : Option String) (bits : List Nat) (size hints : Nat)
    (hs : Nat × MC_TextureManager)
    (h : gos_NewTextureFromMemory cfg s k nm bits size hints = Run.done hs) :
    hs.2.masterTextureNodes = s.masterTextureNodes := by
  unfold gos_NewTextureFromMemory at h
  simp only [] at h
  split at h
  · exact absurd h (by simp)
  · split at h
    · simp only [Run.done.injEq] at h
      rw [← h]
      rfl
    · exact absurd h (by simp)

theorem gos_NewEmptyTexture_nodes (s : MC_TextureManager)
    (k : gos_TextureFormat) (nm : Option String) (hw hints : Nat)
    (hs : Nat × MC_TextureManager)
    (h : gos_NewEmptyTexture s k nm hw hints = Run.done hs) :
    hs.2.masterTextureNodes = s.masterTextureNodes := by
  unfold gos_NewEmptyTexture at h
  generalize (if hw &&& 0xffff0000 ≠ 0 then hw &&& 0xffff else hw) = w at h
  generalize (if hw &&& 0xffff0000 ≠ 0 then hw >>> 16 else hw) = ht at h
  by_cases hc : 0 < w ∧ 0 < ht
  · simp only [hc, and_self, if_true, Run.done.injEq] at h
    rw [← h]
    rfl
  · simp only [hc, if_false] at h
    exact absurd h (by simp)

theorem lockCopyUnlock_nodes (s t : MC_TextureManager) (hd : Nat)
    (h : lockCopyUnlock s hd = Run.done t) :
    t.masterTextureNodes = s.masterTextureNodes := by
  unfold lockCopyUnlock at h
  cases hg : getTexture s hd with
  | stopped e =>
    rw [hg] at h
    exact absurd h (by simp [Run.bind])
  | done tex =>
    rw [hg] at h
    simp only [Run.bind] at h
    split at h
    · exact absurd h (by simp)
    · simp only [Run.done.injEq] at h
      rw [← h]

/-- After `get_gosTextureHandle` on node `i`, every other node is what it was before the call
or what the call's `flushCache` made of it. -/
theorem get_gosTextureHandle_others (cfg : Config) (s : MC_TextureManager) (i hd : Nat)
    (s1 : MC_TextureManager) (h : get_gosTextureHandle cfg s i = Run.done (hd, s1))
    (j : Nat) (hj : i ≠ j) :
    s1.masterTextureNodes[j]? = s.masterTextureNodes[j]? ∨
    s1.masterTextureNodes[j]? = (flushCache cfg s).2.masterTextureNodes[j]? := by
  unfold get_gosTextureHandle at h
  cases hn : s.masterTextureNodes[i]? with
  | none =>
    rw [hn] at h
    exact absurd h (by simp)
  | some n =>
    rw [hn] at h
    simp only [] at h
    by_cases h1 : n.gosTextureHandle = 0xffffffff
    · rw [if_pos h1] at h
      simp only [Run.done.injEq, Prod.mk.injEq] at h
      left
      rw [← h.2]
    · rw [if_neg h1] at h
      by_cases h2 : n.gosTextureHandle ≠ cfg.CACHED_OUT_HANDLE
      · rw [if_pos h2] at h
        simp only [Run.done.injEq, Prod.mk.injEq] at h
        left
        rw [← h.2]
        simp [modifyNode, getElem?_modifyAt_ne _ _ i j hj]
      · rw [if_neg h2] at h
        generalize hr : (if s.currentUsedTextures ≥ cfg.MAX_MC2_GOS_TEXTURES then
          flushCache cfg s else (true, s)) = r at h
        have hbase : r.2.masterTextureNodes[j]? = s.masterTextureNodes[j]? ∨
            r.2.masterTextureNodes[j]? = (flushCache cfg s).2.masterTextureNodes[j]? := by
          rw [← hr]
          by_cases hc : s.currentUsedTextures ≥ cfg.MAX_MC2_GOS_TEXTURES
          · rw [if_pos hc]
            right
            rfl
          · rw [if_neg hc]
            left
            rfl
        by_cases h3 : r.1 = false
        · rw [if_pos h3] at h
          simp only [Run.done.injEq, Prod.mk.injEq] at h
          rw [← h.2]
          exact hbase
        · rw [if_neg h3] at h
          by_cases h4 : n.width = 0
          · rw [if_pos h4] at h
            simp only [Run.done.injEq, Prod.mk.injEq] at h
            rw [← h.2]
            exact hbase
          · rw [if_neg h4] at h
            cases hb : n.textureData with
            | none =>
              rw [hb] at h
              simp only [Run.done.injEq, Prod.mk.injEq] at h
              rw [← h.2]
              exact hbase
            | some blob =>
              rw [hb] at h
              simp only [] at h
              by_cases h5 : n.width > 0xf0000000
              · rw [if_pos h5] at h
                by_cases h6 : (cfg.LZDecomp (blob.take n.lzCompSize)).length ≠
                    n.width &&& 0x0fffffff
                · rw [if_pos h6] at h
                  exact absurd h (by simp)
                · rw [if_neg h6] at h
                  by_cases h7 : (cfg.LZDecomp (blob.take n.lzCompSize)).length ≥
                      cfg.MAX_LZ_BUFFER_SIZE
                  · rw [if_pos h7] at h
                    exact absurd h (by simp)
                  · rw [if_neg h7] at h
                    generalize hnew : gos_NewTextureFromMemory cfg _ _ _ _ _ _ = res at h
                    cases res with
                    | stopped e => exact absurd h (by simp [Run.bind])
                    | done hs =>
                      simp only [Run.bind, Run.done.injEq, Prod.mk.injEq] at h
                      rw [← h.2]
                      have hnodes := gos_NewTextureFromMemory_nodes _ _ _ _ _ _ _ _ hnew
                      simp only [modifyNode, getElem?_modifyAt_ne _ _ i j hj, hnodes]
                      exact hbase
              · rw [if_neg h5] at h
                generalize hnew : gos_NewEmptyTexture _ _ _ _ _ = res at h
                cases res with
                | stopped e => exact absurd h (by simp [Run.bind])
                | done hs =>
                  simp only [Run.bind] at h
                  have hnodes := gos_NewEmptyTexture_nodes _ _ _ _ _ _ hnew
                  generalize hlock : lockCopyUnlock _ _ = res2 at h
                  cases res2 with
                  | stopped e => exact absurd h (by simp)
                  | done s5 =>
                    simp only [Run.done.injEq, Prod.mk.injEq] at h
                    rw [← h.2]
                    have hl := lockCopyUnlock_nodes _ _ _ hlock
                    simp only [modifyNode, getElem?_modifyAt_ne _ _ i j hj, hl, hnodes]
                    exact hbase

theorem loadTexture_miss_node (cfg : Config) (s : MC_TextureManager) (p : String)
    (key : gos_TextureFormat) (hints u nFlush : Nat) (file : Option TextureFile)
    (i : Nat) (s1 : MC_TextureManager)
    (hmiss : ∀ m ∈ s.masterTextureNodes, isLoaded cfg p u m = false)
    (h : loadTexture cfg s p key hints u nFlush file true = Run.done (i, s1)) :
    ∃ n1, s1.masterTextureNodes[i]? = some n1 ∧
      n1.gosTextureHandle = cfg.CACHED_OUT_HANDLE ∧ n1.numUsers = 1 := by
  have hmiss2 : firstIndex (isLoaded cfg p u) s.masterTextureNodes = none :=
    (firstIndex_eq_none _ _).mpr hmiss
  unfold loadTexture at h
  rw [hmiss2] at h
  cases hfree : firstIndex (fun n => n.gosTextureHandle == 0xffffffff)
      s.masterTextureNodes with
  | none =>
    rw [hfree] at h
    exact absurd h (by simp)
  | some j =>
    obtain ⟨n0, hn0, _, _⟩ := firstIndex_some_spec _ _ j hfree
    have hlt : j < s.masterTextureNodes.length := by
      rcases List.getElem?_eq_some.mp hn0 with ⟨hl, _⟩
      exact hl
    rw [hfree] at h
    cases hof : openTextureFile cfg file with
    | none =>
      rw [hof] at h
      exact absurd h (by simp)
    | some f =>
      rw [hof] at h
      simp only [] at h
      cases hr : f.readRAW with
      | some b =>
        cases b with
        | cons b0 bs =>
          rw [hr] at h
          simp only [Run.done.injEq, Prod.mk.injEq] at h
          obtain ⟨hj, hs1⟩ := h
          subst hj
          subst hs1
          simp [modifyNode, modifyAt_eq_set _ _ j n0 hn0, List.getElem?_set_self hlt]
        | nil =>
          rw [hr] at h
          by_cases hsz : f.content.length ≤ cfg.MAX_LZ_BUFFER_SIZE
          · simp only [hsz, if_true, Run.done.injEq, Prod.mk.injEq] at h
            obtain ⟨hj, hs1⟩ := h
            subst hj
            subst hs1
            simp [modifyNode, modifyAt_eq_set _ _ j n0 hn0, List.getElem?_set_self hlt]
          · simp only [hsz, if_false] at h
            cases hd : cfg.DEBUG <;> simp [hd] at h
      | none =>
        rw [hr] at h
        by_cases hsz : f.content.length ≤ cfg.MAX_LZ_BUFFER_SIZE
        · simp only [hsz, if_true, Run.done.injEq, Prod.mk.injEq] at h
          obtain ⟨hj, hs1⟩ := h
          subst hj
          subst hs1
          simp [modifyNode, modifyAt_eq_set _ _ j n0 hn0, List.getElem?_set_self hlt]
        · simp only [hsz, if_false] at h
          cases hd : cfg.DEBUG <;> simp [hd] at h

theorem textureFromMemory_node (cfg : Config) (s : MC_TextureManager) (data : List Nat)
    (key : gos_TextureFormat) (hints width bitDepth : Nat) (i : Nat)
    (s1 : MC_TextureManager)
    (h : textureFromMemory cfg s data key hints width bitDepth true = Run.done (i, s1)) :
    ∃ n1, s1.masterTextureNodes[i]? = some n1 ∧
      n1.gosTextureHandle = cfg.CACHED_OUT_HANDLE ∧ n1.numUsers = 1 := by
  unfold textureFromMemory at h
  cases hfree : firstIndex (fun n => n.gosTextureHandle == 0xffffffff)
      s.masterTextureNodes with
  | none =>
    rw [hfree] at h
    exact absurd h (by simp)
  | some j =>
    obtain ⟨n0, hn0, _, _⟩ := firstIndex_some_spec _ _ j hfree
    have hlt : j < s.masterTextureNodes.length := by
      rcases List.getElem?_eq_some.mp hn0 with ⟨hl, _⟩
      exact hl
    rw [hfree] at h
    simp only [Run.done.injEq, Prod.mk.injEq] at h
    obtain ⟨hj, hs1⟩ := h
    subst hj
    subst hs1
    cases hb : n0.textureData with
    | some old => simp [modifyNode, modifyAt_eq_set _ _ j n0 hn0, List.getElem?_set_self hlt, hb]
    | none => simp [modifyNode, modifyAt_eq_set _ _ j n0 hn0, List.getElem?_set_self hlt, hb]

/-- C13.  Lazy materialization.  (1) When `loadTexture`, on a miss and with the blob
allocated, returns `i`, node `i` holds `CACHED_OUT_HANDLE` and `numUsers = 1`, and the
renderer's texture list and `currentUsedTextures` are what they were: no GPU object was
created.  (2) The same holds when `textureFromMemory` returns `i` with the blob allocated.
(3) Whenever a node that was not Resident before a call - in particular a CachedOut node - is
Resident after it, the call was `get_gosTextureHandle` on that node; this covers `loadTexture`,
`textureFromMemory`, `update`, `copyTexture`, `removeTexture`, `removeTextureNode`,
`saveTexture`, `flush`, and `get_gosTextureHandle` on any other node with the `flushCache` it
may run. -/
theorem lazy_materialization (cfg : Config) (s : MC_TextureManager) :
    (∀ (p : String) (key : gos_TextureFormat) (hints u nFlush : Nat)
        (file : Option TextureFile) (i : Nat) (s1 : MC_TextureManager),
      (∀ m ∈ s.masterTextureNodes, isLoaded cfg p u m = false) →
      loadTexture cfg s p key hints u nFlush file true = Run.done (i, s1) →
        (∃ n1, s1.masterTextureNodes[i]? = some n1 ∧
          n1.gosTextureHandle = cfg.CACHED_OUT_HANDLE ∧ n1.numUsers = 1) ∧
        s1.textureList_ = s.textureList_ ∧
        s1.currentUsedTextures = s.currentUsedTextures) ∧
    (∀ (data : List Nat) (key : gos_TextureFormat) (hints width bitDepth : Nat) (i : Nat)
        (s1 : MC_TextureManager),
      textureFromMemory cfg s data key hints width bitDepth true = Run.done (i, s1) →
        (∃ n1, s1.masterTextureNodes[i]? = some n1 ∧
          n1.gosTextureHandle = cfg.CACHED_OUT_HANDLE ∧ n1.numUsers = 1) ∧
        s1.textureList_ = s.textureList_ ∧
        s1.currentUsedTextures = s.currentUsedTextures) ∧
    (∀ (c : Call) (s1 : MC_TextureManager) (j : Nat) (n n1 : MC_TextureNode),
      step cfg s c = Run.done s1 →
      s.masterTextureNodes[j]? = some n → isResident cfg n = false →
      s1.masterTextureNodes[j]? = some n1 → isResident cfg n1 = true →
        c = Call.get_gosTextureHandle j) := by
  refine ⟨?_, ?_, ?_⟩
  · intro p key hints u nFlush file i s1 hmiss h
    exact ⟨loadTexture_miss_node cfg s p key hints u nFlush file i s1 hmiss h,
      (loadTexture_frame cfg s p key hints u nFlush file true i s1 h).2⟩
  · intro data key hints width bitDepth i s1 h
    exact ⟨textureFromMemory_node cfg s data key hints width bitDepth i s1 h,
      (textureFromMemory_frame cfg s data key hints width bitDepth true i s1 h).2⟩
  · intro c s1 j n n1 hstep hn hnr hn1 hr1
    have hclose : noNewResident cfg s.masterTextureNodes s1.masterTextureNodes → False := by
      intro hno
      obtain ⟨n0, hn0, hr0⟩ := hno j n1 hn1 hr1
      rw [hn] at hn0
      cases hn0
      rw [hnr] at hr0
      exact absurd hr0 (by simp)
    cases c with
    | loadTexture p k h u nf f m =>
      exfalso
      simp only [step] at hstep
      cases hl : loadTexture cfg s p k h u nf f m with
      | stopped e =>
        rw [hl] at hstep
        exact absurd hstep (by simp [Run.bind])
      | done r =>
        rw [hl] at hstep
        simp only [Run.bind, Run.done.injEq] at hstep
        subst hstep
        exact hclose (loadTexture_frame cfg s p k h u nf f m r.1 r.2 hl).1
    | textureFromMemory d k h w b m =>
      exfalso
      simp only [step] at hstep
      cases hl : textureFromMemory cfg s d k h w b m with
      | stopped e =>
        rw [hl] at hstep
        exact absurd hstep (by simp [Run.bind])
      | done r =>
        rw [hl] at hstep
        simp only [Run.bind, Run.done.injEq] at hstep
        subst hstep
        exact hclose (textureFromMemory_frame cfg s d k h w b m r.1 r.2 hl).1
    | get_gosTextureHandle i =>
      by_cases hij : i = j
      · rw [hij]
      · exfalso
        simp only [step] at hstep
        cases hl : get_gosTextureHandle cfg s i with
        | stopped e =>
          rw [hl] at hstep
          exact absurd hstep (by simp [Run.bind])
        | done r =>
          rw [hl] at hstep
          simp only [Run.bind, Run.done.injEq] at hstep
          subst hstep
          rcases get_gosTextureHandle_others cfg s i r.1 r.2 hl j hij with ho | ho
          · rw [ho, hn] at hn1
            cases hn1
            rw [hnr] at hr1
            exact absurd hr1 (by simp)
          · rw [ho] at hn1
            obtain ⟨n0, hn0, hr0⟩ := noNewResident_flushCache cfg s j n1 hn1 hr1
            rw [hn] at hn0
            cases hn0
            rw [hnr] at hr0
            exact absurd hr0 (by simp)
    | update =>
      exfalso
      simp only [step, Run.done.injEq] at hstep
      subst hstep
      exact hclose (noNewResident_update cfg s)
    | copyTexture i =>
      exfalso
      simp only [step] at hstep
      cases hl : copyTexture s i with
      | stopped e =>
        rw [hl] at hstep
        exact absurd hstep (by simp [Run.bind])
      | done r =>
        rw [hl] at hstep
        simp only [Run.bind, Run.done.injEq] at hstep
        subst hstep
        exact hclose (copyTexture_frame cfg s i r.1 r.2 hl)
    | removeTexture h =>
      exfalso
      simp only [step, Run.done.injEq] at hstep
      subst hstep
      exact hclose (noNewResident_removeTexture cfg s h)
    | removeTextureNode i =>
      exfalso
      simp only [step, removeTextureNode] at hstep
      split at hstep
      · split at hstep
        · simp only [Run.done.injEq] at hstep
          subst hstep
          exact hclose (noNewResident_remove cfg s i)
        · exact absurd hstep (by simp)
      · simp only [Run.done.injEq] at hstep
        subst hstep
        exact hclose (noNewResident_refl cfg _)
    | saveTexture i e =>
      exfalso
      simp only [step] at hstep
      cases hl : saveTexture cfg s i e with
      | stopped e =>
        rw [hl] at hstep
        exact absurd hstep (by simp [Run.bind])
      | done r =>
        rw [hl] at hstep
        simp only [Run.bind, Run.done.injEq] at hstep
        subst hstep
        apply hclose
        rw [saveTexture_nodes cfg s i e r.1 r.2 hl]
        exact noNewResident_refl cfg _
    | flush =>
      exfalso
      simp only [step, Run.done.injEq] at hstep
      subst hstep
      exact hclose (noNewResident_flush cfg s)
    | advanceTurn k =>
      exfalso
      simp only [step, Run.done.injEq] at hstep
      subst hstep
      exact hclose (noNewResident_refl cfg _)

/-- C13, at concrete runs from the start state: after `loadTexture` of "a.tga" and after
`textureFromMemory` of a 2 by 2 texture, node 1 holds `CACHED_OUT_HANDLE` with one user, and
texture list and `currentUsedTextures` are those of the start state. -/
theorem lazy_materialization_witness :
    ((∃ n1, loadedState.masterTextureNodes[1]? = some n1 ∧
        n1.gosTextureHandle = smallConfig.CACHED_OUT_HANDLE ∧ n1.numUsers = 1) ∧
      loadedState.textureList_ = startState.textureList_ ∧
      loadedState.currentUsedTextures = startState.currentUsedTextures) ∧
    ((∃ n1, fromMemoryState.masterTextureNodes[1]? = some n1 ∧
        n1.gosTextureHandle = smallConfig.CACHED_OUT_HANDLE ∧ n1.numUsers = 1) ∧
      fromMemoryState.textureList_ = startState.textureList_ ∧
      fromMemoryState.currentUsedTextures = startState.currentUsedTextures) :=
  ⟨(lazy_materialization smallConfig startState).1 "a.tga" gos_TextureFormat.gos_Texture_Solid
      0 0 0 (some threeByteFile) 1 loadedState (by decide) (by decide),
   (lazy_materialization smallConfig startState).2.1 pixels16
      gos_TextureFormat.gos_Texture_Solid 0 2 4 1 fromMemoryState (by decide)⟩

/-! ### C21: slot allocation -/

/-- C21 (counterexample).  The build is the `_DEBUG` build, in which the `gosASSERT`s of
`loadTexture` are compiled in.  Right after `start` slot 1 is Free and no node carries the name
"a.tga".  `loadTexture` of a file that cannot be opened stops the program, and so does
`loadTexture` of a file of 65 bytes when `MAX_LZ_BUFFER_SIZE` is 64: the program stops although
a slot is Free. -/
theorem loadTexture_stops_with_free_slot :
    smallConfig.DEBUG = true ∧
    startState.masterTextureNodes[1]? = some MC_TextureNode.init ∧
    MC_TextureNode.init.gosTextureHandle = 0xffffffff ∧
    (∀ m ∈ startState.masterTextureNodes, isLoaded smallConfig "a.tga" 0 m = false) ∧
    loadTexture smallConfig startState "a.tga" gos_TextureFormat.gos_Texture_Solid 0 0 0 none
      true = Run.stopped StopReason.fileOpenFailed ∧
    loadTexture smallConfig startState "a.tga" gos_TextureFormat.gos_Texture_Solid 0 0 0
      (fileOf (List.replicate 65 7)) true = Run.stopped StopReason.inputTooLarge := by
  refine ⟨?_, ?_, ?_, ?_, ?_, ?_⟩ <;> decide

theorem firstFree_of_lowest (s : MC_TextureManager) (i : Nat) (n : MC_TextureNode)
    (hn : s.masterTextureNodes[i]? = some n) (hfree : n.gosTextureHandle = 0xffffffff)
    (hlow : ∀ m ∈ s.masterTextureNodes.take i, m.gosTextureHandle ≠ 0xffffffff) :
    firstIndex (fun n => n.gosTextureHandle == 0xffffffff) s.masterTextureNodes = some i := by
  apply firstIndex_of_take _ _ i n hn
  · simpa using hfree
  · intro b hb
    simpa using hlow b hb

theorem firstFree_of_full (s : MC_TextureManager)
    (hfull : ∀ m ∈ s.masterTextureNodes, m.gosTextureHandle ≠ 0xffffffff) :
    firstIndex (fun n => n.gosTextureHandle == 0xffffffff) s.masterTextureNodes = none := by
  rw [firstIndex_eq_none]
  intro a ha
  simpa using hfull a ha

/-- C21 (amended).  Slot allocation.  When no node of the table is Free, `textureFromMemory`
and, on a dedupe miss, `loadTexture` stop the program ("TOO Many textures in game"), in every
build.  When `i` is the lowest index whose node is Free, `textureFromMemory` returns `i` and
leaves every other node as it was, and on a dedupe miss so does `loadTexture` of a file that
opens and either comes with a blob from `readRAW` or is not larger than `MAX_LZ_BUFFER_SIZE`.
For the other files the build decides.  In the `_DEBUG` build `loadTexture` stops when the file
cannot be opened and when the file is too large.  In a build without `_DEBUG` a file that cannot
be opened does not stop the call: it does what it does on the unopened `File`; a file that is
too large is read past the end of the scratch buffer, which the source leaves undefined. -/
theorem slot_allocation (cfg : Config) (s : MC_TextureManager) :
    ((∀ m ∈ s.masterTextureNodes, m.gosTextureHandle ≠ 0xffffffff) →
      (∀ (data : List Nat) (key : gos_TextureFormat) (hints width bitDepth : Nat)
          (mallocOk : Bool),
        textureFromMemory cfg s data key hints width bitDepth mallocOk =
          Run.stopped StopReason.tooManyTextures) ∧
      (∀ (p : String) (key : gos_TextureFormat) (hints u nFlush : Nat)
          (file : Option TextureFile) (mallocOk : Bool),
        (∀ m ∈ s.masterTextureNodes, isLoaded cfg p u m = false) →
        loadTexture cfg s p key hints u nFlush file mallocOk =
          Run.stopped StopReason.tooManyTextures)) ∧
    (∀ (i : Nat) (n : MC_TextureNode), s.masterTextureNodes[i]? = some n →
      n.gosTextureHandle = 0xffffffff →
      (∀ m ∈ s.masterTextureNodes.take i, m.gosTextureHandle ≠ 0xffffffff) →
      (∀ (data : List Nat) (key : gos_TextureFormat) (hints width bitDepth : Nat)
          (mallocOk : Bool),
        ∃ s1, textureFromMemory cfg s data key hints width bitDepth mallocOk = Run.done (i, s1) ∧
          ∀ j, j ≠ i → s1.masterTextureNodes[j]? = s.masterTextureNodes[j]?) ∧
      (∀ (p : String) (key : gos_TextureFormat) (hints u nFlush : Nat) (mallocOk : Bool),
        (∀ m ∈ s.masterTextureNodes, isLoaded cfg p u m = false) →
        (∀ f : TextureFile,
          ¬ ((f.readRAW = none ∨ f.readRAW = some []) ∧
              cfg.MAX_LZ_BUFFER_SIZE < f.content.length) →
          ∃ s1, loadTexture cfg s p key hints u nFlush (some f) mallocOk = Run.done (i, s1) ∧
            ∀ j, j ≠ i → s1.masterTextureNodes[j]? = s.masterTextureNodes[j]?) ∧
        (cfg.DEBUG = true →
          loadTexture cfg s p key hints u nFlush none mallocOk =
            Run.stopped StopReason.fileOpenFailed ∧
          ∀ f : TextureFile,
            (f.readRAW = none ∨ f.readRAW = some []) ∧
                cfg.MAX_LZ_BUFFER_SIZE < f.content.length →
              loadTexture cfg s p key hints u nFlush (some f) mallocOk =
                Run.stopped StopReason.inputTooLarge) ∧
        (cfg.DEBUG = false →
          loadTexture cfg s p key hints u nFlush none mallocOk =
            loadTexture cfg s p key hints u nFlush (some cfg.closedFile) mallocOk ∧
          ∀ f : TextureFile,
            (f.readRAW = none ∨ f.readRAW = some []) ∧
                cfg.MAX_LZ_BUFFER_SIZE < f.content.length →
              loadTexture cfg s p key hints u nFlush (some f) mallocOk =
                Run.stopped StopReason.bufferOverrun))) := by
  constructor
  · intro hfull
    have hnone := firstFree_of_full s hfull
    constructor
    · intro data key hints width bitDepth mallocOk
      unfold textureFromMemory
      rw [hnone]
    · intro p key hints u nFlush file mallocOk hmiss
      have hmiss2 : firstIndex (isLoaded cfg p u) s.masterTextureNodes = none :=
        (firstIndex_eq_none _ _).mpr hmiss
      unfold loadTexture
      rw [hmiss2, hnone]
  · intro i n hn hfree hlow
    have hsome := firstFree_of_lowest s i n hn hfree hlow
    constructor
    · intro data key hints width bitDepth mallocOk
      unfold textureFromMemory
      rw [hsome]
      exact ⟨_, rfl, fun j hj => by
        simp [modifyNode, getElem?_modifyAt_ne _ _ i j (Ne.symm hj)]⟩
    · intro p key hints u nFlush mallocOk hmiss
      have hmiss2 : firstIndex (isLoaded cfg p u) s.masterTextureNodes = none :=
        (firstIndex_eq_none _ _).mpr hmiss
      refine ⟨?_, ?_, ?_⟩
      · intro f hfit
        exact loadTexture_miss_fits cfg s p key hints u nFlush (some f) f mallocOk i hmiss
          hsome rfl hfit
      · intro hd
        constructor
        · unfold loadTexture
          rw [hmiss2, hsome]
          simp [openTextureFile, hd]
        · intro f hbig
          rw [loadTexture_miss_oversize cfg s p key hints u nFlush (some f) f mallocOk i hmiss
            hsome rfl hbig.1 hbig.2, hd]
          rfl
      · intro hd
        constructor
        · unfold loadTexture
          rw [hmiss2, hsome]
          simp [openTextureFile, hd]
        · intro f hbig
          rw [loadTexture_miss_oversize cfg s p key hints u nFlush (some f) f mallocOk i hmiss
            hsome rfl hbig.1 hbig.2, hd]
          rfl

/-- C21 (amended), at the start state, whose lowest Free slot is 1: `textureFromMemory` and
`loadTexture` of a three-byte file return 1 and leave the other nodes alone; in a build without
`_DEBUG` the load of a file that cannot be opened is the load of the unopened `File`, and it
returns 1 as well. -/
theorem slot_allocation_witness :
    (∃ s1, textureFromMemory smallConfig startState pixels16 gos_TextureFormat.gos_Texture_Solid
        0 2 4 true = Run.done (1, s1) ∧
      ∀ j, j ≠ 1 → s1.masterTextureNodes[j]? = startState.masterTextureNodes[j]?) ∧
    (∃ s1, loadTexture smallConfig startState "a.tga" gos_TextureFormat.gos_Texture_Solid 0 0 0
        (some threeByteFile) true = Run.done (1, s1) ∧
      ∀ j, j ≠ 1 → s1.masterTextureNodes[j]? = startState.masterTextureNodes[j]?) ∧
    loadTexture releaseConfig startState "a.tga" gos_TextureFormat.gos_Texture_Solid 0 0 0
        none true =
      loadTexture releaseConfig startState "a.tga" gos_TextureFormat.gos_Texture_Solid 0 0 0
        (some releaseConfig.closedFile) true ∧
    (∃ s1, loadTexture releaseConfig startState "a.tga" gos_TextureFormat.gos_Texture_Solid
        0 0 0 (some releaseConfig.closedFile) true = Run.done (1, s1) ∧
      ∀ j, j ≠ 1 → s1.masterTextureNodes[j]? = startState.masterTextureNodes[j]?) :=
  ⟨((slot_allocation smallConfig startState).2 1 MC_TextureNode.init (by decide) (by decide)
      (by decide)).1 pixels16 gos_TextureFormat.gos_Texture_Solid 0 2 4 true,
   (((slot_allocation smallConfig startState).2 1 MC_TextureNode.init (by decide) (by decide)
      (by decide)).2 "a.tga" gos_TextureFormat.gos_Texture_Solid 0 0 0 true (by decide)).1
      threeByteFile (by decide),
   ((((slot_allocation releaseConfig startState).2 1 MC_TextureNode.init (by decide)
      (by decide) (by decide)).2 "a.tga" gos_TextureFormat.gos_Texture_Solid 0 0 0 true
      (by decide)).2.2 (by decide)).1,
   (((slot_allocation releaseConfig startState).2 1 MC_TextureNode.init (by decide)
      (by decide) (by decide)).2 "a.tga" gos_TextureFormat.gos_Texture_Solid 0 0 0 true
      (by decide)).1 releaseConfig.closedFile (by decide)⟩

/-! ### C22: eviction keeps the CPU copy -/

theorem flushCache_node (cfg : Config) (s : MC_TextureManager) (i : Nat)
    (n : MC_TextureNode) (hn : s.masterTextureNodes[i]? = some n) :
    (flushCache cfg s).2.masterTextureNodes[i]? = some n ∨
    (flushCache cfg s).2.masterTextureNodes[i]? =
      some { n with gosTextureHandle := cfg.CACHED_OUT_HANDLE } := by
  have hlt : i < s.masterTextureNodes.length := by
    rcases List.getElem?_eq_some.mp hn with ⟨hl, _⟩
    exact hl
  rcases flushCache_cases cfg s with ⟨_, h⟩ | ⟨_, j, m, hm, _, h⟩ | ⟨_, _, h⟩
  · left
    rw [h]
    simpa [recount] using hn
  · rw [h, cacheOut_eq cfg (recount cfg s) j m (by simpa [recount] using hm)]
    by_cases hji : j = i
    · right
      subst hji
      rw [hn] at hm
      cases hm
      simp [recount, List.getElem?_set_self hlt]
    · left
      simp [recount, List.getElem?_set_ne hji, hn]
  · left
    rw [h]
    simpa [recount] using hn

theorem update_node (cfg : Config) (s : MC_TextureManager) (i : Nat)
    (n : MC_TextureNode) (hn : s.masterTextureNodes[i]? = some n) :
    (update cfg s).2.masterTextureNodes[i]? = some n ∨
    (update cfg s).2.masterTextureNodes[i]? =
      some { n with gosTextureHandle := cfg.CACHED_OUT_HANDLE } := by
  have hmap : (update cfg s).2.masterTextureNodes[i]? =
      some (if inUse cfg n && cacheable60 s.turn n then
        { n with gosTextureHandle := cfg.CACHED_OUT_HANDLE } else n) := by
    simp [update, updateLoop_nodes, List.getElem?_map, hn]
  rw [hmap]
  by_cases hc : (inUse cfg n && cacheable60 s.turn n) = true
  · right
    rw [if_pos hc]
  · left
    rw [if_neg hc]

theorem flushCache_length (cfg : Config) (s : MC_TextureManager) :
    (flushCache cfg s).2.masterTextureNodes.length = s.masterTextureNodes.length ∧
    (flushCache cfg s).2.textureList_.length = s.textureList_.length := by
  rcases flushCache_cases cfg s with ⟨_, h⟩ | ⟨_, j, m, hm, _, h⟩ | ⟨_, _, h⟩
  · rw [h]
    simp [recount]
  · rw [h, cacheOut_eq cfg (recount cfg s) j m (by simpa [recount] using hm)]
    by_cases h0 : m.gosTextureHandle = 0
    · simp [recount, h0]
    · simp [recount, h0]
  · rw [h]
    simp [recount]

/-- C22.  Eviction keeps the CPU copy.  After `flushCache` and after `update` the table has
the length it had, and every node is either exactly what it was or what it was with
`CACHED_OUT_HANDLE` as `gosTextureHandle`: `textureData`, `lzCompSize`, `width`, `nodeName`,
`numUsers`, `key`, `hints`, `uniqueInstance`, `neverFLUSH` (and `lastUsed`) of every node are
unchanged, so the blob an evicted node is materialized from is the one it had. -/
theorem eviction_keeps_cpu_copy (cfg : Config) (s : MC_TextureManager) (i : Nat)
    (n : MC_TextureNode) (hn : s.masterTextureNodes[i]? = some n) :
    ((flushCache cfg s).2.masterTextureNodes[i]? = some n ∨
      (flushCache cfg s).2.masterTextureNodes[i]? =
        some { n with gosTextureHandle := cfg.CACHED_OUT_HANDLE }) ∧
    ((update cfg s).2.masterTextureNodes[i]? = some n ∨
      (update cfg s).2.masterTextureNodes[i]? =
        some { n with gosTextureHandle := cfg.CACHED_OUT_HANDLE }) ∧
    (flushCache cfg s).2.masterTextureNodes.length = s.masterTextureNodes.length ∧
    (update cfg s).2.masterTextureNodes.length = s.masterTextureNodes.length := by
  refine ⟨flushCache_node cfg s i n hn, update_node cfg s i n hn,
    (flushCache_length cfg s).1, ?_⟩
  simp [update, updateLoop_nodes]

/-- C22, at a concrete table: at turn 5 with the budget used up, node 2 (last used one turn
ago) is the node `flushCache` evicts, and it comes out with `CACHED_OUT_HANDLE` and every other
field as before; `update` leaves it as it was. -/
theorem eviction_keeps_cpu_copy_witness :
    ((flushCache smallConfig boundaryState).2.masterTextureNodes[2]? = some dayOldNode ∨
      (flushCache smallConfig boundaryState).2.masterTextureNodes[2]? =
        some { dayOldNode with gosTextureHandle := smallConfig.CACHED_OUT_HANDLE }) ∧
    ((update smallConfig boundaryState).2.masterTextureNodes[2]? = some dayOldNode ∨
      (update smallConfig boundaryState).2.masterTextureNodes[2]? =
        some { dayOldNode with gosTextureHandle := smallConfig.CACHED_OUT_HANDLE }) ∧
    (flushCache smallConfig boundaryState).2.masterTextureNodes.length =
      boundaryState.masterTextureNodes.length ∧
    (update smallConfig boundaryState).2.masterTextureNodes.length =
      boundaryState.masterTextureNodes.length :=
  eviction_keeps_cpu_copy smallConfig boundaryState 2 dayOldNode (by decide)

/-! ### C23: the size ceiling at load and at use -/

/-- C23 (evaluation at the failing input).  `MAX_LZ_BUFFER_SIZE` is 3 and the codec is the
identity, so it round-trips.  A file of 4 bytes is rejected by `loadTexture` (the build is the
`_DEBUG` build, where that assertion is compiled in).  A file of 3 bytes
is accepted: `loadTexture` returns node 1.  On that node `get_gosTextureHandle` stops with
"Texture TOO large", and so does `saveTexture`.  A file of 4 bytes for which `readRAW` hands
back a blob is not rejected by `loadTexture`: that branch has no size test. -/
theorem size_ceiling_boundary :
    loadTexture ceilingConfig ceilingStart "b.tga" gos_TextureFormat.gos_Texture_Solid 0 0 0
      (fileOf [1, 2, 3, 4]) true = Run.stopped StopReason.inputTooLarge ∧
    threeByteFile.content.length = ceilingConfig.MAX_LZ_BUFFER_SIZE ∧
    ceilingConfig.LZDecomp (ceilingConfig.LZCompress threeByteFile.content) =
      threeByteFile.content ∧
    loadTexture ceilingConfig ceilingStart "a.tga" gos_TextureFormat.gos_Texture_Solid 0 0 0
      (some threeByteFile) true = Run.done (1, ceilingLoaded) ∧
    get_gosTextureHandle ceilingConfig ceilingLoaded 1 =
      Run.stopped StopReason.textureTooLarge ∧
    saveTexture ceilingConfig ceilingLoaded 1 none = Run.stopped StopReason.textureTooLarge ∧
    ∃ s1, loadTexture ceilingConfig ceilingStart "c.tga" gos_TextureFormat.gos_Texture_Solid
      0 0 0 (some { content := [1, 2, 3, 4], readRAW := some [1, 2, 3, 4] }) true =
        Run.done (1, s1) := by
  refine ⟨?_, ?_, ?_, ?_, ?_, ?_, _, rfl⟩ <;> decide

/-! ### C24: the path of materialization -/

/-- C24 (evaluation at the failing input).  The codec puts one byte in front of its input.
`loadTexture` of the empty file "z.tga" returns node 1 with a one-byte blob and
`width = 0xf0000000`, which is not greater than `0xf0000000`.  `get_gosTextureHandle` on that
node takes the create-empty path: it calls `gos_NewEmptyTexture` with
`HeightWidth = 0xf0000000`, a texture zero pixels wide, and the program stops on the assertion
of `createHardwareTexture`.  With a decompressor that returns three bytes the create-from-bytes
path would stop on its length test, as it does on the one-byte file; on the empty file the run
stops on the assertion all the same, so the length test is not reached.  A file of one byte
gives `width = 0xf0000001` and a texture created from bytes. -/
theorem zero_byte_file_takes_empty_path :
    loadTexture headerConfig startState "z.tga" gos_TextureFormat.gos_Texture_Solid 0 0 0
      (fileOf []) true = Run.done (1, zeroByteState) ∧
    zeroByteState.masterTextureNodes[1]?.map
        (fun n => (n.gosTextureHandle, n.width, n.textureData)) =
      some (0xFFFFFFFA, 0xf0000000, some [0]) ∧
    gos_NewEmptyTexture zeroByteState gos_TextureFormat.gos_Texture_Solid (some "z.tga")
      0xf0000000 0 = Run.stopped StopReason.assertFailed ∧
    get_gosTextureHandle headerConfig zeroByteState 1 = Run.stopped StopReason.assertFailed ∧
    get_gosTextureHandle probeConfig zeroByteState 1 = Run.stopped StopReason.assertFailed ∧
    get_gosTextureHandle probeConfig oneByteState 1 = Run.stopped StopReason.sizeMismatch ∧
    oneByteState.masterTextureNodes[1]?.map (fun n => n.width) = some 0xf0000001 ∧
    ∃ s2, get_gosTextureHandle headerConfig oneByteState 1 = Run.done (1, s2) ∧
      createdFromBytes s2 1 = some true := by
  refine ⟨?_, ?_, ?_, ?_, ?_, ?_, ?_, _, rfl, ?_⟩ <;> decide

/-! ### C26: saving a raw-pixel node -/

/-- C26 (evaluation at the failing input).  `textureFromMemory` makes node 1 from the 16 bytes
of a 2 by 2 texture of 4-byte pixels; the blob is allocated and the codec round-trips.
`saveTexture` on node 1 does not return `NO_ERR`: it compares the 16 decompressed bytes with
`width & 0x0fffffff = 2` and stops with "Decompressed to different size from original!". -/
theorem saveTexture_raw_pixel_stops :
    textureFromMemory smallConfig startState pixels16 gos_TextureFormat.gos_Texture_Solid 0 2 4
      true = Run.done (1, fromMemoryState) ∧
    fromMemoryState.masterTextureNodes[1]?.map (fun n => (n.width, n.textureData)) =
      some (2, some pixels16) ∧
    smallConfig.LZDecomp (smallConfig.LZCompress pixels16) = pixels16 ∧
    pixels16.length = 2 * 2 * 4 ∧
    saveTexture smallConfig fromMemoryState 1 none = Run.stopped StopReason.sizeMismatch := by
  refine ⟨?_, ?_, ?_, ?_, ?_⟩ <;> decide

/-! ### C27: `currentUsedTextures` after `flush` -/

/-- C27 (evaluation at the failing input).  Budget two.  "a.tga" is loaded with `nFlush = 1`
and materialized: node 1 is Resident and `currentUsedTextures` is 1.  After `flush` node 1 is
still Resident, with its GPU object, and `currentUsedTextures` is 0: less than the number of
nodes with a live GPU handle.  Two more textures are then loaded and materialized without
`flushCache` being called (`totalCacheMisses` stays 0): three nodes are Resident. -/
theorem flush_undercounts :
    (∃ s, runCalls smallConfig startState (flushCalls.take 2) = Run.done s ∧
      handles s = [0, 1, 0xffffffff, 0xffffffff, 0xffffffff] ∧
      s.currentUsedTextures = 1 ∧ residentCount smallConfig s = 1) ∧
    (∃ s, runCalls smallConfig startState (flushCalls.take 3) = Run.done s ∧
      handles s = [0, 1, 0xffffffff, 0xffffffff, 0xffffffff] ∧
      createdFromBytes s 1 = some true ∧
      s.currentUsedTextures = 0 ∧ residentCount smallConfig s = 1 ∧
      s.currentUsedTextures < residentCount smallConfig s) ∧
    (∃ s, runCalls smallConfig startState flushCalls = Run.done s ∧
      handles s = [0, 1, 2, 3, 0xffffffff] ∧
      s.totalCacheMisses = 0 ∧
      s.currentUsedTextures = 2 ∧ residentCount smallConfig s = 3 ∧
      smallConfig.MAX_MC2_GOS_TEXTURES < residentCount smallConfig s) := by
  refine ⟨⟨_, rfl, ?_, ?_, ?_⟩, ⟨_, rfl, ?_, ?_, ?_, ?_, ?_⟩, ⟨_, rfl, ?_, ?_, ?_, ?_, ?_⟩⟩ <;>
    decide

/-! ### C28: vertex batches -/

/-- C28 (evaluation at the failing input).  For a vertex list of exactly `MAX_SENDDOWN` =
10002 vertices `renderLists` calls `gos_RenderIndexedArray` not at all: the list is neither
shorter nor longer than `MAX_SENDDOWN`, and no vertex is submitted.  One vertex fewer gives one
batch, one vertex more gives two. -/
theorem renderLists_skips_MAX_SENDDOWN :
    MAX_SENDDOWN = 10002 ∧
    renderLists_batches 10003 10002 = some [] ∧
    renderLists_batches 10003 10001 = some [(0, 10001)] ∧
    renderLists_batches 10004 10003 = some [(0, 10002), (10002, 1)] := by
  refine ⟨?_, ?_, ?_, ?_⟩ <;> decide

theorem renderLists_loop_cover (total : Nat) :
    ∀ (fuel cur : Nat), cur ≤ total → total - cur < fuel →
      ∃ bs, renderLists_loop total fuel cur = some bs ∧ contiguousFrom cur bs ∧
        (∀ b ∈ bs, 0 < b.2 ∧ b.2 ≤ MAX_SENDDOWN) ∧ (bs.map Prod.snd).sum = total - cur := by
  have hmax : 0 < MAX_SENDDOWN := by decide
  intro fuel
  induction fuel with
  | zero => intro cur _ h; omega
  | succ fuel ih =>
    intro cur hle hfuel
    by_cases hc : cur < total
    · by_cases hbig : total - cur > MAX_SENDDOWN
      · obtain ⟨bs, hbs, hcont, hsize, hsum⟩ :=
          ih (cur + MAX_SENDDOWN) (by omega) (by omega)
        refine ⟨(cur, MAX_SENDDOWN) :: bs, ?_, ?_, ?_, ?_⟩
        · simp [renderLists_loop, hc, hbig, hbs]
        · exact ⟨rfl, hcont⟩
        · intro b hb
          rcases List.mem_cons.mp hb with h | h
          · subst h
            exact ⟨hmax, Nat.le_refl _⟩
          · exact hsize b h
        · simp only [List.map_cons, List.sum_cons, hsum]
          omega
      · obtain ⟨bs, hbs, hcont, hsize, hsum⟩ :=
          ih (cur + (total - cur)) (by omega) (by omega)
        refine ⟨(cur, total - cur) :: bs, ?_, ?_, ?_, ?_⟩
        · simp [renderLists_loop, hc, hbig, hbs]
        · exact ⟨rfl, hcont⟩
        · intro b hb
          rcases List.mem_cons.mp hb with h | h
          · subst h
            exact ⟨by simp only; omega, by simp only; omega⟩
          · exact hsize b h
        · simp only [List.map_cons, List.sum_cons, hsum]
          omega
    · refine ⟨[], ?_, trivial, ?_, ?_⟩
      · simp [renderLists_loop, hc]
      · intro b hb
        simp at hb
      · simp only [List.map_nil, List.sum_nil]
        omega

theorem renderLists_batches_cover (fuel n : Nat) (hn : 0 < n) (hne : n ≠ MAX_SENDDOWN)
    (hfuel : n < fuel) :
    ∃ bs, renderLists_batches fuel n = some bs ∧ contiguousFrom 0 bs ∧
      (∀ b ∈ bs, 0 < b.2 ∧ b.2 ≤ MAX_SENDDOWN) ∧ (bs.map Prod.snd).sum = n := by
  by_cases hlt : n < MAX_SENDDOWN
  · refine ⟨[(0, n)], ?_, ⟨rfl, trivial⟩, ?_, by simp⟩
    · simp [renderLists_batches, hlt, Nat.pos_iff_ne_zero.mp hn]
    · intro b hb
      simp only [List.mem_singleton] at hb
      subst hb
      exact ⟨hn, Nat.le_of_lt hlt⟩
  · have hgt : n > MAX_SENDDOWN := by omega
    obtain ⟨bs, hbs, hcont, hsize, hsum⟩ := renderLists_loop_cover n fuel 0 (Nat.zero_le _)
      (by omega)
    refine ⟨bs, ?_, hcont, hsize, by simpa using hsum⟩
    simp [renderLists_batches, hlt, hgt, hbs]

/-! ### C30: the pixel conversion of `Lock` and `Unlock` -/

theorem mask_shift (p k : Nat) : (p &&& (255 <<< k)) >>> k = p / 2 ^ k % 256 := by
  apply Nat.eq_of_testBit_eq
  intro j
  have h255 : (255 : Nat) = 2 ^ 8 - 1 := by norm_num
  have h256 : (256 : Nat) = 2 ^ 8 := by norm_num
  rw [h256, Nat.testBit_mod_two_pow, Nat.testBit_shiftRight, Nat.testBit_and,
    Nat.testBit_shiftLeft, h255, Nat.testBit_two_pow_sub_one, ← Nat.shiftRight_eq_div_pow,
    Nat.testBit_shiftRight]
  have e : k + j - k = j := by omega
  have e2 : k + j ≥ k := by omega
  simp [e, e2, Bool.and_comm]

theorem bytes_or (a r g b : Nat) (hr : r < 256) (hg : g < 256) (hb : b < 256) :
    (a <<< 24) ||| (r <<< 16) ||| (g <<< 8) ||| b =
      a * 2 ^ 24 + r * 2 ^ 16 + g * 2 ^ 8 + b := by
  have h1 : 2 ^ 8 * g + b = 2 ^ 8 * g ||| b := Nat.mul_add_lt_is_or (by omega) g
  have h2 : 2 ^ 16 * r + (2 ^ 8 * g + b) = 2 ^ 16 * r ||| (2 ^ 8 * g + b) :=
    Nat.mul_add_lt_is_or (by omega) r
  have h3 : 2 ^ 24 * a + (2 ^ 16 * r + (2 ^ 8 * g + b)) =
      2 ^ 24 * a ||| (2 ^ 16 * r + (2 ^ 8 * g + b)) :=
    Nat.mul_add_lt_is_or (by omega) a
  rw [Nat.shiftLeft_eq, Nat.shiftLeft_eq, Nat.shiftLeft_eq, Nat.or_assoc, Nat.or_assoc,
    Nat.mul_comm a, Nat.mul_comm r, Nat.mul_comm g, ← h1, ← h2, ← h3]
  omega

theorem bytes_of (a r g b : Nat) (ha : a < 256) (hr : r < 256) (hg : g < 256)
    (hb : b < 256) :
    (a * 2 ^ 24 + r * 2 ^ 16 + g * 2 ^ 8 + b) / 2 ^ 24 % 256 = a ∧
    (a * 2 ^ 24 + r * 2 ^ 16 + g * 2 ^ 8 + b) / 2 ^ 16 % 256 = r ∧
    (a * 2 ^ 24 + r * 2 ^ 16 + g * 2 ^ 8 + b) / 2 ^ 8 % 256 = g ∧
    (a * 2 ^ 24 + r * 2 ^ 16 + g * 2 ^ 8 + b) % 256 = b := by
  refine ⟨?_, ?_, ?_, ?_⟩ <;> omega

theorem bytes_split (p : Nat) (hp : p < 2 ^ 32) :
    p = (p / 2 ^ 24 % 256) * 2 ^ 24 + (p / 2 ^ 16 % 256) * 2 ^ 16 + (p / 2 ^ 8 % 256) * 2 ^ 8
      + p % 256 := by
  omega

theorem Lock_pixel_eq (p : Nat) :
    Lock_pixel p = (p / 2 ^ 24 % 256) * 2 ^ 24 + (p % 256) * 2 ^ 16 + (p / 2 ^ 8 % 256) * 2 ^ 8
      + p / 2 ^ 16 % 256 := by
  have c1 : (0xff00 : Nat) = 255 <<< 8 := by decide
  have c2 : (0xff0000 : Nat) = 255 <<< 16 := by decide
  have c3 : (0xff000000 : Nat) = 255 <<< 24 := by decide
  have e0 : p &&& 0xff = p % 256 := by
    have := mask_shift p 0
    simpa using this
  unfold Lock_pixel
  simp only []
  rw [e0, c1, c2, c3, mask_shift, mask_shift, mask_shift]
  exact bytes_or _ _ _ _ (Nat.mod_lt _ (by norm_num)) (Nat.mod_lt _ (by norm_num))
    (Nat.mod_lt _ (by norm_num))

theorem Unlock_pixel_eq_Lock_pixel (p : Nat) : Unlock_pixel p = Lock_pixel p := rfl

theorem Lock_pixel_bytes (p : Nat) :
    Lock_pixel p / 2 ^ 24 % 256 = p / 2 ^ 24 % 256 ∧
    Lock_pixel p / 2 ^ 16 % 256 = p % 256 ∧
    Lock_pixel p / 2 ^ 8 % 256 = p / 2 ^ 8 % 256 ∧
    Lock_pixel p % 256 = p / 2 ^ 16 % 256 := by
  have h256 : ∀ x : Nat, x % 256 < 256 := fun x => Nat.mod_lt _ (by norm_num)
  rw [Lock_pixel_eq p]
  exact bytes_of (p / 2 ^ 24 % 256) (p % 256) (p / 2 ^ 8 % 256) (p / 2 ^ 16 % 256)
    (h256 _) (h256 _) (h256 _) (h256 _)

theorem Lock_pixel_involutive (p : Nat) (hp : p < 2 ^ 32) : Lock_pixel (Lock_pixel p) = p := by
  obtain ⟨h1, h2, h3, h4⟩ := Lock_pixel_bytes p
  rw [Lock_pixel_eq (Lock_pixel p), h1, h2, h3, h4]
  have := bytes_split p hp
  omega

theorem Lock_pixel_lt (p : Nat) : Lock_pixel p < 2 ^ 32 := by
  rw [Lock_pixel_eq p]
  omega

theorem byte_testBit (x k j : Nat) (hj : j < 8) :
    x.testBit (k + j) = (x / 2 ^ k % 256).testBit j := by
  have h256 : (256 : Nat) = 2 ^ 8 := by norm_num
  rw [h256, Nat.testBit_mod_two_pow, ← Nat.shiftRight_eq_div_pow, Nat.testBit_shiftRight]
  simp [hj]

theorem modifyAt_prefix {α : Type} (f : α → α) :
    ∀ (l : List α) (k : Nat), k < l.length →
      modifyAt f ((l.take k).map f ++ l.drop k) k = (l.take (k + 1)).map f ++ l.drop (k + 1) := by
  intro l
  induction l with
  | nil => intro k h; simp at h
  | cons a as ih =>
    intro k h
    cases k with
    | zero => simp [modifyAt]
    | succ k =>
      have hk : k < as.length := by simpa using h
      simp only [List.take_succ_cons, List.map_cons, List.drop_succ_cons, List.cons_append]
      rw [show modifyAt f (f a :: (List.map f (List.take k as) ++ List.drop k as)) (k + 1) =
          f a :: modifyAt f (List.map f (List.take k as) ++ List.drop k as) k from rfl,
        ih k hk]

theorem pixelLoop_row {α : Type} (f : α → α) (l : List α) (base : Nat) :
    ∀ n : Nat, base + n ≤ l.length →
      (List.range n).foldl (fun a x => modifyAt f a (base + x))
          ((l.take base).map f ++ l.drop base) =
        (l.take (base + n)).map f ++ l.drop (base + n) := by
  intro n
  induction n with
  | zero => intro _; simp
  | succ n ih =>
    intro h
    rw [List.range_succ, List.foldl_append, ih (by omega)]
    simp only [List.foldl_cons, List.foldl_nil]
    exact modifyAt_prefix f l (base + n) (by omega)

theorem pixelLoop_eq_map (f : Nat → Nat) (w h : Nat) (area : List Nat)
    (hlen : area.length = w * h) : pixelLoop f w h area = area.map f := by
  have hrows : ∀ m : Nat, m ≤ h →
      (List.range m).foldl
          (fun a y => (List.range w).foldl (fun a1 x => modifyAt f a1 (w * y + x)) a) area =
        (area.take (w * m)).map f ++ area.drop (w * m) := by
    intro m
    induction m with
    | zero => intro _; simp
    | succ m ih =>
      intro hm
      rw [List.range_succ, List.foldl_append, ih (by omega)]
      simp only [List.foldl_cons, List.foldl_nil]
      have hle : w * m + w ≤ area.length := by
        rw [hlen]
        calc w * m + w = w * (m + 1) := by ring
          _ ≤ w * h := Nat.mul_le_mul_left w hm
      rw [pixelLoop_row f area (w * m) w hle]
      have e : w * m + w = w * (m + 1) := by ring
      rw [e]
  unfold pixelLoop
  rw [hrows h (Nat.le_refl _), ← hlen]
  simp

/-- C30.  Lock/Unlock pixel swap.  The conversion `Lock` applies to a pixel and the one
`Unlock` applies are the same function; the result is a 32-bit value whose bits 0-7 are bits
16-23 of the pixel, whose bits 16-23 are its bits 0-7, and whose bits 8-15 and 24-31 are the
pixel's; on 32-bit pixels the conversion is its own inverse; and for a `w` by `h` texture of
32-bit pixels, `Lock` for writing followed by `Unlock` on the untouched locked area uploads
exactly the pixels the texture held. -/
theorem lock_unlock_round_trip :
    (∀ p : Nat, Lock_pixel p = Unlock_pixel p) ∧
    (∀ p : Nat, Lock_pixel p < 2 ^ 32) ∧
    (∀ p i : Nat, i < 8 →
      (Lock_pixel p).testBit i = p.testBit (16 + i) ∧
      (Lock_pixel p).testBit (16 + i) = p.testBit i ∧
      (Lock_pixel p).testBit (8 + i) = p.testBit (8 + i) ∧
      (Lock_pixel p).testBit (24 + i) = p.testBit (24 + i)) ∧
    (∀ p : Nat, p < 2 ^ 32 → Unlock_pixel (Lock_pixel p) = p) ∧
    (∀ (w h : Nat) (texture : List Nat), texture.length = w * h →
      (∀ p ∈ texture, p < 2 ^ 32) →
      gosTexture.Unlock false w h (gosTexture.Lock w h texture) texture = texture) := by
  refine ⟨fun p => (Unlock_pixel_eq_Lock_pixel p).symm, Lock_pixel_lt, ?_, ?_, ?_⟩
  · intro p i hi
    obtain ⟨h24, h16, h8, h0⟩ := Lock_pixel_bytes p
    have z : ∀ x : Nat, x.testBit i = (x / 2 ^ 0 % 256).testBit i := by
      intro x
      have := byte_testBit x 0 i hi
      simpa using this
    refine ⟨?_, ?_, ?_, ?_⟩
    · rw [z (Lock_pixel p), byte_testBit p 16 i hi]
      simp only [pow_zero, Nat.div_one]
      rw [h0]
    · rw [byte_testBit (Lock_pixel p) 16 i hi, z p, h16]
      simp only [pow_zero, Nat.div_one]
    · rw [byte_testBit (Lock_pixel p) 8 i hi, byte_testBit p 8 i hi, h8]
    · rw [byte_testBit (Lock_pixel p) 24 i hi, byte_testBit p 24 i hi, h24]
  · intro p hp
    rw [Unlock_pixel_eq_Lock_pixel]
    exact Lock_pixel_involutive p hp
  · intro w h texture hlen hpix
    unfold gosTexture.Unlock gosTexture.Lock
    rw [if_neg (by simp), pixelLoop_eq_map Lock_pixel w h texture hlen,
      pixelLoop_eq_map Unlock_pixel w h _ (by simpa using hlen), List.map_map]
    have hid : ∀ p ∈ texture, (Unlock_pixel ∘ Lock_pixel) p = p := by
      intro p hm
      simp only [Function.comp]
      rw [Unlock_pixel_eq_Lock_pixel]
      exact Lock_pixel_involutive p (hpix p hm)
    calc texture.map (Unlock_pixel ∘ Lock_pixel) = texture.map id :=
          List.map_congr_left hid
      _ = texture := List.map_id texture

/-- C30, at concrete pixels: `0x11223344` is converted to `0x11443322` and back, and a 2 by 1
texture locked for writing and unlocked is uploaded as it was. -/
theorem lock_unlock_round_trip_witness :
    Lock_pixel 0x11223344 = 0x11443322 ∧
    Unlock_pixel (Lock_pixel 0x11223344) = 0x11223344 ∧
    gosTexture.Unlock false 2 1 (gosTexture.Lock 2 1 [0x11223344, 0xff0000aa])
      [0x11223344, 0xff0000aa] = [0x11223344, 0xff0000aa] :=
  ⟨by decide, lock_unlock_round_trip.2.2.2.1 0x11223344 (by decide),
    lock_unlock_round_trip.2.2.2.2 2 1 [0x11223344, 0xff0000aa] (by decide) (by decide)⟩

/-! ### C29: text wrapping -/

theorem get_next_break_le : ∀ l : List Char, get_next_break l ≤ l.length := by
  intro l
  induction l with
  | nil => simp [get_next_break]
  | cons c cs ih =>
    by_cases h : c = ' ' ∨ c = '\n'
    · simp [get_next_break, h]
    · simp only [get_next_break, h, if_false, List.length_cons]
      omega

theorem charAt_lt (l : List Char) (i : Nat) (c : Char) (h : charAt l i = c)
    (hc : c ≠ Char.ofNat 0) : i < l.length := by
  by_contra hl
  have : charAt l i = Char.ofNat 0 := by
    simp [charAt, List.getD, List.getElem?_eq_none (Nat.le_of_not_lt hl)]
  rw [this] at h
  exact hc h.symm

theorem get_next_break_end : ∀ l : List Char,
    charAt l (get_next_break l) ≠ '\n' → charAt l (get_next_break l) ≠ ' ' →
      get_next_break l = l.length := by
  intro l
  induction l with
  | nil => intro _ _; simp [get_next_break]
  | cons c cs ih =>
    intro h1 h2
    by_cases h : c = ' ' ∨ c = '\n'
    · exfalso
      simp only [get_next_break, h, if_true] at h1 h2
      simp only [charAt, List.getD, List.getElem?_cons_zero, Option.getD_some] at h1 h2
      rcases h with h | h
      · exact h2 h
      · exact h1 h
    · simp only [get_next_break, h, if_false] at h1 h2 ⊢
      simp only [charAt, List.getD, List.getElem?_cons_succ] at h1 h2
      simp only [List.length_cons]
      rw [ih h1 h2]

theorem charAt_drop (l : List Char) (p j : Nat) : charAt (l.drop p) j = charAt l (p + j) := by
  simp [charAt, List.getD, List.getElem?_drop]

theorem findTextBreak_loop_bounds (adv : Char → Int) (text : List Char) (rwidth : Int) :
    ∀ (fuel : Nat) (width : Int) (pos : Nat), pos ≤ text.length →
      text.length - pos + 1 ≤ fuel →
      ∃ r, findTextBreak_loop adv text rwidth fuel width pos = some r ∧ pos ≤ r.1 ∧
        r.1 ≤ text.length := by
  intro fuel
  induction fuel with
  | zero => intro _ _ _ h; omega
  | succ fuel ih =>
    intro width pos hpos hfuel
    unfold findTextBreak_loop
    by_cases hlt : pos < text.length
    · rw [if_pos hlt]
      have hb : get_next_break (text.drop pos) ≤ text.length - pos := by
        have := get_next_break_le (text.drop pos)
        simpa using this
      simp only []
      by_cases hfit : width + wordWidth adv text pos (get_next_break (text.drop pos)) ≥ rwidth
      · rw [if_pos hfit]
        by_cases h0 : pos = 0
        · rw [if_pos h0]
          exact ⟨_, rfl, by simp only; omega, by simp only; omega⟩
        · rw [if_neg h0]
          exact ⟨_, rfl, Nat.le_refl _, hpos⟩
      · rw [if_neg hfit]
        by_cases hnl : charAt text (pos + get_next_break (text.drop pos)) = '\n'
        · rw [if_pos hnl]
          have := charAt_lt text _ _ hnl (by decide)
          exact ⟨_, rfl, by simp only; omega, by simp only; omega⟩
        · rw [if_neg hnl]
          by_cases hsp : charAt text (pos + get_next_break (text.drop pos)) = ' '
          · rw [if_pos hsp]
            have := charAt_lt text _ _ hsp (by decide)
            obtain ⟨r, hr, h1, h2⟩ := ih
              (width + wordWidth adv text pos (get_next_break (text.drop pos)) + adv ' ')
              (pos + get_next_break (text.drop pos) + 1) (by omega) (by omega)
            exact ⟨r, hr, by omega, h2⟩
          · rw [if_neg hsp]
            have hend : get_next_break (text.drop pos) = text.length - pos := by
              have := get_next_break_end (text.drop pos)
                (by rw [charAt_drop]; exact hnl) (by rw [charAt_drop]; exact hsp)
              simpa using this
            obtain ⟨r, hr, h1, h2⟩ := ih
              (width + wordWidth adv text pos (get_next_break (text.drop pos)))
              (pos + get_next_break (text.drop pos)) (by omega) (by omega)
            exact ⟨r, hr, by omega, h2⟩
    · rw [if_neg hlt]
      exact ⟨_, rfl, Nat.le_refl _, hpos⟩

theorem wordWidth_zero (adv : Char → Int) (text : List Char) (pos : Nat) :
    wordWidth adv text pos 0 = 0 := by
  simp [wordWidth]

theorem findTextBreak_bounds (adv : Char → Int) (text : List Char) (rwidth : Int) (fuel : Nat)
    (hw : 0 < rwidth) (hne : text ≠ []) (hfuel : text.length + 1 ≤ fuel) :
    ∃ r, findTextBreak fuel text adv rwidth = some r ∧ 1 ≤ r.1 ∧ r.1 ≤ text.length := by
  have hlen : 0 < text.length := List.length_pos.mpr hne
  unfold findTextBreak
  cases fuel with
  | zero => omega
  | succ fuel =>
    unfold findTextBreak_loop
    rw [if_pos hlen]
    simp only [List.drop_zero, Nat.zero_add, Int.zero_add]
    have hb := get_next_break_le text
    by_cases hfit : wordWidth adv text 0 (get_next_break text) ≥ rwidth
    · rw [if_pos hfit]
      simp only [if_true]
      refine ⟨_, rfl, ?_, hb⟩
      simp only
      by_contra h0
      have hz : get_next_break text = 0 := by omega
      rw [hz, wordWidth_zero] at hfit
      omega
    · rw [if_neg hfit]
      by_cases hnl : charAt text (get_next_break text) = '\n'
      · rw [if_pos hnl]
        have := charAt_lt text _ _ hnl (by decide)
        exact ⟨_, rfl, by simp only; omega, by simp only; omega⟩
      · rw [if_neg hnl]
        by_cases hsp : charAt text (get_next_break text) = ' '
        · rw [if_pos hsp]
          have := charAt_lt text _ _ hsp (by decide)
          obtain ⟨r, hr, h1, h2⟩ := findTextBreak_loop_bounds adv text rwidth fuel
            (wordWidth adv text 0 (get_next_break text) + adv ' ')
            (get_next_break text + 1) (by omega) (by omega)
          exact ⟨r, hr, by omega, h2⟩
        · rw [if_neg hsp]
          have hend := get_next_break_end text hnl hsp
          obtain ⟨r, hr, h1, h2⟩ := findTextBreak_loop_bounds adv text rwidth fuel
            (wordWidth adv text 0 (get_next_break text))
            (get_next_break text) (by omega) (by omega)
          exact ⟨r, hr, by omega, h2⟩

theorem calcTextHeight_loop_bounds (adv : Char → Int) (text : List Char) (rwidth : Int)
    (fuel : Nat) (hw : 0 < rwidth) (hfuel : text.length + 1 ≤ fuel) :
    ∀ (steps pos num_lines : Nat), pos ≤ text.length → text.length - pos + 1 ≤ steps →
      ∃ k, calcTextHeight_loop fuel text text.length adv rwidth steps pos num_lines = some k ∧
        (pos = text.length → k = num_lines) ∧
        (pos < text.length → num_lines + 1 ≤ k ∧ k ≤ num_lines + (text.length - pos)) := by
  intro steps
  induction steps with
  | zero => intro _ _ _ h; omega
  | succ steps ih =>
    intro pos num_lines hpos hsteps
    unfold calcTextHeight_loop
    by_cases hlt : pos < text.length
    · rw [if_pos hlt]
      have hne : text.drop pos ≠ [] := by
        intro h
        have := congrArg List.length h
        simp at this
        omega
      obtain ⟨r, hr, h1, h2⟩ := findTextBreak_bounds adv (text.drop pos) rwidth fuel hw hne
        (by simp only [List.length_drop]; omega)
      simp only [List.length_drop] at h2
      rw [hr]
      simp only []
      obtain ⟨k, hk, hk1, hk2⟩ := ih (pos + r.1) (num_lines + 1) (by omega) (by omega)
      refine ⟨k, hk, fun h => by omega, fun _ => ?_⟩
      by_cases hend : pos + r.1 = text.length
      · have := hk1 hend
        omega
      · have := hk2 (by omega)
        omega
    · rw [if_neg hlt]
      exact ⟨_, rfl, fun _ => rfl, fun h => absurd h hlt⟩

/-- C29.  Text wrapping terminates.  For every text, every font and every `region_width > 0`,
with fuel for more passes than the text has characters: `findTextBreak` on a non-empty text
returns a count between 1 and the length of the text; so does every call the loop of
`calcTextHeight(text, strlen(text), font, region_width)` makes, on the rest of the text from a
position `pos < strlen(text)`, which therefore moves on by at least one character and never
past the end; and `calcTextHeight` returns: 0 for the empty text, else a number of lines
between 1 and `strlen(text)`.  The advances of the font need not be non-negative for this. -/
theorem text_wrapping_terminates (getCharAdvance : Char → Int) (text : List Char)
    (region_width : Int) (fuel : Nat) (hw : 0 < region_width)
    (hfuel : text.length + 1 ≤ fuel) :
    (text ≠ [] → ∃ r, findTextBreak fuel text getCharAdvance region_width = some r ∧
      1 ≤ r.1 ∧ r.1 ≤ text.length) ∧
    (∀ pos, pos < text.length →
      ∃ r, findTextBreak fuel (text.drop pos) getCharAdvance region_width = some r ∧
        1 ≤ r.1 ∧ pos + r.1 ≤ text.length) ∧
    ∃ k, calcTextHeight fuel text text.length getCharAdvance region_width = some k ∧
      (text = [] → k = 0) ∧ (text ≠ [] → 1 ≤ k ∧ k ≤ text.length) := by
  refine ⟨fun hne => findTextBreak_bounds getCharAdvance text region_width fuel hw hne hfuel,
    ?_, ?_⟩
  · intro pos hpos
    have hne : text.drop pos ≠ [] := by
      intro h
      have := congrArg List.length h
      simp at this
      omega
    obtain ⟨r, hr, h1, h2⟩ := findTextBreak_bounds getCharAdvance (text.drop pos)
      region_width fuel hw hne (by simp only [List.length_drop]; omega)
    simp only [List.length_drop] at h2
    exact ⟨r, hr, h1, by omega⟩
  · obtain ⟨k, hk, hk1, hk2⟩ := calcTextHeight_loop_bounds getCharAdvance text region_width
      fuel hw hfuel fuel 0 0 (Nat.zero_le _) (by omega)
    refine ⟨k, hk, ?_, ?_⟩
    · intro h
      apply hk1
      simp [h]
    · intro h
      have hlen : 0 < text.length := List.length_pos.mpr h
      have := hk2 hlen
      omega

/-- C29, for the text "ab c", every character one unit wide, in a region three units wide:
`findTextBreak` returns a count between 1 and 4, and `calcTextHeight` a number of lines
between 1 and 4; evaluated, they are 3 characters and 2 lines. -/
theorem text_wrapping_terminates_witness :
    ((['a', 'b', ' ', 'c'] ≠ [] →
        ∃ r, findTextBreak 10 ['a', 'b', ' ', 'c'] (fun _ => 1) 3 = some r ∧
          1 ≤ r.1 ∧ r.1 ≤ ['a', 'b', ' ', 'c'].length) ∧
      (∀ pos, pos < ['a', 'b', ' ', 'c'].length →
        ∃ r, findTextBreak 10 (['a', 'b', ' ', 'c'].drop pos) (fun _ => 1) 3 = some r ∧
          1 ≤ r.1 ∧ pos + r.1 ≤ ['a', 'b', ' ', 'c'].length) ∧
      ∃ k, calcTextHeight 10 ['a', 'b', ' ', 'c'] ['a', 'b', ' ', 'c'].length (fun _ => 1) 3
          = some k ∧
        (['a', 'b', ' ', 'c'] = [] → k = 0) ∧
        (['a', 'b', ' ', 'c'] ≠ [] → 1 ≤ k ∧ k ≤ ['a', 'b', ' ', 'c'].length)) ∧
    findTextBreak 10 ['a', 'b', ' ', 'c'] (fun _ => 1) 3 = some (3, 3) ∧
    calcTextHeight 10 ['a', 'b', ' ', 'c'] 4 (fun _ => 1) 3 = some 2 :=
  ⟨text_wrapping_terminates (fun _ => 1) ['a', 'b', ' ', 'c'] 3 10 (by decide) (by decide),
    by decide, by decide⟩

/-! ### C25: a failed blob allocation -/

theorem noBlob_cachedOut (cfg : Config) (n : MC_TextureNode) (h : noBlob cfg n) :
    noBlob cfg { n with gosTextureHandle := cfg.CACHED_OUT_HANDLE } :=
  ⟨h.1, Or.inr rfl⟩

theorem noBlob_not_resident (cfg : Config) (n : MC_TextureNode) (h : noBlob cfg n) :
    isResident cfg n = false := by
  rcases h.2 with h0 | hc
  · simp [isResident, h0]
  · simp [isResident, hc]

theorem flushCache_noBlob (cfg : Config) (s : MC_TextureManager) (i : Nat)
    (n : MC_TextureNode) (hn : s.masterTextureNodes[i]? = some n) (hb : noBlob cfg n) :
    ∃ n1, (flushCache cfg s).2.masterTextureNodes[i]? = some n1 ∧ noBlob cfg n1 := by
  rcases flushCache_node cfg s i n hn with h | h
  · exact ⟨n, h, hb⟩
  · exact ⟨_, h, noBlob_cachedOut cfg n hb⟩

theorem update_noBlob (cfg : Config) (s : MC_TextureManager) (i : Nat)
    (n : MC_TextureNode) (hn : s.masterTextureNodes[i]? = some n) (hb : noBlob cfg n) :
    ∃ n1, (update cfg s).2.masterTextureNodes[i]? = some n1 ∧ noBlob cfg n1 := by
  rcases update_node cfg s i n hn with h | h
  · exact ⟨n, h, hb⟩
  · exact ⟨_, h, noBlob_cachedOut cfg n hb⟩

theorem get_gosTextureHandle_noBlob (cfg : Config) (s : MC_TextureManager) (i : Nat)
    (n : MC_TextureNode) (hn : s.masterTextureNodes[i]? = some n) (hb : noBlob cfg n) :
    ∃ s1 n1, get_gosTextureHandle cfg s i = Run.done (0, s1) ∧
      s1.masterTextureNodes[i]? = some n1 ∧ noBlob cfg n1 ∧
      s1.textureList_.length = s.textureList_.length := by
  have hlt : i < s.masterTextureNodes.length := by
    rcases List.getElem?_eq_some.mp hn with ⟨hl, _⟩
    exact hl
  unfold get_gosTextureHandle
  rw [hn]
  simp only []
  by_cases h1 : n.gosTextureHandle = 0xffffffff
  · rw [if_pos h1]
    exact ⟨s, n, rfl, hn, hb, rfl⟩
  · rw [if_neg h1]
    by_cases h2 : n.gosTextureHandle ≠ cfg.CACHED_OUT_HANDLE
    · rw [if_pos h2]
      have h0 : n.gosTextureHandle = 0 := by
        rcases hb.2 with h | h
        · exact h
        · exact absurd h h2
      rw [h0, modifyNode_eq_set s i _ n hn]
      refine ⟨_, { n with lastUsed := s.turn }, rfl, ?_, ⟨hb.1, hb.2⟩, rfl⟩
      simp [List.getElem?_set_self hlt]
    · rw [if_neg h2]
      have hres : ∃ n1,
          (if s.currentUsedTextures ≥ cfg.MAX_MC2_GOS_TEXTURES then flushCache cfg s
            else (true, s)).2.masterTextureNodes[i]? = some n1 ∧ noBlob cfg n1 ∧
          (if s.currentUsedTextures ≥ cfg.MAX_MC2_GOS_TEXTURES then flushCache cfg s
            else (true, s)).2.textureList_.length = s.textureList_.length := by
        by_cases hfull : s.currentUsedTextures ≥ cfg.MAX_MC2_GOS_TEXTURES
        · rw [if_pos hfull]
          obtain ⟨n1, hn1, hb1⟩ := flushCache_noBlob cfg s i n hn hb
          exact ⟨n1, hn1, hb1, (flushCache_length cfg s).2⟩
        · rw [if_neg hfull]
          exact ⟨n, hn, hb, rfl⟩
      generalize (if s.currentUsedTextures ≥ cfg.MAX_MC2_GOS_TEXTURES then flushCache cfg s
        else (true, s)) = r at hres ⊢
      obtain ⟨n1, hn1, hb1, hlen⟩ := hres
      by_cases hr : r.1 = false
      · rw [if_pos hr]
        exact ⟨_, n1, rfl, hn1, hb1, hlen⟩
      · rw [if_neg hr]
        by_cases hw : n.width = 0
        · rw [if_pos hw]
          exact ⟨_, n1, rfl, hn1, hb1, hlen⟩
        · rw [if_neg hw, hb.1]
          exact ⟨_, n1, rfl, hn1, hb1, hlen⟩

theorem stepCache_noBlob (cfg : Config) (s s1 : MC_TextureManager) (c : CacheCall) (i : Nat)
    (n : MC_TextureNode) (hn : s.masterTextureNodes[i]? = some n) (hb : noBlob cfg n)
    (hstep : stepCache cfg s c = Run.done s1) :
    ∃ n1, s1.masterTextureNodes[i]? = some n1 ∧ noBlob cfg n1 := by
  cases c with
  | get_gosTextureHandle j =>
    simp only [stepCache] at hstep
    by_cases hji : j = i
    · subst hji
      obtain ⟨s2, n2, hget, hn2, hb2, _⟩ := get_gosTextureHandle_noBlob cfg s j n hn hb
      rw [hget] at hstep
      simp only [Run.bind, Run.done.injEq] at hstep
      subst hstep
      exact ⟨n2, hn2, hb2⟩
    · cases hl : get_gosTextureHandle cfg s j with
      | stopped e =>
        rw [hl] at hstep
        exact absurd hstep (by simp [Run.bind])
      | done r =>
        rw [hl] at hstep
        simp only [Run.bind, Run.done.injEq] at hstep
        subst hstep
        rcases get_gosTextureHandle_others cfg s j r.1 r.2 hl i hji with ho | ho
        · rw [ho]
          exact ⟨n, hn, hb⟩
        · rw [ho]
          exact flushCache_noBlob cfg s i n hn hb
  | flushCache =>
    simp only [stepCache, Run.done.injEq] at hstep
    subst hstep
    exact flushCache_noBlob cfg s i n hn hb
  | update =>
    simp only [stepCache, Run.done.injEq] at hstep
    subst hstep
    exact update_noBlob cfg s i n hn hb
  | advanceTurn k =>
    simp only [stepCache, Run.done.injEq] at hstep
    subst hstep
    exact ⟨n, hn, hb⟩

theorem runCache_noBlob (cfg : Config) (i : Nat) :
    ∀ (calls : List CacheCall) (s s1 : MC_TextureManager) (n : MC_TextureNode),
      s.masterTextureNodes[i]? = some n → noBlob cfg n →
      runCache cfg s calls = Run.done s1 →
      ∃ n1, s1.masterTextureNodes[i]? = some n1 ∧ noBlob cfg n1 := by
  intro calls
  induction calls with
  | nil =>
    intro s s1 n hn hb hrun
    simp only [runCache, Run.done.injEq] at hrun
    subst hrun
    exact ⟨n, hn, hb⟩
  | cons c cs ih =>
    intro s s1 n hn hb hrun
    simp only [runCache] at hrun
    cases hstep : stepCache cfg s c with
    | stopped e =>
      rw [hstep] at hrun
      exact absurd hrun (by simp [Run.bind])
    | done s2 =>
      rw [hstep] at hrun
      simp only [Run.bind] at hrun
      obtain ⟨n2, hn2, hb2⟩ := stepCache_noBlob cfg s s2 c i n hn hb hstep
      exact ih s2 s1 n2 hn2 hb2 hrun

theorem loadTexture_no_blob (cfg : Config) (s : MC_TextureManager) (p : String)
    (key : gos_TextureFormat) (hints u nFlush : Nat) (f : TextureFile) (i : Nat)
    (n0 : MC_TextureNode)
    (hmiss : ∀ m ∈ s.masterTextureNodes, isLoaded cfg p u m = false)
    (hn0 : s.masterTextureNodes[i]? = some n0) (hfree : n0.gosTextureHandle = 0xffffffff)
    (hlow : ∀ m ∈ s.masterTextureNodes.take i, m.gosTextureHandle ≠ 0xffffffff)
    (hraw : f.readRAW = none ∨ f.readRAW = some [])
    (hsize : f.content.length ≤ cfg.MAX_LZ_BUFFER_SIZE) :
    ∃ s1, loadTexture cfg s p key hints u nFlush (some f) false = Run.done (i, s1) ∧
      ∃ n, s1.masterTextureNodes[i]? = some n ∧ n.textureData = none ∧
        n.gosTextureHandle = 0 := by
  have hmiss2 : firstIndex (isLoaded cfg p u) s.masterTextureNodes = none :=
    (firstIndex_eq_none _ _).mpr hmiss
  have hsome := firstFree_of_lowest s i n0 hn0 hfree hlow
  have hlt : i < s.masterTextureNodes.length := by
    rcases List.getElem?_eq_some.mp hn0 with ⟨hl, _⟩
    exact hl
  unfold loadTexture
  rw [hmiss2]
  simp only [hsome, openTextureFile]
  rcases hraw with hraw | hraw
  · simp only [hraw, hsize, if_true]
    refine ⟨_, rfl, ?_⟩
    simp only [modifyNode, modifyAt_eq_set _ _ i n0 hn0, List.getElem?_set_self hlt]
    refine ⟨_, rfl, ?_, ?_⟩ <;> simp
  · simp only [hraw, hsize, if_true]
    refine ⟨_, rfl, ?_⟩
    simp only [modifyNode, modifyAt_eq_set _ _ i n0 hn0, List.getElem?_set_self hlt]
    refine ⟨_, rfl, ?_, ?_⟩ <;> simp

theorem textureFromMemory_no_blob (cfg : Config) (s : MC_TextureManager) (data : List Nat)
    (key : gos_TextureFormat) (hints width bitDepth : Nat) (i : Nat) (n0 : MC_TextureNode)
    (hn0 : s.masterTextureNodes[i]? = some n0) (hfree : n0.gosTextureHandle = 0xffffffff)
    (hlow : ∀ m ∈ s.masterTextureNodes.take i, m.gosTextureHandle ≠ 0xffffffff)
    (hblob : n0.textureData = none) :
    ∃ s1, textureFromMemory cfg s data key hints width bitDepth false = Run.done (i, s1) ∧
      ∃ n, s1.masterTextureNodes[i]? = some n ∧ n.textureData = none ∧
        n.gosTextureHandle = 0 := by
  have hsome := firstFree_of_lowest s i n0 hn0 hfree hlow
  have hlt : i < s.masterTextureNodes.length := by
    rcases List.getElem?_eq_some.mp hn0 with ⟨hl, _⟩
    exact hl
  unfold textureFromMemory
  rw [hsome]
  refine ⟨_, rfl, ?_⟩
  simp only [modifyNode, modifyAt_eq_set _ _ i n0 hn0, List.getElem?_set_self hlt]
  refine ⟨_, rfl, ?_, ?_⟩ <;> simp [hblob]

/-- C25.  Allocation failure is soft and permanent.  (1) When `loadTexture`, on a dedupe miss
with `i` the lowest Free slot and a file that opens and is not larger than
`MAX_LZ_BUFFER_SIZE`, has to allocate the blob (`readRAW` handed back nothing) and the
allocation fails, it returns `i` without stopping, and node `i` has no blob and handle 0.
(2) The same holds for `textureFromMemory` when the slot has no blob and the allocation fails.
(3) From a state in which node `i` has no blob and handle 0, after every sequence of
`get_gosTextureHandle` (on any node), `flushCache` and `update` calls, with `turn` advancing
in between, that does not stop the program: node `i` still has no blob, its handle is 0 or
`CACHED_OUT_HANDLE`, so it is not Resident, and `get_gosTextureHandle` on it returns 0 and adds
no texture to the renderer's list. -/
theorem allocation_failure_is_permanent (cfg : Config) (s : MC_TextureManager) :
    (∀ (p : String) (key : gos_TextureFormat) (hints u nFlush : Nat) (f : TextureFile)
        (i : Nat) (n0 : MC_TextureNode),
      (∀ m ∈ s.masterTextureNodes, isLoaded cfg p u m = false) →
      s.masterTextureNodes[i]? = some n0 → n0.gosTextureHandle = 0xffffffff →
      (∀ m ∈ s.masterTextureNodes.take i, m.gosTextureHandle ≠ 0xffffffff) →
      (f.readRAW = none ∨ f.readRAW = some []) →
      f.content.length ≤ cfg.MAX_LZ_BUFFER_SIZE →
      ∃ s1 n, loadTexture cfg s p key hints u nFlush (some f) false = Run.done (i, s1) ∧
        s1.masterTextureNodes[i]? = some n ∧ n.textureData = none ∧
        n.gosTextureHandle = 0) ∧
    (∀ (data : List Nat) (key : gos_TextureFormat) (hints width bitDepth : Nat) (i : Nat)
        (n0 : MC_TextureNode),
      s.masterTextureNodes[i]? = some n0 → n0.gosTextureHandle = 0xffffffff →
      (∀ m ∈ s.masterTextureNodes.take i, m.gosTextureHandle ≠ 0xffffffff) →
      n0.textureData = none →
      ∃ s1 n, textureFromMemory cfg s data key hints width bitDepth false = Run.done (i, s1) ∧
        s1.masterTextureNodes[i]? = some n ∧ n.textureData = none ∧
        n.gosTextureHandle = 0) ∧
    (∀ (i : Nat) (n0 : MC_TextureNode) (calls : List CacheCall) (s1 : MC_TextureManager),
      s.masterTextureNodes[i]? = some n0 → n0.textureData = none →
      n0.gosTextureHandle = 0 → runCache cfg s calls = Run.done s1 →
      ∃ n, s1.masterTextureNodes[i]? = some n ∧ n.textureData = none ∧
        (n.gosTextureHandle = 0 ∨ n.gosTextureHandle = cfg.CACHED_OUT_HANDLE) ∧
        isResident cfg n = false ∧
        ∃ s2, get_gosTextureHandle cfg s1 i = Run.done (0, s2) ∧
          s2.textureList_.length = s1.textureList_.length) := by
  refine ⟨?_, ?_, ?_⟩
  · intro p key hints u nFlush f i n0 hmiss hn0 hfree hlow hraw hsize
    obtain ⟨s1, hload, n, hn, h1, h2⟩ :=
      loadTexture_no_blob cfg s p key hints u nFlush f i n0 hmiss hn0 hfree hlow hraw hsize
    exact ⟨s1, n, hload, hn, h1, h2⟩
  · intro data key hints width bitDepth i n0 hn0 hfree hlow hblob
    obtain ⟨s1, hload, n, hn, h1, h2⟩ :=
      textureFromMemory_no_blob cfg s data key hints width bitDepth i n0 hn0 hfree hlow hblob
    exact ⟨s1, n, hload, hn, h1, h2⟩
  · intro i n0 calls s1 hn0 hblob hzero hrun
    obtain ⟨n, hn, hb⟩ := runCache_noBlob cfg i calls s s1 n0 hn0 ⟨hblob, Or.inl hzero⟩ hrun
    obtain ⟨s2, _, hget, _, _, hlen⟩ := get_gosTextureHandle_noBlob cfg s1 i n hn hb
    exact ⟨n, hn, hb.1, hb.2, noBlob_not_resident cfg n hb, s2, hget, hlen⟩

/-- C25, at a concrete run: the blob of "a.tga" cannot be allocated, `loadTexture` returns
node 1 all the same; the node is asked for, 200 turns pass, `flushCache` and `update` run;
node 1 then has no blob and is not Resident, and `get_gosTextureHandle` on it returns 0. -/
theorem allocation_failure_is_permanent_witness :
    (∃ s1 n, loadTexture smallConfig startState "a.tga" gos_TextureFormat.gos_Texture_Solid
        0 0 0 (some threeByteFile) false = Run.done (1, s1) ∧
      s1.masterTextureNodes[1]? = some n ∧ n.textureData = none ∧
      n.gosTextureHandle = 0) ∧
    (∃ n, failedAllocLater.masterTextureNodes[1]? = some n ∧ n.textureData = none ∧
      (n.gosTextureHandle = 0 ∨ n.gosTextureHandle = smallConfig.CACHED_OUT_HANDLE) ∧
      isResident smallConfig n = false ∧
      ∃ s2, get_gosTextureHandle smallConfig failedAllocLater 1 = Run.done (0, s2) ∧
        s2.textureList_.length = failedAllocLater.textureList_.length) ∧
    handles failedAllocLater = [0xFFFFFFFA, 0xFFFFFFFA, 0xffffffff, 0xffffffff, 0xffffffff] :=
  ⟨(allocation_failure_is_permanent smallConfig startState).1 "a.tga"
      gos_TextureFormat.gos_Texture_Solid 0 0 0 threeByteFile 1 MC_TextureNode.init
      (by decide) (by decide) (by decide) (by decide) (by decide) (by decide),
   (allocation_failure_is_permanent smallConfig failedAllocState).2.2 1 failedAllocNode
      failedAllocCacheCalls failedAllocLater (by decide) (by decide) (by decide) (by decide),
   by decide⟩

end MC2
